import Mathlib

/-!
Shallow embedding of the Fates of Olympus card-battle engine
(src/engine/rules.py, src/engine/effects.py, src/engine/controller.py,
with the data model from the repository's engine models module,
src/old-python-engine/engine/models.py, whose definitions the new
engine imports as `engine.models` and calls with identical signatures).

Conventions of the embedding:
- Python ints are `Int` for power/energy values and `Nat` for
  identifiers, counts, turn numbers and location indices.
- `PlayerId` is a two-element inductive type (the engine only ever
  constructs ids 0 and 1; `PlayerId(1 - p)` becomes `PlayerId.other`).
- `LocationState.cards_by_player` (a dict with both keys always
  present, created by `create_empty_location` and preserved by every
  update) becomes the two fields `cards0`/`cards1`; dict iteration
  order (insertion order: player 0 then player 1) becomes the fixed
  order `cards0` then `cards1`.
- `GameState.get_location` / `GameState.with_location` raise in Python
  for an index outside {0,1,2}; those calls are unreachable in the
  engine (validation and `create_initial_locations` keep indices in
  range).  The embedding totalises them (`get_location` defaults to
  `loc2`, `with_location` to the unchanged state).
-/

namespace Fates

/-- Player identifier 0 or 1 (engine.types.PlayerId). -/
inductive PlayerId where
  | P0
  | P1
  deriving DecidableEq, Repr

/-- `PlayerId(1 - p)`: the opposing player. -/
def PlayerId.other : PlayerId → PlayerId
  | .P0 => .P1
  | .P1 => .P0

/-- Numeric rank of a player id, used where Python compares/sorts ids. -/
def PlayerId.rank : PlayerId → Nat
  | .P0 => 0
  | .P1 => 1

/-- engine.types.AbilityType. -/
inductive AbilityType where
  | VANILLA
  | ON_REVEAL
  | ONGOING
  deriving DecidableEq, Repr

/-- engine.types.TargetFilter. -/
inductive TargetFilter where
  | SELF
  | SAME_LOCATION_FRIENDLY
  | SAME_LOCATION_ENEMY
  | SAME_LOCATION_ALL
  | ALL_FRIENDLY
  | ALL_ENEMY
  | ALL_CARDS
  | OTHER_LOCATIONS_FRIENDLY
  | LEFTMOST_FRIENDLY
  | RIGHTMOST_FRIENDLY
  | ONE_SAME_LOCATION_FRIENDLY
  | ONE_SAME_LOCATION_ENEMY
  | FRIENDLY_WITH_DESTROY_TAG
  deriving DecidableEq, Repr

/-- engine.types.GamePhase. -/
inductive GamePhase where
  | TURN_START
  | PLANNING
  | RESOLUTION
  | TURN_END
  | GAME_OVER
  deriving DecidableEq, Repr

/-- engine.types.GameResult. -/
inductive GameResult where
  | PLAYER_0_WINS
  | PLAYER_1_WINS
  | DRAW
  | IN_PROGRESS
  deriving DecidableEq, Repr

/-- engine.types.MAX_TURNS. -/
def MAX_TURNS : Nat := 6

/-- engine.types.LOCATION_CAPACITY. -/
def LOCATION_CAPACITY : Nat := 4

/-- engine.types.STARTING_HAND_SIZE. -/
def STARTING_HAND_SIZE : Nat := 3

/-- The closed set of effect variants of src/engine/effects.py, as one
tagged union (each Python effect dataclass is one constructor, with the
same fields in the same order). -/
inductive Effect where
  | addPower (target : TargetFilter) (amount : Int)
  | addOngoingPower (target : TargetFilter) (amount : Int)
  | conditionalOngoingPower (target : TargetFilter) (amount : Int) (condition : String)
  | moveCard (target : TargetFilter) (to_other_location : Bool) (destination : Option Nat)
  | destroyCard (target : TargetFilter)
  | destroyAndBuff (destroy_target : TargetFilter) (buff_target : TargetFilter) (buff_amount : Int)
  | destroyAndGainPower (destroy_target : TargetFilter)
  | conditionalPower (target : TargetFilter) (amount : Int) (condition : String)
  | silenceOngoing (target : TargetFilter)
  | stealPower (target : TargetFilter) (amount : Int)
  | scalingOngoingPower (target : TargetFilter) (per_card_amount : Int) (count_filter : TargetFilter)
  | scalingPower (target : TargetFilter) (per_destroyed_amount : Int)
  | revive (base_spirit_power : Int)
  deriving DecidableEq, Repr

/-- engine.models.CardDef. -/
structure CardDef where
  id : String
  name : String
  cost : Int
  base_power : Int
  text : String
  ability_type : AbilityType
  effects : List Effect
  tags : List String
  deriving DecidableEq, Repr

/-- engine.models.CardInstance. -/
structure CardInstance where
  instance_id : Nat
  card_def : CardDef
  owner : PlayerId
  permanent_power_modifier : Int
  ongoing_power_modifier : Int
  revealed : Bool
  deriving DecidableEq, Repr

/-- CardInstance.effective_power. -/
def CardInstance.effective_power (c : CardInstance) : Int :=
  c.card_def.base_power + c.permanent_power_modifier + c.ongoing_power_modifier

/-- CardInstance.with_ongoing_power_modifier. -/
def CardInstance.with_ongoing_power_modifier (c : CardInstance) (modifier : Int) : CardInstance :=
  { c with ongoing_power_modifier := modifier }

/-- CardInstance.with_revealed. -/
def CardInstance.with_revealed (c : CardInstance) (revealed : Bool) : CardInstance :=
  { c with revealed := revealed }

/-- CardInstance.add_permanent_power. -/
def CardInstance.add_permanent_power (c : CardInstance) (amount : Int) : CardInstance :=
  { c with permanent_power_modifier := c.permanent_power_modifier + amount }

/-- CardInstance.add_ongoing_power. -/
def CardInstance.add_ongoing_power (c : CardInstance) (amount : Int) : CardInstance :=
  { c with ongoing_power_modifier := c.ongoing_power_modifier + amount }

/-- engine.models.PlayerState. -/
structure PlayerState where
  player_id : PlayerId
  deck : List CardInstance
  hand : List CardInstance
  energy : Int
  max_energy : Int
  deriving DecidableEq, Repr

/-- PlayerState.with_deck. -/
def PlayerState.with_deck (p : PlayerState) (deck : List CardInstance) : PlayerState :=
  { p with deck := deck }

/-- PlayerState.with_hand. -/
def PlayerState.with_hand (p : PlayerState) (hand : List CardInstance) : PlayerState :=
  { p with hand := hand }

/-- PlayerState.with_energy (both energy and max_energy supplied). -/
def PlayerState.with_energy (p : PlayerState) (energy max_energy : Int) : PlayerState :=
  { p with energy := energy, max_energy := max_energy }

/-- PlayerState.draw_card: the empty deck gives back the same state and
no card; otherwise the head of the deck moves to the end of the hand. -/
def PlayerState.draw_card (p : PlayerState) : PlayerState × Option CardInstance :=
  match p.deck with
  | [] => (p, none)
  | drawn :: rest => ({ p with deck := rest, hand := p.hand ++ [drawn] }, some drawn)

/-- First card of a list carrying the given instance id, with the list
minus that one occurrence (the scan pattern of PlayerState.remove_from_hand
and LocationState.remove_card). -/
def removeFirstCard (instance_id : Nat) : List CardInstance → List CardInstance × Option CardInstance
  | [] => ([], none)
  | c :: cs =>
    if c.instance_id = instance_id then (cs, some c)
    else
      let r := removeFirstCard instance_id cs
      (c :: r.1, r.2)

/-- PlayerState.remove_from_hand. -/
def PlayerState.remove_from_hand (p : PlayerState) (instance_id : Nat) :
    PlayerState × Option CardInstance :=
  let r := removeFirstCard instance_id p.hand
  match r.2 with
  | some card => ({ p with hand := r.1 }, some card)
  | none => (p, none)

/-- PlayerState.spend_energy. -/
def PlayerState.spend_energy (p : PlayerState) (amount : Int) : PlayerState :=
  { p with energy := p.energy - amount }

/-- engine.models.LocationState; the `cards_by_player` dict (both keys
always present, player 0 inserted first) is the pair of fields
`cards0`, `cards1`. -/
structure LocationState where
  index : Nat
  cards0 : List CardInstance
  cards1 : List CardInstance
  deriving DecidableEq, Repr

/-- LocationState.get_cards. -/
def LocationState.get_cards (l : LocationState) : PlayerId → List CardInstance
  | .P0 => l.cards0
  | .P1 => l.cards1

/-- LocationState.card_count. -/
def LocationState.card_count (l : LocationState) (player_id : PlayerId) : Nat :=
  (l.get_cards player_id).length

/-- LocationState.add_card. -/
def LocationState.add_card (l : LocationState) (card : CardInstance) (player_id : PlayerId) :
    LocationState :=
  match player_id with
  | .P0 => { l with cards0 := l.cards0 ++ [card] }
  | .P1 => { l with cards1 := l.cards1 ++ [card] }

/-- LocationState.remove_card: the Python loop scans player 0's cards
then player 1's and removes only the first card matching the id
(`removed_card is None` guards later matches). -/
def LocationState.remove_card (l : LocationState) (instance_id : Nat) :
    LocationState × Option CardInstance :=
  let r0 := removeFirstCard instance_id l.cards0
  match r0.2 with
  | some card => ({ l with cards0 := r0.1 }, some card)
  | none =>
    let r1 := removeFirstCard instance_id l.cards1
    match r1.2 with
    | some card => ({ l with cards1 := r1.1 }, some card)
    | none => (l, none)

/-- LocationState.update_card: replaces every card whose instance id
matches the updated card's. -/
def LocationState.update_card (l : LocationState) (updated_card : CardInstance) : LocationState :=
  { l with
    cards0 := l.cards0.map fun c =>
      if c.instance_id = updated_card.instance_id then updated_card else c,
    cards1 := l.cards1.map fun c =>
      if c.instance_id = updated_card.instance_id then updated_card else c }

/-- LocationState.total_power. -/
def LocationState.total_power (l : LocationState) (player_id : PlayerId) : Int :=
  ((l.get_cards player_id).map CardInstance.effective_power).sum

/-- LocationState.all_cards (player 0's cards first, dict order). -/
def LocationState.all_cards (l : LocationState) : List CardInstance :=
  l.cards0 ++ l.cards1

/-- engine.models.GameState; the `players` pair and `locations` triple
are flattened into named fields. -/
structure GameState where
  turn : Nat
  phase : GamePhase
  player0 : PlayerState
  player1 : PlayerState
  loc0 : LocationState
  loc1 : LocationState
  loc2 : LocationState
  result : GameResult
  next_instance_id : Nat
  cards_destroyed_this_game : List Nat
  cards_moved_this_game : List Nat
  cards_moved_this_turn : List Nat
  silenced_cards : List Nat
  deriving DecidableEq, Repr

/-- GameState.get_player. -/
def GameState.get_player (s : GameState) : PlayerId → PlayerState
  | .P0 => s.player0
  | .P1 => s.player1

/-- GameState.get_location (total; an index outside {0,1,2} raises in
Python and is unreachable in the engine). -/
def GameState.get_location (s : GameState) : Nat → LocationState
  | 0 => s.loc0
  | 1 => s.loc1
  | _ => s.loc2

/-- GameState.with_player. -/
def GameState.with_player (s : GameState) (player_id : PlayerId) (player_state : PlayerState) :
    GameState :=
  match player_id with
  | .P0 => { s with player0 := player_state }
  | .P1 => { s with player1 := player_state }

/-- GameState.with_location (total; an index outside {0,1,2} raises in
Python and is unreachable in the engine). -/
def GameState.with_location (s : GameState) (index : Nat) (location_state : LocationState) :
    GameState :=
  match index with
  | 0 => { s with loc0 := location_state }
  | 1 => { s with loc1 := location_state }
  | 2 => { s with loc2 := location_state }
  | _ => s

/-- GameState.with_turn. -/
def GameState.with_turn (s : GameState) (turn : Nat) : GameState :=
  { s with turn := turn }

/-- GameState.with_phase. -/
def GameState.with_phase (s : GameState) (phase : GamePhase) : GameState :=
  { s with phase := phase }

/-- GameState.with_result. -/
def GameState.with_result (s : GameState) (result : GameResult) : GameState :=
  { s with result := result }

/-- GameState.with_next_instance_id. -/
def GameState.with_next_instance_id (s : GameState) (next_id : Nat) : GameState :=
  { s with next_instance_id := next_id }

/-- GameState.with_card_destroyed. -/
def GameState.with_card_destroyed (s : GameState) (instance_id : Nat) : GameState :=
  { s with cards_destroyed_this_game := s.cards_destroyed_this_game ++ [instance_id] }

/-- GameState.with_card_moved (tracks both this turn and this game). -/
def GameState.with_card_moved (s : GameState) (instance_id : Nat) : GameState :=
  { s with
    cards_moved_this_game := s.cards_moved_this_game ++ [instance_id],
    cards_moved_this_turn := s.cards_moved_this_turn ++ [instance_id] }

/-- GameState.clear_turn_tracking. -/
def GameState.clear_turn_tracking (s : GameState) : GameState :=
  { s with cards_moved_this_turn := [] }

/-- GameState.with_silenced_card. -/
def GameState.with_silenced_card (s : GameState) (instance_id : Nat) : GameState :=
  if instance_id ∈ s.silenced_cards then s
  else { s with silenced_cards := s.silenced_cards ++ [instance_id] }

/-- GameState.is_silenced. -/
def GameState.is_silenced (s : GameState) (instance_id : Nat) : Bool :=
  instance_id ∈ s.silenced_cards

/-- GameState.location_is_full. -/
def GameState.location_is_full (s : GameState) (location_idx : Nat) (player_id : PlayerId) : Bool :=
  LOCATION_CAPACITY ≤ (s.get_location location_idx).card_count player_id

/-- GameState.has_destroyed_card_this_game. -/
def GameState.has_destroyed_card_this_game (s : GameState) : Bool :=
  0 < s.cards_destroyed_this_game.length

/-- GameState.has_moved_card_this_game. -/
def GameState.has_moved_card_this_game (s : GameState) : Bool :=
  0 < s.cards_moved_this_game.length

/-- GameState.has_moved_card_this_turn. -/
def GameState.has_moved_card_this_turn (s : GameState) : Bool :=
  0 < s.cards_moved_this_turn.length

/-- First card of a list carrying the given instance id (the common
`for card in ...: if card.instance_id == ...` scan). -/
def findCardInList (instance_id : Nat) : List CardInstance → Option CardInstance
  | [] => none
  | c :: cs => if c.instance_id = instance_id then some c else findCardInList instance_id cs

/-- The containers of a state in the exact order
GameState.find_card_by_instance scans them: player 0's hand, player 0's
deck, player 1's hand, player 1's deck, then each location's cards. -/
def GameState.searchOrderCards (s : GameState) : List CardInstance :=
  s.player0.hand ++ s.player0.deck ++ s.player1.hand ++ s.player1.deck ++
    s.loc0.all_cards ++ s.loc1.all_cards ++ s.loc2.all_cards

/-- GameState.find_card_by_instance. -/
def GameState.find_card_by_instance (s : GameState) (instance_id : Nat) : Option CardInstance :=
  findCardInList instance_id s.searchOrderCards

/-- Whether a location holds a card with the given instance id. -/
def LocationState.holds (l : LocationState) (instance_id : Nat) : Bool :=
  l.all_cards.any fun c => c.instance_id = instance_id

/-- GameState.find_card_location: index (the location's own `index`
field) of the first location holding the card, scanning 0 → 2. -/
def GameState.find_card_location (s : GameState) (instance_id : Nat) : Option Nat :=
  if s.loc0.holds instance_id then some s.loc0.index
  else if s.loc1.holds instance_id then some s.loc1.index
  else if s.loc2.holds instance_id then some s.loc2.index
  else none

/-- GameState.all_board_cards. -/
def GameState.all_board_cards (s : GameState) : List CardInstance :=
  s.loc0.all_cards ++ s.loc1.all_cards ++ s.loc2.all_cards

/-- engine.models.PlayCardAction / PassAction as one tagged union. -/
inductive PlayerAction where
  | play (player_id : PlayerId) (card_instance_id : Nat) (location : Nat)
  | pass (player_id : PlayerId)
  deriving DecidableEq, Repr

/-- The acting player of an action. -/
def PlayerAction.player_id : PlayerAction → PlayerId
  | .play p _ _ => p
  | .pass p => p

/-- engine.models.create_empty_location. -/
def create_empty_location (index : Nat) : LocationState :=
  { index := index, cards0 := [], cards1 := [] }

/-- The typed event records of src/engine/events.py as one tagged
union (field order follows the dataclasses). -/
inductive GameEvent where
  | turnStarted (turn : Nat)
  | turnEnded (turn : Nat)
  | energySet (player_id : PlayerId) (energy : Int)
  | energySpent (player_id : PlayerId) (amount : Int) (remaining : Int)
  | cardDrawn (player_id : PlayerId) (card_instance_id : Nat)
  | cardPlayed (player_id : PlayerId) (card_instance_id : Nat) (location : Nat)
  | cardRevealed (card_instance_id : Nat) (location : Nat) (player_id : PlayerId)
  | cardMoved (card_instance_id : Nat) (from_location : Nat) (to_location : Nat)
      (source_card_id : Option Nat)
  | cardDestroyed (card_instance_id : Nat) (location : Nat) (source_card_id : Option Nat)
  | powerChanged (card_instance_id : Nat) (old_power : Int) (new_power : Int)
      (source_card_id : Option Nat)
  | playerPassed (player_id : PlayerId)
  | actionInvalid (player_id : PlayerId) (reason : String)
  | gameStarted
  | gameEnded (result : GameResult)
      (location_winners : Option PlayerId × Option PlayerId × Option PlayerId)
      (location_powers : (Int × Int) × (Int × Int) × (Int × Int))
      (total_power : Int × Int)
  deriving DecidableEq, Repr

/-! ### Target resolver (src/engine/effects.py, `_resolve_targets`) -/

/-- The LEFTMOST_FRIENDLY scan: first friendly card found over the given
locations, in order. -/
def leftmostScan (source_player : PlayerId) : List LocationState → List CardInstance
  | [] => []
  | l :: rest =>
    match l.get_cards source_player with
    | [] => leftmostScan source_player rest
    | c :: _ => [c]

/-- The RIGHTMOST_FRIENDLY scan: over already-reversed locations, the
last card of the first non-empty friendly list. -/
def rightmostScan (source_player : PlayerId) : List LocationState → List CardInstance
  | [] => []
  | l :: rest =>
    match (l.get_cards source_player).getLast? with
    | none => rightmostScan source_player rest
    | some c => [c]

/-- effects._resolve_targets. -/
def _resolve_targets (state : GameState) (source_card : CardInstance)
    (source_player : PlayerId) (target_filter : TargetFilter) : List CardInstance :=
  let source_location := state.find_card_location source_card.instance_id
  match target_filter with
  | .SELF => [source_card]
  | .SAME_LOCATION_FRIENDLY =>
    match source_location with
    | none => []
    | some li =>
      ((state.get_location li).get_cards source_player).filter
        fun c => c.instance_id ≠ source_card.instance_id
  | .SAME_LOCATION_ENEMY =>
    match source_location with
    | none => []
    | some li => (state.get_location li).get_cards source_player.other
  | .SAME_LOCATION_ALL =>
    match source_location with
    | none => []
    | some li =>
      (state.get_location li).all_cards.filter
        fun c => c.instance_id ≠ source_card.instance_id
  | .ALL_FRIENDLY =>
    (state.loc0.get_cards source_player).filter
        (fun c => c.instance_id ≠ source_card.instance_id) ++
      (state.loc1.get_cards source_player).filter
        (fun c => c.instance_id ≠ source_card.instance_id) ++
      (state.loc2.get_cards source_player).filter
        (fun c => c.instance_id ≠ source_card.instance_id)
  | .ALL_ENEMY =>
    state.loc0.get_cards source_player.other ++ state.loc1.get_cards source_player.other ++
      state.loc2.get_cards source_player.other
  | .ALL_CARDS =>
    state.loc0.all_cards.filter (fun c => c.instance_id ≠ source_card.instance_id) ++
      state.loc1.all_cards.filter (fun c => c.instance_id ≠ source_card.instance_id) ++
      state.loc2.all_cards.filter (fun c => c.instance_id ≠ source_card.instance_id)
  | .OTHER_LOCATIONS_FRIENDLY =>
    match source_location with
    | none =>
      state.loc0.get_cards source_player ++ state.loc1.get_cards source_player ++
        state.loc2.get_cards source_player
    | some li =>
      (if state.loc0.index ≠ li then state.loc0.get_cards source_player else []) ++
        (if state.loc1.index ≠ li then state.loc1.get_cards source_player else []) ++
        (if state.loc2.index ≠ li then state.loc2.get_cards source_player else [])
  | .LEFTMOST_FRIENDLY => leftmostScan source_player [state.loc0, state.loc1, state.loc2]
  | .RIGHTMOST_FRIENDLY => rightmostScan source_player [state.loc2, state.loc1, state.loc0]
  | .ONE_SAME_LOCATION_FRIENDLY =>
    match source_location with
    | none => []
    | some li =>
      match ((state.get_location li).get_cards source_player).find?
          (fun c => c.instance_id ≠ source_card.instance_id) with
      | none => []
      | some c => [c]
  | .ONE_SAME_LOCATION_ENEMY =>
    match source_location with
    | none => []
    | some li =>
      match (state.get_location li).get_cards source_player.other with
      | [] => []
      | c :: _ => [c]
  | .FRIENDLY_WITH_DESTROY_TAG =>
    (state.loc0.get_cards source_player).filter (fun c => "Destroy" ∈ c.card_def.tags) ++
      (state.loc1.get_cards source_player).filter (fun c => "Destroy" ∈ c.card_def.tags) ++
      (state.loc2.get_cards source_player).filter (fun c => "Destroy" ∈ c.card_def.tags)

/-! ### One-time effects (src/engine/effects.py `apply` methods) -/

/-- The block repeated in AddPowerEffect.apply, ConditionalPowerEffect.apply,
ScalingPowerEffect.apply, the buff half of DestroyAndBuffEffect.apply and
StealPowerEffect.apply: locate the target on the board, fetch its current
version, add a permanent power modifier, write it back, report the
power-changed event (`none` when the target was skipped). -/
def buffPermanentAt (state : GameState) (target_iid : Nat) (amount : Int)
    (source_card_id : Option Nat) : GameState × Option GameEvent :=
  match state.find_card_location target_iid with
  | none => (state, none)
  | some location_idx =>
    match state.find_card_by_instance target_iid with
    | none => (state, none)
    | some current_target =>
      let old_power := current_target.effective_power
      let updated_card := current_target.add_permanent_power amount
      let new_power := updated_card.effective_power
      (state.with_location location_idx ((state.get_location location_idx).update_card updated_card),
       some (.powerChanged target_iid old_power new_power source_card_id))

/-- One iteration of the target loop of AddPowerEffect.apply (also used
verbatim by ConditionalPowerEffect.apply and, with the scaled bonus, by
ScalingPowerEffect.apply). -/
def buffLoopStep (source_iid : Nat) (amount : Int) (acc : GameState × List GameEvent)
    (target : CardInstance) : GameState × List GameEvent :=
  let r := buffPermanentAt acc.1 target.instance_id amount (some source_iid)
  match r.2 with
  | none => (r.1, acc.2)
  | some ev => (r.1, acc.2 ++ [ev])

/-- AddPowerEffect.apply. -/
def addPower_apply (target : TargetFilter) (amount : Int) (state : GameState)
    (source_card : CardInstance) (source_player : PlayerId) : GameState × List GameEvent :=
  let targets := _resolve_targets state source_card source_player target
  targets.foldl (buffLoopStep source_card.instance_id amount) (state, [])

/-- One iteration of the target loop of MoveCardEffect.apply. -/
def moveLoopStep (to_other_location : Bool) (destination : Option Nat) (source_iid : Nat)
    (acc : GameState × List GameEvent) (target_card : CardInstance) :
    GameState × List GameEvent :=
  let state := acc.1
  match state.find_card_location target_card.instance_id with
  | none => acc
  | some from_location_idx =>
    -- Determine destination: an explicit index, or the first other
    -- location (scan 0 → 2) with room for the card's owner.
    let dest : Option Nat :=
      if to_other_location then
        if from_location_idx ≠ 0 ∧
            (state.get_location 0).card_count target_card.owner < LOCATION_CAPACITY then some 0
        else if from_location_idx ≠ 1 ∧
            (state.get_location 1).card_count target_card.owner < LOCATION_CAPACITY then some 1
        else if from_location_idx ≠ 2 ∧
            (state.get_location 2).card_count target_card.owner < LOCATION_CAPACITY then some 2
        else destination
      else destination
    match dest with
    | none => acc
    | some d =>
      if from_location_idx = d then acc
      else if LOCATION_CAPACITY ≤ (state.get_location d).card_count target_card.owner then acc
      else
        let from_location := state.get_location from_location_idx
        let rem := from_location.remove_card target_card.instance_id
        match rem.2 with
        | none => acc
        | some removed_card =>
          let state := state.with_location from_location_idx rem.1
          let dest_location := state.get_location d
          let state := state.with_location d (dest_location.add_card removed_card removed_card.owner)
          let state := state.with_card_moved target_card.instance_id
          (state,
           acc.2 ++ [.cardMoved target_card.instance_id from_location_idx d (some source_iid)])

/-- MoveCardEffect.apply. -/
def moveCard_apply (target : TargetFilter) (to_other_location : Bool) (destination : Option Nat)
    (state : GameState) (source_card : CardInstance) (source_player : PlayerId) :
    GameState × List GameEvent :=
  let targets := _resolve_targets state source_card source_player target
  targets.foldl (moveLoopStep to_other_location destination source_card.instance_id) (state, [])

/-- One iteration of the target loop of DestroyCardEffect.apply. -/
def destroyLoopStep (source_iid : Nat) (acc : GameState × List GameEvent)
    (target_card : CardInstance) : GameState × List GameEvent :=
  let state := acc.1
  match state.find_card_location target_card.instance_id with
  | none => acc
  | some location_idx =>
    let rem := (state.get_location location_idx).remove_card target_card.instance_id
    match rem.2 with
    | none => acc
    | some _ =>
      let state := state.with_location location_idx rem.1
      let state := state.with_card_destroyed target_card.instance_id
      (state, acc.2 ++ [.cardDestroyed target_card.instance_id location_idx (some source_iid)])

/-- DestroyCardEffect.apply. -/
def destroyCard_apply (target : TargetFilter) (state : GameState) (source_card : CardInstance)
    (source_player : PlayerId) : GameState × List GameEvent :=
  let targets := _resolve_targets state source_card source_player target
  targets.foldl (destroyLoopStep source_card.instance_id) (state, [])

/-- The buff loop of DestroyAndBuffEffect.apply: buffs the first
on-board resolvable buff target and then breaks. -/
def destroyAndBuffLoop (source_iid : Nat) (buff_amount : Int) (state : GameState)
    (events : List GameEvent) : List CardInstance → GameState × List GameEvent
  | [] => (state, events)
  | buff_card :: rest =>
    let r := buffPermanentAt state buff_card.instance_id buff_amount (some source_iid)
    match r.2 with
    | none => destroyAndBuffLoop source_iid buff_amount r.1 events rest
    | some ev => (r.1, events ++ [ev])

/-- DestroyAndBuffEffect.apply. -/
def destroyAndBuff_apply (destroy_target buff_target : TargetFilter) (buff_amount : Int)
    (state : GameState) (source_card : CardInstance) (source_player : PlayerId) :
    GameState × List GameEvent :=
  match _resolve_targets state source_card source_player destroy_target with
  | [] => (state, [])
  | target_to_destroy :: _ =>
    match state.find_card_location target_to_destroy.instance_id with
    | none => (state, [])
    | some location_idx =>
      let rem := (state.get_location location_idx).remove_card target_to_destroy.instance_id
      match rem.2 with
      | none => (state, [])
      | some _ =>
        let state := state.with_location location_idx rem.1
        let state := state.with_card_destroyed target_to_destroy.instance_id
        let events : List GameEvent :=
          [.cardDestroyed target_to_destroy.instance_id location_idx
            (some source_card.instance_id)]
        let buff_targets := _resolve_targets state source_card source_player buff_target
        destroyAndBuffLoop source_card.instance_id buff_amount state events buff_targets

/-- DestroyAndGainPowerEffect.apply. -/
def destroyAndGainPower_apply (destroy_target : TargetFilter) (state : GameState)
    (source_card : CardInstance) (source_player : PlayerId) : GameState × List GameEvent :=
  match state.find_card_location source_card.instance_id with
  | none => (state, [])
  | some _ =>
    match _resolve_targets state source_card source_player destroy_target with
    | [] => (state, [])
    | target_to_destroy :: _ =>
      match state.find_card_location target_to_destroy.instance_id with
      | none => (state, [])
      | some target_loc_idx =>
        let destroyed_power := target_to_destroy.effective_power
        let rem := (state.get_location target_loc_idx).remove_card target_to_destroy.instance_id
        match rem.2 with
        | none => (state, [])
        | some _ =>
          let state := state.with_location target_loc_idx rem.1
          let state := state.with_card_destroyed target_to_destroy.instance_id
          let events : List GameEvent :=
            [.cardDestroyed target_to_destroy.instance_id target_loc_idx
              (some source_card.instance_id)]
          -- Add the destroyed card's power to the source card (fetch the
          -- current source first, then its location, as the code does).
          match state.find_card_by_instance source_card.instance_id with
          | none => (state, events)
          | some current_source =>
            match state.find_card_location source_card.instance_id with
            | none => (state, events)
            | some source_loc_idx =>
              let old_power := current_source.effective_power
              let updated_source := current_source.add_permanent_power destroyed_power
              let new_power := updated_source.effective_power
              let state := state.with_location source_loc_idx
                ((state.get_location source_loc_idx).update_card updated_source)
              (state,
               events ++ [.powerChanged source_card.instance_id old_power new_power
                 (some source_card.instance_id)])

/-- ConditionalPowerEffect._check_condition. -/
def conditionalPower_check (condition : String) (state : GameState) (source_card : CardInstance)
    (source_player : PlayerId) : Bool :=
  let source_location := state.find_card_location source_card.instance_id
  if condition = "only_card_here" then
    match source_location with
    | none => false
    | some li => (state.get_location li).card_count source_player = 1
  else if condition = "destroyed_this_game" then state.has_destroyed_card_this_game
  else if condition = "moved_this_turn" then state.has_moved_card_this_turn
  else if condition = "moved_this_game" then state.has_moved_card_this_game
  else if condition = "has_empty_slot" then
    match source_location with
    | none => false
    | some li => !(state.location_is_full li source_player)
  else true

/-- ConditionalPowerEffect.apply. -/
def conditionalPower_apply (target : TargetFilter) (amount : Int) (condition : String)
    (state : GameState) (source_card : CardInstance) (source_player : PlayerId) :
    GameState × List GameEvent :=
  if !(conditionalPower_check condition state source_card source_player) then (state, [])
  else
    let targets := _resolve_targets state source_card source_player target
    targets.foldl (buffLoopStep source_card.instance_id amount) (state, [])

/-- SilenceOngoingEffect.apply. -/
def silenceOngoing_apply (target : TargetFilter) (state : GameState)
    (source_card : CardInstance) (source_player : PlayerId) : GameState × List GameEvent :=
  let targets := _resolve_targets state source_card source_player target
  (targets.foldl (fun st t => st.with_silenced_card t.instance_id) state, [])

/-- StealPowerEffect.apply. -/
def stealPower_apply (target : TargetFilter) (amount : Int) (state : GameState)
    (source_card : CardInstance) (source_player : PlayerId) : GameState × List GameEvent :=
  match _resolve_targets state source_card source_player target with
  | [] => (state, [])
  | target_card :: _ =>
    let r := buffPermanentAt state target_card.instance_id (-amount) (some source_card.instance_id)
    match r.2 with
    | none => (r.1, [])
    | some ev =>
      let state := r.1
      let events := [ev]
      -- Increase self power (skipped when the source is off-board).
      let r2 := buffPermanentAt state source_card.instance_id amount (some source_card.instance_id)
      match r2.2 with
      | none => (r2.1, events)
      | some ev2 => (r2.1, events ++ [ev2])

/-- ScalingPowerEffect.apply. -/
def scalingPower_apply (target : TargetFilter) (per_destroyed_amount : Int) (state : GameState)
    (source_card : CardInstance) (source_player : PlayerId) : GameState × List GameEvent :=
  let destroyed_count := state.cards_destroyed_this_game.length
  let total_bonus : Int := destroyed_count * per_destroyed_amount
  if total_bonus = 0 then (state, [])
  else
    let targets := _resolve_targets state source_card source_player target
    targets.foldl (buffLoopStep source_card.instance_id total_bonus) (state, [])

/-- Modelled from the spec: the card catalog (src/cards.json, loaded by
src/engine/cards.py, is not under src/).  ReviveEffect.apply uses the
catalog only to fetch the fixed "shade" template definition of the
summoned spirit; per the spec the summon "creates and places a
brand-new CardInstance (using a fixed template definition)".  None of
the template's own fields are observed by the claims proved here, so an
inert definition stands in for it. -/
def spiritTemplateDef : CardDef :=
  { id := "shade", name := "Shade", cost := 1, base_power := 1, text := "",
    ability_type := .VANILLA, effects := [], tags := [] }

/-- Modelled from the spec: engine.cards.get_card_def restricted to the
only id the engine itself looks up ("shade", the summon template). -/
def get_card_def (card_id : String) : Option CardDef :=
  if card_id = "shade" then some spiritTemplateDef else none

/-- ReviveEffect.apply (summon-on-death). -/
def revive_apply (base_spirit_power : Int) (state : GameState) (source_card : CardInstance)
    (source_player : PlayerId) : GameState × List GameEvent :=
  match state.find_card_location source_card.instance_id with
  | none => (state, [])
  | some source_loc_idx =>
    let location := state.get_location source_loc_idx
    if LOCATION_CAPACITY ≤ location.card_count source_player then (state, [])
    else if state.cards_destroyed_this_game = [] then (state, [])
    else
      match get_card_def "shade" with
      | none => (state, [])
      | some spirit_def =>
        let destroyed_count := state.cards_destroyed_this_game.length
        let spirit_bonus : Int := base_spirit_power + destroyed_count
        let new_instance_id := state.next_instance_id
        let spirit_card : CardInstance :=
          { instance_id := new_instance_id, card_def := spirit_def, owner := source_player,
            permanent_power_modifier := spirit_bonus, ongoing_power_modifier := 0,
            revealed := true }
        let state := state.with_location source_loc_idx (location.add_card spirit_card source_player)
        let state := state.with_next_instance_id (new_instance_id + 1)
        (state, [])

/-! ### Ongoing-effect queries (src/engine/effects.py) -/

/-- ConditionalOngoingPowerEffect.check_condition. -/
def conditionalOngoing_check (condition : String) (state : GameState)
    (source_card : CardInstance) (source_player : PlayerId) : Bool :=
  match state.find_card_location source_card.instance_id with
  | none => false
  | some source_location =>
    if condition = "location_full" then state.location_is_full source_location source_player
    else true

/-- ConditionalOngoingPowerEffect.get_affected_cards. -/
def conditionalOngoing_affected (target : TargetFilter) (condition : String) (state : GameState)
    (source_card : CardInstance) (source_player : PlayerId) : List CardInstance :=
  if !(conditionalOngoing_check condition state source_card source_player) then []
  else _resolve_targets state source_card source_player target

/-- ScalingOngoingPowerEffect.get_scaling_amount. -/
def scalingOngoing_amount (count_filter : TargetFilter) (per_card_amount : Int)
    (state : GameState) (source_card : CardInstance) (source_player : PlayerId) : Int :=
  (_resolve_targets state source_card source_player count_filter).length * per_card_amount

/-! ### Ongoing recomputation (src/engine/effects.py, compute_ongoing_effects) -/

/-- The per-card reset of compute_ongoing_effects's first loop. -/
def resetCardOngoing (c : CardInstance) : CardInstance :=
  c.with_ongoing_power_modifier 0

/-- One location after the reset loop: every card's ongoing modifier
zeroed, the index rewritten to the location's position. -/
def resetLocOngoing (loc_idx : Nat) (l : LocationState) : LocationState :=
  { index := loc_idx, cards0 := l.cards0.map resetCardOngoing,
    cards1 := l.cards1.map resetCardOngoing }

/-- The state after compute_ongoing_effects's reset loop and the
silenced-cards clearing: the loop writes each reset location back with
with_location over the location tuple captured at loop entry, then a
GameState copy empties `silenced_cards`. -/
def resetOngoingAndSilence (s : GameState) : GameState :=
  { s with
    loc0 := resetLocOngoing 0 s.loc0,
    loc1 := resetLocOngoing 1 s.loc1,
    loc2 := resetLocOngoing 2 s.loc2,
    silenced_cards := [] }

/-- The silence pass body for one board card (compute_ongoing_effects's
first card loop): a revealed ONGOING card marks every target of each of
its SilenceOngoingEffect entries as silenced. -/
def silencePassCard (state : GameState) (card : CardInstance) : GameState :=
  if !card.revealed then state
  else if card.card_def.ability_type ≠ .ONGOING then state
  else
    card.card_def.effects.foldl
      (fun st e =>
        match e with
        | .silenceOngoing target =>
          (_resolve_targets st card card.owner target).foldl
            (fun st t => st.with_silenced_card t.instance_id) st
        | _ => st)
      state

/-- The silence pass: the card list is captured from the state at pass
entry (Python iterates `state.locations` captured once), the state
threads through. -/
def silencePass (s : GameState) : GameState :=
  s.all_board_cards.foldl silencePassCard s

/-- The block repeated for each affected target in the ongoing power
pass: locate the target, fetch its current version, add an ongoing
power modifier, write it back, emit a power-changed event. -/
def ongoingPowerStep (source_iid : Nat) (amount : Int) (acc : GameState × List GameEvent)
    (target : CardInstance) : GameState × List GameEvent :=
  let state := acc.1
  match state.find_card_location target.instance_id with
  | none => acc
  | some target_loc_idx =>
    match state.find_card_by_instance target.instance_id with
    | none => acc
    | some current_target =>
      let old_power := current_target.effective_power
      let updated_target := current_target.add_ongoing_power amount
      let new_power := updated_target.effective_power
      (state.with_location target_loc_idx
         ((state.get_location target_loc_idx).update_card updated_target),
       acc.2 ++ [.powerChanged target.instance_id old_power new_power (some source_iid)])

/-- The power pass body for one board card (compute_ongoing_effects's
second card loop): a revealed, unsilenced ONGOING card applies each of
its ongoing power effects to the targets resolved against the current
state. -/
def powerPassCard (acc : GameState × List GameEvent) (card : CardInstance) :
    GameState × List GameEvent :=
  if !card.revealed then acc
  else if card.card_def.ability_type ≠ .ONGOING then acc
  else if acc.1.is_silenced card.instance_id then acc
  else
    card.card_def.effects.foldl
      (fun acc e =>
        match e with
        | .addOngoingPower target amount =>
          (_resolve_targets acc.1 card card.owner target).foldl
            (ongoingPowerStep card.instance_id amount) acc
        | .conditionalOngoingPower target amount condition =>
          (conditionalOngoing_affected target condition acc.1 card card.owner).foldl
            (ongoingPowerStep card.instance_id amount) acc
        | .scalingOngoingPower target per_card_amount count_filter =>
          let affected := _resolve_targets acc.1 card card.owner target
          let scaling_amount := scalingOngoing_amount count_filter per_card_amount acc.1 card card.owner
          if scaling_amount = 0 then acc
          else affected.foldl (ongoingPowerStep card.instance_id scaling_amount) acc
        | _ => acc)
      acc

/-- The power pass: the card list is captured from the state at pass
entry, the (state, events) pair threads through. -/
def powerPass (s : GameState) : GameState × List GameEvent :=
  s.all_board_cards.foldl powerPassCard (s, [])

/-- effects.compute_ongoing_effects: reset every ongoing modifier and
the silenced set, apply all silence effects, then all ongoing power
effects of revealed unsilenced ONGOING cards. -/
def compute_ongoing_effects (state : GameState) : GameState × List GameEvent :=
  powerPass (silencePass (resetOngoingAndSilence state))

/-! ### Action validation and turn resolution (src/engine/rules.py) -/

/-- rules.ValidationResult. -/
structure ValidationResult where
  valid : Bool
  reason : String
  deriving DecidableEq, Repr

/-- rules.validate_action. -/
def validate_action (state : GameState) (action : PlayerAction) : ValidationResult :=
  match action with
  | .pass _ => { valid := true, reason := "" }
  | .play player_id card_instance_id location_idx =>
    if !(location_idx = 0 || location_idx = 1 || location_idx = 2) then
      { valid := false, reason := "Invalid location: " ++ toString location_idx }
    else
      let player := state.get_player player_id
      let location := state.get_location location_idx
      match findCardInList card_instance_id player.hand with
      | none => { valid := false, reason := "Card not in hand" }
      | some card_in_hand =>
        if player.energy < card_in_hand.card_def.cost then
          { valid := false,
            reason := "Not enough energy: need " ++ toString card_in_hand.card_def.cost ++
              ", have " ++ toString player.energy }
        else if LOCATION_CAPACITY ≤ location.card_count player_id then
          { valid := false,
            reason := "Location " ++ toString location_idx ++ " is at capacity (" ++
              toString LOCATION_CAPACITY ++ ")" }
        else { valid := true, reason := "" }

/-- One iteration of resolve_actions's Phase 1 loop: validate one
action against the threaded state and, when a valid play, spend the
energy, remove the card from hand and place it face-down (the third
component is the `played_cards` entry appended, when any). -/
def commitAction (state : GameState) (action : PlayerAction) :
    GameState × List GameEvent × Option (CardInstance × Nat × PlayerId) :=
  let validation := validate_action state action
  if !validation.valid then
    (state, [.actionInvalid action.player_id validation.reason], none)
  else
    match action with
    | .pass player_id => (state, [.playerPassed player_id], none)
    | .play player_id card_instance_id location_idx =>
      let player := state.get_player player_id
      match findCardInList card_instance_id player.hand with
      | none => (state, [], none) -- unreachable when validation passed
      | some card_to_play =>
        let new_player := player.spend_energy card_to_play.card_def.cost
        let spend_event : GameEvent :=
          .energySpent player_id card_to_play.card_def.cost new_player.energy
        let new_player := (new_player.remove_from_hand card_to_play.instance_id).1
        let state := state.with_player player_id new_player
        let location := state.get_location location_idx
        let state := state.with_location location_idx (location.add_card card_to_play player_id)
        (state,
         [spend_event, .cardPlayed player_id card_to_play.instance_id location_idx],
         some (card_to_play, location_idx, player_id))

/-- `played_cards.sort(key=lambda x: x[2])`: Python's stable sort on
the at-most-two-element played list. -/
def sortPlayed (l : List (CardInstance × Nat × PlayerId)) : List (CardInstance × Nat × PlayerId) :=
  match l with
  | [a, b] => if b.2.2.rank < a.2.2.rank then [b, a] else [a, b]
  | other => other

/-- rules._reveal_card: flip the card face-up, then apply its ON_REVEAL
effects (fetching the now-revealed card once for all of them).  The
three ongoing-only effect kinds are outside the isinstance dispatch
tuple and are skipped. -/
def _reveal_card (state : GameState) (card : CardInstance) (location_idx : Nat)
    (player_id : PlayerId) : GameState × List GameEvent :=
  let revealed_card := card.with_revealed true
  let state := state.with_location location_idx
    ((state.get_location location_idx).update_card revealed_card)
  let events : List GameEvent := [.cardRevealed card.instance_id location_idx player_id]
  if card.card_def.ability_type = .ON_REVEAL then
    match state.find_card_by_instance card.instance_id with
    | none => (state, events)
    | some current_card =>
      let r := card.card_def.effects.foldl
        (fun acc e =>
          let r :=
            match e with
            | .addPower target amount => addPower_apply target amount acc.1 current_card player_id
            | .moveCard target tol dest => moveCard_apply target tol dest acc.1 current_card player_id
            | .destroyCard target => destroyCard_apply target acc.1 current_card player_id
            | .destroyAndBuff dt bt amt => destroyAndBuff_apply dt bt amt acc.1 current_card player_id
            | .destroyAndGainPower dt => destroyAndGainPower_apply dt acc.1 current_card player_id
            | .conditionalPower target amount cond =>
              conditionalPower_apply target amount cond acc.1 current_card player_id
            | .stealPower target amount => stealPower_apply target amount acc.1 current_card player_id
            | .scalingPower target per => scalingPower_apply target per acc.1 current_card player_id
            | .revive base => revive_apply base acc.1 current_card player_id
            | .silenceOngoing target => silenceOngoing_apply target acc.1 current_card player_id
            | .addOngoingPower _ _ => (acc.1, [])
            | .conditionalOngoingPower _ _ _ => (acc.1, [])
            | .scalingOngoingPower _ _ _ => (acc.1, [])
          (r.1, acc.2 ++ r.2))
        (state, [])
      (r.1, events ++ r.2)
  else (state, events)

/-- rules.resolve_actions: validate-and-commit both actions in order,
reveal the placed cards in player-id order, recompute ongoing effects. -/
def resolve_actions (state : GameState) (action_p0 action_p1 : PlayerAction) :
    GameState × List GameEvent :=
  let r0 := commitAction state action_p0
  let r1 := commitAction r0.1 action_p1
  let events := r0.2.1 ++ r1.2.1
  let played_cards := (match r0.2.2 with | some x => [x] | none => []) ++
    (match r1.2.2 with | some x => [x] | none => [])
  let played_sorted := sortPlayed played_cards
  let rev := played_sorted.foldl
    (fun acc entry =>
      let r := _reveal_card acc.1 entry.1 entry.2.1 entry.2.2
      (r.1, acc.2 ++ r.2))
    (r1.1, events)
  let og := compute_ongoing_effects rev.1
  (og.1, rev.2 ++ og.2)

/-- The per-location comparison inside rules.compute_winner's loop. -/
def locWinner (l : LocationState) : Option PlayerId :=
  let p0_power := l.total_power .P0
  let p1_power := l.total_power .P1
  if p1_power < p0_power then some .P0
  else if p0_power < p1_power then some .P1
  else none

/-- rules.compute_winner. -/
def compute_winner (state : GameState) :
    GameResult × (Option PlayerId × Option PlayerId × Option PlayerId) :=
  let w0 := locWinner state.loc0
  let w1 := locWinner state.loc1
  let w2 := locWinner state.loc2
  let p0_wins := [w0, w1, w2].countP (· == some .P0)
  let p1_wins := [w0, w1, w2].countP (· == some .P1)
  if 2 ≤ p0_wins then (.PLAYER_0_WINS, (w0, w1, w2))
  else if 2 ≤ p1_wins then (.PLAYER_1_WINS, (w0, w1, w2))
  else
    let total_p0 := state.loc0.total_power .P0 + state.loc1.total_power .P0 +
      state.loc2.total_power .P0
    let total_p1 := state.loc0.total_power .P1 + state.loc1.total_power .P1 +
      state.loc2.total_power .P1
    if total_p1 < total_p0 then (.PLAYER_0_WINS, (w0, w1, w2))
    else if total_p0 < total_p1 then (.PLAYER_1_WINS, (w0, w1, w2))
    else (.DRAW, (w0, w1, w2))

/-- rules.compute_location_powers. -/
def compute_location_powers (state : GameState) :
    (Int × Int) × (Int × Int) × (Int × Int) :=
  ((state.loc0.total_power .P0, state.loc0.total_power .P1),
   (state.loc1.total_power .P0, state.loc1.total_power .P1),
   (state.loc2.total_power .P0, state.loc2.total_power .P1))

/-- rules.is_game_over. -/
def is_game_over (state : GameState) : Bool :=
  MAX_TURNS ≤ state.turn

/-! ### Lifecycle (src/engine/controller.py, GameController) -/

/-- The create_deck closure of GameController.create_game: one
CardInstance per definition, minting consecutive instance ids. -/
def create_deck (defs : List CardDef) (player_id : PlayerId) (next_id : Nat) :
    List CardInstance × Nat :=
  match defs with
  | [] => ([], next_id)
  | card_def :: rest =>
    let card : CardInstance :=
      { instance_id := next_id, card_def := card_def, owner := player_id,
        permanent_power_modifier := 0, ongoing_power_modifier := 0, revealed := false }
    let r := create_deck rest player_id (next_id + 1)
    (card :: r.1, r.2)

/-- One draw with its card-drawn event (the body shared by the initial
draw loop of create_game and the per-turn draw of start_turn). -/
def drawOneWithEvent (acc : GameState × List GameEvent) (player_id : PlayerId) :
    GameState × List GameEvent :=
  let player := acc.1.get_player player_id
  let r := player.draw_card
  let state := acc.1.with_player player_id r.1
  match r.2 with
  | some drawn_card => (state, acc.2 ++ [.cardDrawn player_id drawn_card.instance_id])
  | none => (state, acc.2)

/-- GameController.create_game (deck definitions supplied by the
caller; the default starter decks come from the excluded catalog). -/
def create_game (deck_defs_p0 deck_defs_p1 : List CardDef) : GameState × List GameEvent :=
  let d0 := create_deck deck_defs_p0 .P0 0
  let d1 := create_deck deck_defs_p1 .P1 d0.2
  let player_0 : PlayerState :=
    { player_id := .P0, deck := d0.1, hand := [], energy := 0, max_energy := 0 }
  let player_1 : PlayerState :=
    { player_id := .P1, deck := d1.1, hand := [], energy := 0, max_energy := 0 }
  let state : GameState :=
    { turn := 0, phase := .TURN_START, player0 := player_0, player1 := player_1,
      loc0 := create_empty_location 0, loc1 := create_empty_location 1,
      loc2 := create_empty_location 2, result := .IN_PROGRESS, next_instance_id := d1.2,
      cards_destroyed_this_game := [], cards_moved_this_game := [],
      cards_moved_this_turn := [], silenced_cards := [] }
  -- Draw STARTING_HAND_SIZE cards per player (player 0's three draws,
  -- then player 1's).
  (List.replicate STARTING_HAND_SIZE PlayerId.P0 ++
      List.replicate STARTING_HAND_SIZE PlayerId.P1).foldl
    drawOneWithEvent (state, [.gameStarted])

/-- The per-player body of start_turn's loop: set energy and max energy
to the new turn number, then (after turn 1) draw a card. -/
def startTurnPlayer (new_turn : Nat) (acc : GameState × List GameEvent) (player_id : PlayerId) :
    GameState × List GameEvent :=
  let player := acc.1.get_player player_id
  let new_energy : Int := new_turn
  let state := acc.1.with_player player_id (player.with_energy new_energy new_energy)
  let events := acc.2 ++ [.energySet player_id new_energy]
  if 1 < new_turn then drawOneWithEvent (state, events) player_id
  else (state, events)

/-- GameController.start_turn. -/
def start_turn (state : GameState) : GameState × List GameEvent :=
  let new_turn := state.turn + 1
  let state := (state.with_turn new_turn).clear_turn_tracking
  let r := [PlayerId.P0, PlayerId.P1].foldl (startTurnPlayer new_turn)
    (state, [.turnStarted new_turn])
  (r.1.with_phase .PLANNING, r.2)

/-- GameController.resolve_turn. -/
def resolve_turn (state : GameState) (action_p0 action_p1 : PlayerAction) :
    GameState × List GameEvent :=
  let state := state.with_phase .RESOLUTION
  let r := resolve_actions state action_p0 action_p1
  let events := r.2 ++ [.turnEnded r.1.turn]
  let state := r.1.with_phase .TURN_END
  if is_game_over state then
    let w := compute_winner state
    let location_powers := compute_location_powers state
    let total_power : Int × Int :=
      (location_powers.1.1 + location_powers.2.1.1 + location_powers.2.2.1,
       location_powers.1.2 + location_powers.2.1.2 + location_powers.2.2.2)
    let state := (state.with_result w.1).with_phase .GAME_OVER
    (state, events ++ [.gameEnded w.1 w.2 location_powers total_power])
  else (state, events)

/-! ### Reachability and invariant vocabulary -/

/-- States reachable through the lifecycle entry points create_game,
start_turn and resolve_turn (the orchestration the spec describes). -/
inductive Reach : GameState → Prop where
  | create (deck_defs_p0 deck_defs_p1 : List CardDef) :
      Reach (create_game deck_defs_p0 deck_defs_p1).1
  | start {s : GameState} : Reach s → Reach (start_turn s).1
  | resolve {s : GameState} (action_p0 action_p1 : PlayerAction) :
      Reach s → Reach (resolve_turn s action_p0 action_p1).1

/-- Capacity invariant for one location: at most LOCATION_CAPACITY
cards per player. -/
def LocationState.capOK (l : LocationState) : Prop :=
  l.cards0.length ≤ LOCATION_CAPACITY ∧ l.cards1.length ≤ LOCATION_CAPACITY

/-- Capacity invariant for a snapshot. -/
def GameState.capOK (s : GameState) : Prop :=
  s.loc0.capOK ∧ s.loc1.capOK ∧ s.loc2.capOK

/-- Energy invariant: neither player's energy is negative. -/
def GameState.energyOK (s : GameState) : Prop :=
  0 ≤ s.player0.energy ∧ 0 ≤ s.player1.energy

/-- Number of locations at which the given player holds strictly more
summed effective power than the opponent. -/
def locsWonBy (s : GameState) (p : PlayerId) : Nat :=
  ([s.loc0, s.loc1, s.loc2].filter fun l => l.total_power p.other < l.total_power p).length

/-- A player's effective power summed across all three locations. -/
def totalPower (s : GameState) (p : PlayerId) : Int :=
  s.loc0.total_power p + s.loc1.total_power p + s.loc2.total_power p

/-- The locations of a snapshot carry their own position as `index`
(established by create_initial_locations and preserved by every
transition; compute_ongoing_effects re-normalises it). -/
def GameState.locIndexOK (s : GameState) : Prop :=
  s.loc0.index = 0 ∧ s.loc1.index = 1 ∧ s.loc2.index = 2

/-- Global uniqueness of instance ids across both players' decks and
hands and the board (the spec's identity invariant for snapshots). -/
def GameState.idsOK (s : GameState) : Prop :=
  (s.searchOrderCards.map CardInstance.instance_id).Nodup

/-! ### Concrete fixtures (used by witness theorems) -/

/-- A vanilla card definition with the given cost and base power. -/
def vdef (cost bp : Int) : CardDef :=
  { id := "v", name := "v", cost := cost, base_power := bp, text := "",
    ability_type := .VANILLA, effects := [], tags := [] }

/-- A revealed vanilla card instance with the given id, owner and base
power. -/
def vinst (iid : Nat) (owner : PlayerId) (bp : Int) : CardInstance :=
  { instance_id := iid, card_def := vdef 1 bp, owner := owner,
    permanent_power_modifier := 0, ongoing_power_modifier := 0, revealed := true }

/-- A planning-phase snapshot with an empty board. -/
def emptyState : GameState :=
  { turn := 1, phase := .PLANNING,
    player0 := { player_id := .P0, deck := [], hand := [], energy := 3, max_energy := 3 },
    player1 := { player_id := .P1, deck := [], hand := [], energy := 3, max_energy := 3 },
    loc0 := create_empty_location 0, loc1 := create_empty_location 1,
    loc2 := create_empty_location 2, result := .IN_PROGRESS, next_instance_id := 10,
    cards_destroyed_this_game := [], cards_moved_this_game := [],
    cards_moved_this_turn := [], silenced_cards := [] }

/-- Player 0 ahead at locations 0 and 1, player 1 ahead at location 2. -/
def sWin : GameState :=
  { emptyState with
    loc0 := { index := 0, cards0 := [vinst 0 .P0 5], cards1 := [vinst 1 .P1 2] },
    loc1 := { index := 1, cards0 := [vinst 2 .P0 4], cards1 := [] },
    loc2 := { index := 2, cards0 := [], cards1 := [vinst 3 .P1 9] } }

/-- A 1-1-tie location split decided by aggregate power. -/
def sTie : GameState :=
  { emptyState with
    loc0 := { index := 0, cards0 := [vinst 0 .P0 5], cards1 := [] },
    loc1 := { index := 1, cards0 := [], cards1 := [vinst 1 .P1 2] },
    loc2 := { index := 2, cards0 := [vinst 2 .P0 3], cards1 := [vinst 3 .P1 3] } }

/-- An unrevealed 2-cost card sitting in player 0's hand. -/
def handCard : CardInstance :=
  { instance_id := 7, card_def := vdef 2 3, owner := .P0,
    permanent_power_modifier := 0, ongoing_power_modifier := 0, revealed := false }

/-- A snapshot where player 0 holds `handCard` and exactly enough
energy to play it. -/
def sHand : GameState :=
  { emptyState with
    player0 :=
      { player_id := .P0, deck := [], hand := [handCard], energy := 2, max_energy := 2 } }

/-- An unrevealed 1-cost card sitting in player 1's hand. -/
def handCard1 : CardInstance :=
  { instance_id := 8, card_def := vdef 1 4, owner := .P1,
    permanent_power_modifier := 0, ongoing_power_modifier := 0, revealed := false }

/-- A snapshot where both players hold one playable card each. -/
def sHands : GameState :=
  { sHand with
    player1 :=
      { player_id := .P1, deck := [], hand := [handCard1], energy := 2, max_energy := 2 } }

/-- Everything action validation reads about one acting player: that
player's PlayerState and their card lists at the three locations. -/
def GameState.playerView (s : GameState) (q : PlayerId) :
    PlayerState × List CardInstance × List CardInstance × List CardInstance :=
  (s.get_player q, s.loc0.get_cards q, s.loc1.get_cards q, s.loc2.get_cards q)

/-- The resolution output factors as: some commit events containing no
card-revealed event, then player 0's reveal (and its on-reveal
effects), then player 1's reveal, then the ongoing recomputation. -/
def RevealedInOrder (base : GameState) (c0 : CardInstance) (l0 : Nat) (c1 : CardInstance)
    (l1 : Nat) (out : GameState × List GameEvent) : Prop :=
  ∃ commit_events : List GameEvent,
    (∀ iid L q, GameEvent.cardRevealed iid L q ∉ commit_events) ∧
    out = ((compute_ongoing_effects (_reveal_card (_reveal_card base c0 l0 .P0).1 c1 l1 .P1).1).1,
      commit_events ++ (_reveal_card base c0 l0 .P0).2 ++
        (_reveal_card (_reveal_card base c0 l0 .P0).1 c1 l1 .P1).2 ++
        (compute_ongoing_effects (_reveal_card (_reveal_card base c0 l0 .P0).1 c1 l1 .P1).1).2)

/-- The instance ids of every card in the snapshot (deck/hand/board). -/
def GameState.idsList (s : GameState) : List Nat :=
  s.searchOrderCards.map CardInstance.instance_id

/-- Every card of a list belongs to the given player. -/
def cardsOwnedOK (l : List CardInstance) (p : PlayerId) : Prop :=
  ∀ c ∈ l, c.owner = p

/-- Owner consistency of one location: player 0's list holds only
player-0 cards, player 1's list only player-1 cards. -/
def LocationState.ownersOK (l : LocationState) : Prop :=
  cardsOwnedOK l.cards0 .P0 ∧ cardsOwnedOK l.cards1 .P1

/-- Owner consistency of a snapshot: every container holds only cards
owned by its player. -/
def GameState.ownersOK (s : GameState) : Prop :=
  cardsOwnedOK s.player0.hand .P0 ∧ cardsOwnedOK s.player0.deck .P0 ∧
    cardsOwnedOK s.player1.hand .P1 ∧ cardsOwnedOK s.player1.deck .P1 ∧
    s.loc0.ownersOK ∧ s.loc1.ownersOK ∧ s.loc2.ownersOK

/-- Freshness of the id counter: `next_instance_id` is strictly greater
than every id ever minted (the spec's snapshot invariant). -/
def GameState.freshOK (s : GameState) : Prop :=
  ∀ i ∈ s.idsList, i < s.next_instance_id

/-- Well-formedness of a snapshot, as the spec states it: capacity
within bounds, locations carrying their own position as index, owner
consistency, globally unique instance ids, fresh id counter. -/
def GameState.WF (s : GameState) : Prop :=
  s.capOK ∧ s.locIndexOK ∧ s.ownersOK ∧ s.idsList.Nodup ∧ s.freshOK

/-- Every card in the snapshot carrying the given instance id belongs
to the given player. -/
def OwnerAt (s : GameState) (iid : Nat) (p : PlayerId) : Prop :=
  ∀ c ∈ s.searchOrderCards, c.instance_id = iid → c.owner = p

/-- One engine step from a well-formed `s` to `t`: well-formedness is
preserved, the players are untouched, the id counter never decreases,
and ownership of every existing id is stable.  Every effect application
has this shape. -/
def StepsTo (s t : GameState) : Prop :=
  t.WF ∧ t.player0 = s.player0 ∧ t.player1 = s.player1 ∧
    s.next_instance_id ≤ t.next_instance_id ∧
    (∀ iid p, iid < s.next_instance_id → OwnerAt s iid p → OwnerAt t iid p)

/-- Whether an event is a power-changed record. -/
def GameEvent.isPowerChanged : GameEvent → Bool
  | .powerChanged _ _ _ _ => true
  | _ => false

/-- A snapshot whose location 0 already holds four player-0 cards. -/
def sFull : GameState :=
  { emptyState with
    loc0 := { index := 0, cards0 := [vinst 0 .P0 1, vinst 1 .P0 1, vinst 2 .P0 1, vinst 3 .P0 1],
              cards1 := [] } }

/-! ## Theorems -/

/-! ### C1: win computation -/

theorem locWinner_eq_some_P0 (l : LocationState) :
    locWinner l = some PlayerId.P0 ↔ l.total_power .P1 < l.total_power .P0 := by
  simp only [locWinner]
  split_ifs with h1 h2 <;> simp_all

theorem locWinner_eq_some_P1 (l : LocationState) :
    locWinner l = some PlayerId.P1 ↔ l.total_power .P0 < l.total_power .P1 := by
  simp only [locWinner]
  split_ifs with h1 h2 <;> simp_all <;> omega

theorem locWinner_eq_none (l : LocationState) :
    locWinner l = none ↔ l.total_power .P0 = l.total_power .P1 := by
  simp only [locWinner]
  split_ifs with h1 h2
  · simp only [iff_false_intro (Option.some_ne_none PlayerId.P0), false_iff]
    omega
  · simp only [iff_false_intro (Option.some_ne_none PlayerId.P1), false_iff]
    omega
  · simp only [true_iff]
    omega

theorem locWinner_beq_P0 (l : LocationState) :
    (locWinner l == some PlayerId.P0) =
      decide (l.total_power .P1 < l.total_power .P0) := by
  simp only [locWinner]
  split_ifs with h1 h2
  · simp [h1]
  · have hb : (some PlayerId.P1 == some PlayerId.P0) = false := rfl
    rw [hb]
    simp [h1]
  · have hb : ((none : Option PlayerId) == some PlayerId.P0) = false := rfl
    rw [hb]
    simp [h1]

theorem locWinner_beq_P1 (l : LocationState) :
    (locWinner l == some PlayerId.P1) =
      decide (l.total_power .P0 < l.total_power .P1) := by
  simp only [locWinner]
  split_ifs with h1 h2
  · have hb : (some PlayerId.P0 == some PlayerId.P1) = false := rfl
    have hn : ¬ l.total_power .P0 < l.total_power .P1 := by omega
    rw [hb]
    simp [hn]
  · simp [h2]
  · have hb : ((none : Option PlayerId) == some PlayerId.P1) = false := rfl
    rw [hb]
    simp [h2]

theorem countP_locWinner_P0 (s : GameState) :
    [locWinner s.loc0, locWinner s.loc1, locWinner s.loc2].countP (· == some PlayerId.P0) =
      locsWonBy s .P0 := by
  unfold locsWonBy PlayerId.other
  simp only [List.countP_cons, List.countP_nil, List.filter_cons, List.filter_nil,
    locWinner_beq_P0]
  split_ifs <;> simp_all

theorem countP_locWinner_P1 (s : GameState) :
    [locWinner s.loc0, locWinner s.loc1, locWinner s.loc2].countP (· == some PlayerId.P1) =
      locsWonBy s .P1 := by
  unfold locsWonBy PlayerId.other
  simp only [List.countP_cons, List.countP_nil, List.filter_cons, List.filter_nil,
    locWinner_beq_P1]
  split_ifs <;> simp_all

theorem locsWonBy_sum_le (s : GameState) : locsWonBy s .P0 + locsWonBy s .P1 ≤ 3 := by
  unfold locsWonBy PlayerId.other
  simp only [List.filter_cons, List.filter_nil]
  split_ifs <;> simp_all <;> omega

theorem compute_winner_snd (s : GameState) :
    (compute_winner s).2 = (locWinner s.loc0, locWinner s.loc1, locWinner s.loc2) := by
  simp only [compute_winner]
  split_ifs <;> rfl

theorem compute_winner_fst (s : GameState) :
    (compute_winner s).1 =
      (if 2 ≤ locsWonBy s .P0 then .PLAYER_0_WINS
       else if 2 ≤ locsWonBy s .P1 then .PLAYER_1_WINS
       else if totalPower s .P1 < totalPower s .P0 then .PLAYER_0_WINS
       else if totalPower s .P0 < totalPower s .P1 then .PLAYER_1_WINS
       else .DRAW) := by
  simp only [compute_winner, totalPower]
  rw [countP_locWinner_P0, countP_locWinner_P1]
  split_ifs <;> rfl

/-- C1: compute_winner awards the match to the player strictly ahead at
two or more locations; with no such majority it compares aggregate
power (strictly greater total wins, equality is a draw); and the
returned per-location winners mark, at each location, the strictly
stronger player or a tie. -/
theorem compute_winner_correct (s : GameState) :
    ((compute_winner s).2.1 = some .P0 ↔ s.loc0.total_power .P1 < s.loc0.total_power .P0) ∧
    ((compute_winner s).2.1 = some .P1 ↔ s.loc0.total_power .P0 < s.loc0.total_power .P1) ∧
    ((compute_winner s).2.1 = none ↔ s.loc0.total_power .P0 = s.loc0.total_power .P1) ∧
    ((compute_winner s).2.2.1 = some .P0 ↔ s.loc1.total_power .P1 < s.loc1.total_power .P0) ∧
    ((compute_winner s).2.2.1 = some .P1 ↔ s.loc1.total_power .P0 < s.loc1.total_power .P1) ∧
    ((compute_winner s).2.2.1 = none ↔ s.loc1.total_power .P0 = s.loc1.total_power .P1) ∧
    ((compute_winner s).2.2.2 = some .P0 ↔ s.loc2.total_power .P1 < s.loc2.total_power .P0) ∧
    ((compute_winner s).2.2.2 = some .P1 ↔ s.loc2.total_power .P0 < s.loc2.total_power .P1) ∧
    ((compute_winner s).2.2.2 = none ↔ s.loc2.total_power .P0 = s.loc2.total_power .P1) ∧
    (2 ≤ locsWonBy s .P0 → (compute_winner s).1 = .PLAYER_0_WINS) ∧
    (2 ≤ locsWonBy s .P1 → (compute_winner s).1 = .PLAYER_1_WINS) ∧
    (locsWonBy s .P0 < 2 → locsWonBy s .P1 < 2 →
      ((totalPower s .P1 < totalPower s .P0 → (compute_winner s).1 = .PLAYER_0_WINS) ∧
       (totalPower s .P0 < totalPower s .P1 → (compute_winner s).1 = .PLAYER_1_WINS) ∧
       (totalPower s .P0 = totalPower s .P1 → (compute_winner s).1 = .DRAW))) := by
  have hsnd := compute_winner_snd s
  have hfst := compute_winner_fst s
  have hsum := locsWonBy_sum_le s
  refine ⟨?_, ?_, ?_, ?_, ?_, ?_, ?_, ?_, ?_, ?_, ?_, ?_⟩
  · rw [show (compute_winner s).2.1 = locWinner s.loc0 by rw [hsnd]]
    exact locWinner_eq_some_P0 s.loc0
  · rw [show (compute_winner s).2.1 = locWinner s.loc0 by rw [hsnd]]
    exact locWinner_eq_some_P1 s.loc0
  · rw [show (compute_winner s).2.1 = locWinner s.loc0 by rw [hsnd]]
    exact locWinner_eq_none s.loc0
  · rw [show (compute_winner s).2.2.1 = locWinner s.loc1 by rw [hsnd]]
    exact locWinner_eq_some_P0 s.loc1
  · rw [show (compute_winner s).2.2.1 = locWinner s.loc1 by rw [hsnd]]
    exact locWinner_eq_some_P1 s.loc1
  · rw [show (compute_winner s).2.2.1 = locWinner s.loc1 by rw [hsnd]]
    exact locWinner_eq_none s.loc1
  · rw [show (compute_winner s).2.2.2 = locWinner s.loc2 by rw [hsnd]]
    exact locWinner_eq_some_P0 s.loc2
  · rw [show (compute_winner s).2.2.2 = locWinner s.loc2 by rw [hsnd]]
    exact locWinner_eq_some_P1 s.loc2
  · rw [show (compute_winner s).2.2.2 = locWinner s.loc2 by rw [hsnd]]
    exact locWinner_eq_none s.loc2
  · intro h
    rw [hfst, if_pos h]
  · intro h
    have h0 : ¬ 2 ≤ locsWonBy s .P0 := by omega
    rw [hfst, if_neg h0, if_pos h]
  · intro h0 h1
    have h0n : ¬ 2 ≤ locsWonBy s .P0 := by omega
    have h1n : ¬ 2 ≤ locsWonBy s .P1 := by omega
    refine ⟨?_, ?_, ?_⟩
    · intro ht
      rw [hfst, if_neg h0n, if_neg h1n, if_pos ht]
    · intro ht
      have htn : ¬ totalPower s .P1 < totalPower s .P0 := by omega
      rw [hfst, if_neg h0n, if_neg h1n, if_neg htn, if_pos ht]
    · intro ht
      have h1t : ¬ totalPower s .P1 < totalPower s .P0 := by omega
      have h2t : ¬ totalPower s .P0 < totalPower s .P1 := by omega
      rw [hfst, if_neg h0n, if_neg h1n, if_neg h1t, if_neg h2t]

/-- Witness for C1 at the concrete boards sWin (a 2-location majority)
and sTie (a 1-1-tie split decided by aggregate power). -/
theorem compute_winner_correct_witness :
    (2 ≤ locsWonBy sWin .P0 ∧ (compute_winner sWin).1 = .PLAYER_0_WINS) ∧
    (locsWonBy sTie .P0 < 2 ∧ locsWonBy sTie .P1 < 2 ∧
      totalPower sTie .P1 < totalPower sTie .P0 ∧
      (compute_winner sTie).1 = .PLAYER_0_WINS) :=
  ⟨⟨by decide, (compute_winner_correct sWin).2.2.2.2.2.2.2.2.2.1 (by decide)⟩,
   ⟨by decide, by decide, by decide,
     ((compute_winner_correct sTie).2.2.2.2.2.2.2.2.2.2.2 (by decide) (by decide)).1
       (by decide)⟩⟩

/-! ### C2: action validation -/

theorem validate_play_iff (s : GameState) (p : PlayerId) (cid loc : Nat) :
    (validate_action s (.play p cid loc)).valid = true ↔
      ((loc = 0 ∨ loc = 1 ∨ loc = 2) ∧
        ∃ c, findCardInList cid (s.get_player p).hand = some c ∧
          c.card_def.cost ≤ (s.get_player p).energy ∧
          (s.get_location loc).card_count p < LOCATION_CAPACITY) := by
  simp only [validate_action]
  by_cases hloc : (loc = 0 || loc = 1 || loc = 2 : Bool) = true
  · rw [if_neg (by simp [hloc])]
    cases hfind : findCardInList cid (s.get_player p).hand with
    | none =>
      simp only [hfind]
      constructor
      · intro h
        exact absurd h (by simp)
      · rintro ⟨-, c, hc, -⟩
        cases hc
    | some c =>
      simp only [hfind]
      split_ifs with h1 h2
      · constructor
        · intro h
          exact absurd h (by simp)
        · rintro ⟨-, c', hc', hcost, -⟩
          cases Option.some.inj hc'
          omega
      · constructor
        · intro h
          exact absurd h (by simp)
        · rintro ⟨-, c', hc', -, hcap⟩
          omega
      · simp only [true_iff]
        have hl : (loc = 0 ∨ loc = 1) ∨ loc = 2 := by simpa using hloc
        exact ⟨by tauto, c, rfl, by omega, by omega⟩
  · rw [if_pos (by simp [hloc])]
    constructor
    · intro h
      exact absurd h (by simp)
    · rintro ⟨hl, -⟩
      exfalso
      apply hloc
      rcases hl with h | h | h <;> simp [h]

/-- C2: a pass action is always valid, and a play-card action is valid
iff the location index is one of {0,1,2}, the referenced card is found
in the acting player's hand, its cost is covered by the player's
current energy, and the player has strictly fewer than 4 cards at the
target location. -/
theorem validate_action_correct (s : GameState) (p : PlayerId) (cid loc : Nat) :
    (validate_action s (.pass p)).valid = true ∧
    ((validate_action s (.play p cid loc)).valid = true ↔
      ((loc = 0 ∨ loc = 1 ∨ loc = 2) ∧
        ∃ c, findCardInList cid (s.get_player p).hand = some c ∧
          c.card_def.cost ≤ (s.get_player p).energy ∧
          (s.get_location loc).card_count p < LOCATION_CAPACITY)) :=
  ⟨rfl, validate_play_iff s p cid loc⟩

/-- Witness for C2: at the concrete snapshot sHand the play of the held
card to location 1 is valid, and the iff yields its right-hand side. -/
theorem validate_action_correct_witness :
    (validate_action sHand (.pass .P0)).valid = true ∧
    ((1 = 0 ∨ 1 = 1 ∨ 1 = 2) ∧
      ∃ c, findCardInList 7 (sHand.get_player .P0).hand = some c ∧
        c.card_def.cost ≤ (sHand.get_player .P0).energy ∧
        (sHand.get_location 1).card_count .P0 < LOCATION_CAPACITY) :=
  ⟨(validate_action_correct sHand .P0 7 1).1,
   (validate_action_correct sHand .P0 7 1).2.mp (by decide)⟩

/-! ### C3: validation against the pre-resolution snapshot -/

theorem commitAction_playerView (s : GameState) (a : PlayerAction) (q : PlayerId)
    (h : a.player_id ≠ q) : (commitAction s a).1.playerView q = s.playerView q := by
  cases a with
  | pass p =>
    simp only [commitAction]
    split_ifs <;> rfl
  | play p cid loc =>
    simp only [commitAction]
    split_ifs with hval
    · rfl
    · cases hfind : findCardInList cid ((s.get_player p).hand) with
      | none => rfl
      | some card =>
        simp only [hfind]
        cases p <;> cases q <;> first
          | exact absurd rfl h
          | (rcases loc with _ | _ | _ | l <;> rfl)

theorem validate_action_eq_of_view (s s' : GameState) (a : PlayerAction)
    (h : s'.playerView a.player_id = s.playerView a.player_id) :
    validate_action s' a = validate_action s a := by
  cases a with
  | pass p => rfl
  | play p cid loc =>
    simp only [GameState.playerView, PlayerAction.player_id, Prod.mk.injEq] at h
    obtain ⟨hp, hc0, hc1, hc2⟩ := h
    have hcards : ∀ L : Nat, (s'.get_location L).get_cards p = (s.get_location L).get_cards p := by
      intro L
      rcases L with _ | _ | _ | L
      · exact hc0
      · exact hc1
      · exact hc2
      · exact hc2
    simp only [validate_action]
    rw [hp]
    simp only [LocationState.card_count, hcards loc]

/-- C3: within resolve_actions, player 1's action is validated and
committed against the state into which player 0's action has already
been committed, yet its validation result, its emitted events and its
played-cards entry are exactly those of validate_action/commit against
the pre-resolution snapshot (player 0's own action is validated against
that snapshot definitionally, as `resolve_actions` passes the incoming
state to its first commit). -/
theorem resolve_actions_validates_presnapshot (s : GameState) (a0 a1 : PlayerAction)
    (h0 : a0.player_id = .P0) (h1 : a1.player_id = .P1) :
    validate_action (commitAction s a0).1 a1 = validate_action s a1 ∧
    (commitAction (commitAction s a0).1 a1).2 = (commitAction s a1).2 := by
  have hview : (commitAction s a0).1.playerView a1.player_id = s.playerView a1.player_id := by
    apply commitAction_playerView
    rw [h0, h1]
    decide
  have hv := validate_action_eq_of_view s (commitAction s a0).1 a1 hview
  refine ⟨hv, ?_⟩
  obtain ⟨t, ht⟩ : ∃ t, (commitAction s a0).1 = t := ⟨_, rfl⟩
  rw [ht] at hv hview ⊢
  cases a1 with
  | pass q =>
    simp only [commitAction]
    rw [show validate_action t (.pass q) = validate_action s (.pass q) from hv]
    split_ifs <;> rfl
  | play q cid loc =>
    have hp : t.get_player q = s.get_player q := congrArg (fun v => v.1) hview
    simp only [commitAction]
    rw [show validate_action t (.play q cid loc) = validate_action s (.play q cid loc) from hv,
      hp]
    split_ifs with hval
    · rfl
    · cases hfind : findCardInList cid ((s.get_player q).hand) <;> simp only [hfind]

/-- Witness for C3: at sHands, where both players hold a playable card,
player 1's play of card 8 validates identically before and after player
0's play of card 7 is committed. -/
theorem resolve_actions_validates_presnapshot_witness :
    (PlayerAction.play PlayerId.P0 7 0).player_id = .P0 ∧
    (PlayerAction.play PlayerId.P1 8 0).player_id = .P1 ∧
    validate_action (commitAction sHands (.play .P0 7 0)).1 (.play .P1 8 0) =
      validate_action sHands (.play .P1 8 0) :=
  ⟨by decide, by decide,
   (resolve_actions_validates_presnapshot sHands (.play .P0 7 0) (.play .P1 8 0)
     (by decide) (by decide)).1⟩

/-! ### C4: reveal order -/

theorem _reveal_card_head (st : GameState) (c : CardInstance) (l : Nat) (p : PlayerId) :
    (_reveal_card st c l p).2.head? = some (.cardRevealed c.instance_id l p) := by
  simp only [_reveal_card]
  split_ifs <;> first
    | rfl
    | (split <;> rfl)

theorem commitAction_no_cardRevealed (s : GameState) (a : PlayerAction) (iid L : Nat)
    (q : PlayerId) : GameEvent.cardRevealed iid L q ∉ (commitAction s a).2.1 := by
  cases a <;> simp only [commitAction] <;> split_ifs <;> first
    | simp
    | (split <;> simp)

theorem commitAction_play_valid (s : GameState) (p : PlayerId) (cid loc : Nat)
    (h : (validate_action s (.play p cid loc)).valid = true) :
    ∃ c, findCardInList cid ((s.get_player p).hand) = some c ∧
      (commitAction s (.play p cid loc)).2.2 = some (c, loc, p) := by
  obtain ⟨-, c, hc, -, -⟩ := (validate_play_iff s p cid loc).mp h
  refine ⟨c, hc, ?_⟩
  simp only [commitAction, h, Bool.not_true, hc]
  rfl

/-- C4: when both players submit valid play actions, the resolution
output factors through revealing player 0's card first (its on-reveal
effects are applied before player 1's card is revealed), and this holds
for both supply orders of the two actions; each reveal's event block
begins with that card's card-revealed event, and the commit events
preceding them contain no card-revealed event, so player 0's
card-revealed event precedes player 1's. -/
theorem reveal_order_p0_first (s : GameState) (cid0 l0 cid1 l1 : Nat)
    (hv0 : (validate_action s (.play .P0 cid0 l0)).valid = true)
    (hv1 : (validate_action s (.play .P1 cid1 l1)).valid = true) :
    ∃ c0 c1,
      findCardInList cid0 ((s.get_player .P0).hand) = some c0 ∧
      findCardInList cid1 ((s.get_player .P1).hand) = some c1 ∧
      RevealedInOrder (commitAction (commitAction s (.play .P0 cid0 l0)).1 (.play .P1 cid1 l1)).1
        c0 l0 c1 l1 (resolve_actions s (.play .P0 cid0 l0) (.play .P1 cid1 l1)) ∧
      RevealedInOrder (commitAction (commitAction s (.play .P1 cid1 l1)).1 (.play .P0 cid0 l0)).1
        c0 l0 c1 l1 (resolve_actions s (.play .P1 cid1 l1) (.play .P0 cid0 l0)) ∧
      (∀ (st : GameState) (c : CardInstance) (L : Nat) (q : PlayerId),
        (_reveal_card st c L q).2.head? = some (.cardRevealed c.instance_id L q)) := by
  obtain ⟨c0, hc0, h02⟩ := commitAction_play_valid s .P0 cid0 l0 hv0
  obtain ⟨c1, hc1, h12base⟩ := commitAction_play_valid s .P1 cid1 l1 hv1
  -- Order (a0, a1): player 1's commit happens on the post-a0 state.
  have hview01 : (commitAction s (.play .P0 cid0 l0)).1.playerView .P1 = s.playerView .P1 :=
    commitAction_playerView s (.play .P0 cid0 l0) .P1 (by simp [PlayerAction.player_id])
  have hveq1 : validate_action (commitAction s (.play .P0 cid0 l0)).1 (.play .P1 cid1 l1) =
      validate_action s (.play .P1 cid1 l1) :=
    validate_action_eq_of_view s (commitAction s (.play .P0 cid0 l0)).1 (.play .P1 cid1 l1)
      hview01
  obtain ⟨c1', hc1', h12⟩ :=
    commitAction_play_valid (commitAction s (.play .P0 cid0 l0)).1 .P1 cid1 l1
      (by rw [hveq1]; exact hv1)
  have hp1 : (commitAction s (.play .P0 cid0 l0)).1.get_player .P1 = s.get_player .P1 :=
    congrArg (fun v => v.1) hview01
  have hc1'eq : c1' = c1 := by
    rw [hp1, hc1] at hc1'
    exact (Option.some.inj hc1').symm
  subst hc1'eq
  -- Order (a1, a0): player 0's commit happens on the post-a1 state.
  have hview10 : (commitAction s (.play .P1 cid1 l1)).1.playerView .P0 = s.playerView .P0 :=
    commitAction_playerView s (.play .P1 cid1 l1) .P0 (by simp [PlayerAction.player_id])
  have hveq0 : validate_action (commitAction s (.play .P1 cid1 l1)).1 (.play .P0 cid0 l0) =
      validate_action s (.play .P0 cid0 l0) :=
    validate_action_eq_of_view s (commitAction s (.play .P1 cid1 l1)).1 (.play .P0 cid0 l0)
      hview10
  obtain ⟨c0', hc0', h02s⟩ :=
    commitAction_play_valid (commitAction s (.play .P1 cid1 l1)).1 .P0 cid0 l0
      (by rw [hveq0]; exact hv0)
  have hp0 : (commitAction s (.play .P1 cid1 l1)).1.get_player .P0 = s.get_player .P0 :=
    congrArg (fun v => v.1) hview10
  have hc0'eq : c0' = c0 := by
    rw [hp0, hc0] at hc0'
    exact (Option.some.inj hc0').symm
  subst hc0'eq
  refine ⟨c0', c1', hc0, hc1, ?_, ?_, _reveal_card_head⟩
  · refine ⟨(commitAction s (.play .P0 cid0 l0)).2.1 ++
      (commitAction (commitAction s (.play .P0 cid0 l0)).1 (.play .P1 cid1 l1)).2.1, ?_, ?_⟩
    · intro iid L q hmem
      rcases List.mem_append.mp hmem with hm | hm
      · exact commitAction_no_cardRevealed _ _ _ _ _ hm
      · exact commitAction_no_cardRevealed _ _ _ _ _ hm
    · simp only [resolve_actions, h02, h12]
      rfl
  · refine ⟨(commitAction s (.play .P1 cid1 l1)).2.1 ++
      (commitAction (commitAction s (.play .P1 cid1 l1)).1 (.play .P0 cid0 l0)).2.1, ?_, ?_⟩
    · intro iid L q hmem
      rcases List.mem_append.mp hmem with hm | hm
      · exact commitAction_no_cardRevealed _ _ _ _ _ hm
      · exact commitAction_no_cardRevealed _ _ _ _ _ hm
    · simp only [resolve_actions, h12base, h02s]
      rfl

/-- Witness for C4 at sHands: both players play their held card to
location 0, in both supply orders. -/
theorem reveal_order_p0_first_witness :
    Exists fun c0 => Exists fun c1 =>
      findCardInList 7 ((sHands.get_player .P0).hand) = some c0 ∧
      findCardInList 8 ((sHands.get_player .P1).hand) = some c1 ∧
      RevealedInOrder (commitAction (commitAction sHands (.play .P0 7 0)).1 (.play .P1 8 0)).1
        c0 0 c1 0 (resolve_actions sHands (.play .P0 7 0) (.play .P1 8 0)) ∧
      RevealedInOrder (commitAction (commitAction sHands (.play .P1 8 0)).1 (.play .P0 7 0)).1
        c0 0 c1 0 (resolve_actions sHands (.play .P1 8 0) (.play .P0 7 0)) ∧
      (∀ (st : GameState) (c : CardInstance) (L : Nat) (q : PlayerId),
        (_reveal_card st c L q).2.head? = some (.cardRevealed c.instance_id L q)) :=
  reveal_order_p0_first sHands 7 0 8 0 (by decide) (by decide)

/-! ### C8: destroy-and-buff -/

theorem destroyAndBuffLoop_countP (source_iid : Nat) (amt : Int) (st : GameState)
    (events : List GameEvent) (l : List CardInstance) :
    ((destroyAndBuffLoop source_iid amt st events l).2).countP GameEvent.isPowerChanged ≤
      events.countP GameEvent.isPowerChanged + 1 := by
  induction l generalizing st events with
  | nil => simp [destroyAndBuffLoop]
  | cons b rest ih =>
    simp only [destroyAndBuffLoop]
    cases (buffPermanentAt st b.instance_id amt (some source_iid)).2 with
    | none => exact ih _ _
    | some ev =>
      simp [List.countP_append]
      cases hev : ev.isPowerChanged <;> simp [hev, List.countP_cons]

/-- C8: if DestroyAndBuffEffect's destroy-target filter resolves to no
card, or its first resolved destroy-target is not on the board, apply
returns the state unchanged with no events (neither the destroy nor the
buff happens); and its event output never contains more than one
power-changed event, so at most one card is ever buffed even when the
buff filter matches several. -/
theorem destroyAndBuff_correct (st : GameState) (src : CardInstance) (sp : PlayerId)
    (dt bt : TargetFilter) (amt : Int) :
    ((_resolve_targets st src sp dt = [] ∨
      (∃ t ts, _resolve_targets st src sp dt = t :: ts ∧
        st.find_card_location t.instance_id = none)) →
      destroyAndBuff_apply dt bt amt st src sp = (st, [])) ∧
    ((destroyAndBuff_apply dt bt amt st src sp).2).countP GameEvent.isPowerChanged ≤ 1 := by
  constructor
  · intro h
    rcases h with h | ⟨t, ts, ht, hloc⟩
    · simp only [destroyAndBuff_apply, h]
    · simp only [destroyAndBuff_apply, ht, hloc]
  · simp only [destroyAndBuff_apply]
    cases hres : _resolve_targets st src sp dt with
    | nil => simp
    | cons t ts =>
      cases hloc : st.find_card_location t.instance_id with
      | none => simp [hloc]
      | some idx =>
        simp only [hloc]
        cases hrem : ((st.get_location idx).remove_card t.instance_id).2 with
        | none => simp [hrem]
        | some rc =>
          simp only [hrem]
          exact le_trans (destroyAndBuffLoop_countP _ _ _ _ _) (by simp [GameEvent.isPowerChanged])

/-- Witness for C8: at emptyState with an off-board source, the
same-location-enemy destroy filter resolves to nothing and the effect
is a silent no-op. -/
theorem destroyAndBuff_correct_witness :
    _resolve_targets emptyState (vinst 5 .P0 3) .P0 .SAME_LOCATION_ENEMY = [] ∧
    destroyAndBuff_apply .SAME_LOCATION_ENEMY .SELF 2 emptyState (vinst 5 .P0 3) .P0 =
      (emptyState, []) ∧
    ((destroyAndBuff_apply .SAME_LOCATION_ENEMY .SELF 2 emptyState (vinst 5 .P0 3)
      .P0).2).countP GameEvent.isPowerChanged ≤ 1 :=
  ⟨by decide,
   (destroyAndBuff_correct emptyState (vinst 5 .P0 3) .P0 .SAME_LOCATION_ENEMY .SELF 2).1
     (Or.inl (by decide)),
   (destroyAndBuff_correct emptyState (vinst 5 .P0 3) .P0 .SAME_LOCATION_ENEMY .SELF 2).2⟩

/-! ### C9: determinism of turn resolution -/

/-- C9: resolve_turn and resolve_actions are pure functions of the
snapshot and the two actions: two runs with equal inputs produce equal
resulting snapshots and equal event sequences. -/
theorem resolve_turn_deterministic (s s' : GameState) (a0 a0' a1 a1' : PlayerAction)
    (hs : s = s') (h0 : a0 = a0') (h1 : a1 = a1') :
    resolve_turn s a0 a1 = resolve_turn s' a0' a1' ∧
    resolve_actions s a0 a1 = resolve_actions s' a0' a1' := by
  subst hs h0 h1
  exact ⟨rfl, rfl⟩

/-- Witness for C9 at a concrete snapshot and action pair. -/
theorem resolve_turn_deterministic_witness :
    resolve_turn sHand (.play .P0 7 1) (.pass .P1) =
      resolve_turn sHand (.play .P0 7 1) (.pass .P1) :=
  (resolve_turn_deterministic sHand sHand (.play .P0 7 1) (.play .P0 7 1) (.pass .P1) (.pass .P1)
    rfl rfl rfl).1

/-! ### C10: drawing from an empty deck -/

/-- C10: PlayerState.draw_card on an empty deck returns the unchanged
player state and no card, and start_turn consequently emits no
card-drawn event for a player whose deck is empty and leaves that
player's hand unchanged. -/
theorem draw_card_empty_deck (ps : PlayerState) (s : GameState) (p : PlayerId)
    (hps : ps.deck = []) (hs : (s.get_player p).deck = []) :
    ps.draw_card = (ps, none) ∧
    ((start_turn s).1.get_player p).hand = (s.get_player p).hand ∧
    ∀ iid, GameEvent.cardDrawn p iid ∉ (start_turn s).2 := by
  refine ⟨by rw [PlayerState.draw_card, hps], ?_⟩
  cases p with
  | P0 =>
    simp only [GameState.get_player] at hs
    simp only [start_turn, List.foldl, startTurnPlayer, drawOneWithEvent,
      GameState.with_turn, GameState.clear_turn_tracking, GameState.with_player,
      GameState.with_phase, GameState.get_player, PlayerState.with_energy,
      PlayerState.draw_card, hs]
    cases hd1 : s.player1.deck with
    | nil => split_ifs <;> simp_all
    | cons d rest => split_ifs <;> simp_all
  | P1 =>
    simp only [GameState.get_player] at hs
    simp only [start_turn, List.foldl, startTurnPlayer, drawOneWithEvent,
      GameState.with_turn, GameState.clear_turn_tracking, GameState.with_player,
      GameState.with_phase, GameState.get_player, PlayerState.with_energy,
      PlayerState.draw_card, hs]
    cases hd0 : s.player0.deck with
    | nil => split_ifs <;> simp_all
    | cons d rest => split_ifs <;> simp_all

/-- Witness for C10: player 0's deck is empty at sHand, so the turn
start draws nothing for player 0. -/
theorem draw_card_empty_deck_witness :
    (sHand.get_player .P0).hand = [handCard] ∧
    ((start_turn sHand).1.get_player .P0).hand = (sHand.get_player .P0).hand ∧
    GameEvent.cardDrawn .P0 0 ∉ (start_turn sHand).2 :=
  ⟨by decide,
   (draw_card_empty_deck (sHand.get_player .P0) sHand .P0 (by decide) (by decide)).2.1,
   (draw_card_empty_deck (sHand.get_player .P0) sHand .P0 (by decide) (by decide)).2.2 0⟩


/-! ### Step lemmas shared by the C5 capacity and C6 energy invariants -/

theorem capOK_get_location {s : GameState} (h : s.capOK) (i : Nat) :
    (s.get_location i).capOK := by
  rcases i with _ | _ | _ | i
  · exact h.1
  · exact h.2.1
  · exact h.2.2
  · exact h.2.2

theorem update_card_capOK {l : LocationState} (u : CardInstance) (h : l.capOK) :
    (l.update_card u).capOK := by
  refine ⟨?_, ?_⟩ <;> simp only [LocationState.update_card, List.length_map]
  · exact h.1
  · exact h.2

theorem removeFirstCard_length (iid : Nat) (l : List CardInstance) :
    (removeFirstCard iid l).1.length ≤ l.length := by
  induction l with
  | nil => simp [removeFirstCard]
  | cons c cs ih =>
    simp only [removeFirstCard]
    split_ifs <;> simp <;> omega

theorem remove_card_capOK {l : LocationState} (iid : Nat) (h : l.capOK) :
    (l.remove_card iid).1.capOK := by
  have h0 := removeFirstCard_length iid l.cards0
  have h1 := removeFirstCard_length iid l.cards1
  unfold LocationState.capOK at h
  simp only [LocationState.remove_card]
  cases h0 : (removeFirstCard iid l.cards0).2 with
  | some c =>
    simp only [h0]
    refine ⟨?_, h.2⟩
    show (removeFirstCard iid l.cards0).1.length ≤ LOCATION_CAPACITY
    omega
  | none =>
    simp only [h0]
    cases h1 : (removeFirstCard iid l.cards1).2 with
    | some c =>
      simp only [h1]
      refine ⟨h.1, ?_⟩
      show (removeFirstCard iid l.cards1).1.length ≤ LOCATION_CAPACITY
      omega
    | none =>
      simp only [h1]
      exact h

theorem add_card_capOK {l : LocationState} (c : CardInstance) (p : PlayerId) (h : l.capOK)
    (hc : l.card_count p < LOCATION_CAPACITY) : (l.add_card c p).capOK := by
  cases p with
  | P0 =>
    have hcc : l.cards0.length < LOCATION_CAPACITY := hc
    refine ⟨?_, h.2⟩
    show (l.cards0 ++ [c]).length ≤ LOCATION_CAPACITY
    simp only [List.length_append, List.length_singleton]
    omega
  | P1 =>
    have hcc : l.cards1.length < LOCATION_CAPACITY := hc
    refine ⟨h.1, ?_⟩
    show (l.cards1 ++ [c]).length ≤ LOCATION_CAPACITY
    simp only [List.length_append, List.length_singleton]
    omega

theorem with_location_ge3 (s : GameState) (i : Nat) (l : LocationState) (h : 3 ≤ i) :
    s.with_location i l = s := by
  rcases i with _ | _ | _ | i
  · omega
  · omega
  · omega
  · rfl

theorem with_location_get_other (s : GameState) (i j : Nat) (l : LocationState)
    (hij : i ≠ j) (hj : j < 3) : (s.with_location i l).get_location j = s.get_location j := by
  rcases j with _ | _ | _ | j
  · rcases i with _ | _ | _ | i <;> first | exact absurd rfl hij | rfl
  · rcases i with _ | _ | _ | i <;> first | exact absurd rfl hij | rfl
  · rcases i with _ | _ | _ | i <;> first | exact absurd rfl hij | rfl
  · omega

theorem capOK_with_player {s : GameState} (p : PlayerId) (x : PlayerState) (h : s.capOK) :
    (s.with_player p x).capOK := by
  cases p <;> exact h

theorem get_location_with_player (s : GameState) (p : PlayerId) (x : PlayerState) (i : Nat) :
    (s.with_player p x).get_location i = s.get_location i := by
  cases p <;> rfl



/-! ### List and location groundwork for the well-formedness invariant -/

theorem removeFirstCard_none (iid : Nat) (l : List CardInstance)
    (h : (removeFirstCard iid l).2 = none) : (removeFirstCard iid l).1 = l := by
  induction l with
  | nil => rfl
  | cons c cs ih =>
    simp only [removeFirstCard] at h ⊢
    split_ifs at h ⊢ with hc
    all_goals first
      | exact Option.noConfusion h
      | exact congrArg (List.cons c) (ih h)

theorem removeFirstCard_some_id (iid : Nat) (l : List CardInstance) (c : CardInstance)
    (h : (removeFirstCard iid l).2 = some c) : c.instance_id = iid := by
  induction l with
  | nil => cases h
  | cons d ds ih =>
    simp only [removeFirstCard] at h
    split_ifs at h with hd
    · cases h
      exact hd
    · exact ih h

theorem removeFirstCard_some_perm (iid : Nat) (l : List CardInstance) (c : CardInstance)
    (h : (removeFirstCard iid l).2 = some c) : l.Perm (c :: (removeFirstCard iid l).1) := by
  induction l with
  | nil => cases h
  | cons d ds ih =>
    simp only [removeFirstCard] at h ⊢
    split_ifs at h ⊢ with hd
    · cases h
      exact List.Perm.refl _
    · refine List.Perm.trans (List.Perm.cons d (ih h)) ?_
      exact List.Perm.swap c d _

theorem removeFirstCard_sublist (iid : Nat) (l : List CardInstance) :
    (removeFirstCard iid l).1.Sublist l := by
  induction l with
  | nil => simp [removeFirstCard]
  | cons c cs ih =>
    simp only [removeFirstCard]
    split_ifs with hc
    · exact List.sublist_cons_self c cs
    · exact List.Sublist.cons₂ c ih

theorem update_list_map_id (u : CardInstance) (l : List CardInstance) :
    ((l.map fun c => if c.instance_id = u.instance_id then u else c).map
      CardInstance.instance_id) = l.map CardInstance.instance_id := by
  induction l with
  | nil => rfl
  | cons c cs ih =>
    simp only [List.map_cons, ih, List.cons.injEq, and_true]
    split_ifs with hc
    · exact hc.symm
    · rfl

theorem update_list_mem (u : CardInstance) (l : List CardInstance) (c' : CardInstance)
    (h : c' ∈ l.map fun c => if c.instance_id = u.instance_id then u else c) :
    (c' = u ∧ ∃ c ∈ l, c.instance_id = u.instance_id) ∨ c' ∈ l := by
  obtain ⟨c, hc, hval⟩ := List.mem_map.mp h
  by_cases hid : c.instance_id = u.instance_id
  · rw [if_pos hid] at hval
    exact Or.inl ⟨hval.symm, c, hc, hid⟩
  · rw [if_neg hid] at hval
    exact Or.inr (hval ▸ hc)

theorem update_card_map_id (l : LocationState) (u : CardInstance) :
    (l.update_card u).all_cards.map CardInstance.instance_id =
      l.all_cards.map CardInstance.instance_id := by
  simp only [LocationState.update_card, LocationState.all_cards, List.map_append]
  rw [update_list_map_id, update_list_map_id]

theorem update_card_index (l : LocationState) (u : CardInstance) :
    (l.update_card u).index = l.index := rfl

theorem remove_card_index (l : LocationState) (iid : Nat) :
    (l.remove_card iid).1.index = l.index := by
  simp only [LocationState.remove_card]
  cases (removeFirstCard iid l.cards0).2 with
  | some c => rfl
  | none =>
    cases (removeFirstCard iid l.cards1).2 with
    | some c => rfl
    | none => rfl

theorem add_card_index (l : LocationState) (c : CardInstance) (p : PlayerId) :
    (l.add_card c p).index = l.index := by
  cases p <;> rfl

theorem remove_card_none (l : LocationState) (iid : Nat)
    (h : (l.remove_card iid).2 = none) : (l.remove_card iid).1 = l := by
  simp only [LocationState.remove_card] at h ⊢
  cases h0 : (removeFirstCard iid l.cards0).2 with
  | some c => simp [h0] at h
  | none =>
    simp only [h0]
    cases h1 : (removeFirstCard iid l.cards1).2 with
    | some c => simp [h0, h1] at h
    | none => simp [removeFirstCard_none iid l.cards0 h0, removeFirstCard_none iid l.cards1 h1]

theorem remove_card_some_perm (l : LocationState) (iid : Nat) (c : CardInstance)
    (h : (l.remove_card iid).2 = some c) :
    l.all_cards.Perm (c :: (l.remove_card iid).1.all_cards) := by
  simp only [LocationState.remove_card] at h ⊢
  cases h0 : (removeFirstCard iid l.cards0).2 with
  | some d =>
    simp only [h0] at h ⊢
    cases h
    exact List.Perm.append_right l.cards1 (removeFirstCard_some_perm iid l.cards0 c h0)
  | none =>
    simp only [h0] at h ⊢
    cases h1 : (removeFirstCard iid l.cards1).2 with
    | some d =>
      simp only [h1] at h ⊢
      cases h
      refine List.Perm.trans (List.Perm.append_left l.cards0
        (removeFirstCard_some_perm iid l.cards1 c h1)) ?_
      exact List.perm_middle
    | none => simp [h1] at h

theorem remove_card_some_id (l : LocationState) (iid : Nat) (c : CardInstance)
    (h : (l.remove_card iid).2 = some c) : c.instance_id = iid := by
  simp only [LocationState.remove_card] at h
  cases h0 : (removeFirstCard iid l.cards0).2 with
  | some d =>
    simp only [h0] at h
    cases h
    exact removeFirstCard_some_id iid l.cards0 c h0
  | none =>
    simp only [h0] at h
    cases h1 : (removeFirstCard iid l.cards1).2 with
    | some d =>
      simp only [h1] at h
      cases h
      exact removeFirstCard_some_id iid l.cards1 c h1
    | none => simp [h1] at h

theorem remove_card_cards0_sublist (l : LocationState) (iid : Nat) :
    (l.remove_card iid).1.cards0.Sublist l.cards0 := by
  simp only [LocationState.remove_card]
  cases h0 : (removeFirstCard iid l.cards0).2 with
  | some c => exact removeFirstCard_sublist iid l.cards0
  | none =>
    simp only [h0]
    cases (removeFirstCard iid l.cards1).2 <;> simp

theorem remove_card_cards1_sublist (l : LocationState) (iid : Nat) :
    (l.remove_card iid).1.cards1.Sublist l.cards1 := by
  simp only [LocationState.remove_card]
  cases h0 : (removeFirstCard iid l.cards0).2 with
  | some c => simp
  | none =>
    simp only [h0]
    cases h1 : (removeFirstCard iid l.cards1).2 with
    | some c =>
      simp only [h1]
      exact removeFirstCard_sublist iid l.cards1
    | none => simp [h1]

theorem add_card_all_perm (l : LocationState) (c : CardInstance) (p : PlayerId) :
    (l.add_card c p).all_cards.Perm (c :: l.all_cards) := by
  cases p with
  | P0 =>
    show ((l.cards0 ++ [c]) ++ l.cards1).Perm _
    refine List.Perm.trans (List.Perm.append_right l.cards1 (List.perm_append_singleton c l.cards0)) ?_
    exact List.Perm.refl _
  | P1 =>
    show (l.cards0 ++ (l.cards1 ++ [c])).Perm _
    refine List.Perm.trans (List.Perm.append_left l.cards0 (List.perm_append_singleton c l.cards1)) ?_
    exact List.perm_middle

theorem perm_extract1 {x : Nat} {R M Mp : List Nat} (h : M.Perm (x :: Mp)) :
    (R ++ M).Perm (x :: (R ++ Mp)) :=
  List.Perm.trans (List.Perm.append_left R h) List.perm_middle

theorem perm_extract2 {x : Nat} {R M Mp B : List Nat} (h : M.Perm (x :: Mp)) :
    ((R ++ M) ++ B).Perm (x :: ((R ++ Mp) ++ B)) :=
  List.Perm.append_right B (perm_extract1 h)

theorem perm_extract3 {x : Nat} {R M Mp A B : List Nat} (h : M.Perm (x :: Mp)) :
    (((R ++ M) ++ A) ++ B).Perm (x :: (((R ++ Mp) ++ A) ++ B)) :=
  List.Perm.append_right B (List.Perm.append_right A (perm_extract1 h))


/-! ### State-level groundwork for the well-formedness invariant -/

theorem findCardInList_mem {iid : Nat} {l : List CardInstance} {c : CardInstance}
    (h : findCardInList iid l = some c) : c ∈ l ∧ c.instance_id = iid := by
  induction l with
  | nil => cases h
  | cons d ds ih =>
    simp only [findCardInList] at h
    split_ifs at h with hd
    · cases h
      exact ⟨List.mem_cons_self _ _, hd⟩
    · obtain ⟨hm, hi⟩ := ih h
      exact ⟨List.mem_cons_of_mem d hm, hi⟩

theorem find_card_by_instance_mem {s : GameState} {iid : Nat} {c : CardInstance}
    (h : s.find_card_by_instance iid = some c) :
    c ∈ s.searchOrderCards ∧ c.instance_id = iid :=
  findCardInList_mem h

theorem search_unique {s : GameState} (hN : s.idsList.Nodup) {c d : CardInstance}
    (hc : c ∈ s.searchOrderCards) (hd : d ∈ s.searchOrderCards)
    (hid : c.instance_id = d.instance_id) : c = d :=
  List.inj_on_of_nodup_map hN hc hd hid

theorem mem_search_fresh {s : GameState} (hF : s.freshOK) {c : CardInstance}
    (hc : c ∈ s.searchOrderCards) : c.instance_id < s.next_instance_id :=
  hF _ (List.mem_map_of_mem _ hc)

theorem board_mem_search {s : GameState} {c : CardInstance} (h : c ∈ s.all_board_cards) :
    c ∈ s.searchOrderCards := by
  simp only [GameState.all_board_cards, GameState.searchOrderCards, List.mem_append] at h ⊢
  tauto

theorem get_location_mem_search {s : GameState} {i : Nat} {c : CardInstance}
    (h : c ∈ (s.get_location i).all_cards) : c ∈ s.searchOrderCards := by
  apply board_mem_search
  rcases i with _ | _ | _ | i <;>
    simp only [GameState.all_board_cards, List.mem_append] <;> tauto

theorem get_location_ownersOK {s : GameState} (h : s.ownersOK) (i : Nat) :
    (s.get_location i).ownersOK := by
  rcases i with _ | _ | _ | i
  · exact h.2.2.2.2.1
  · exact h.2.2.2.2.2.1
  · exact h.2.2.2.2.2.2
  · exact h.2.2.2.2.2.2

theorem get_location_locIndex {s : GameState} (h : s.locIndexOK) (i : Nat) (hi : i < 3) :
    (s.get_location i).index = i := by
  rcases i with _ | _ | _ | i
  · exact h.1
  · exact h.2.1
  · exact h.2.2
  · omega

theorem find_card_location_lt3 {s : GameState} (hL : s.locIndexOK) {iid i : Nat}
    (h : s.find_card_location iid = some i) :
    i < 3 ∧ (s.get_location i).holds iid := by
  simp only [GameState.find_card_location] at h
  split_ifs at h with h0 h1 h2
  · cases h
    rw [hL.1]
    exact ⟨by omega, by rw [show s.get_location 0 = s.loc0 from rfl]; exact h0⟩
  · cases h
    rw [hL.2.1]
    exact ⟨by omega, by rw [show s.get_location 1 = s.loc1 from rfl]; exact h1⟩
  · cases h
    rw [hL.2.2]
    exact ⟨by omega, by rw [show s.get_location 2 = s.loc2 from rfl]; exact h2⟩

theorem idsList_with_location_eq (s : GameState) (i : Nat) (lp : LocationState)
    (hi : lp.all_cards.map CardInstance.instance_id =
      (s.get_location i).all_cards.map CardInstance.instance_id) :
    (s.with_location i lp).idsList = s.idsList := by
  rcases i with _ | _ | _ | i <;>
    simp only [GameState.idsList, GameState.searchOrderCards, GameState.with_location,
      List.map_append] <;>
    rw [hi] <;> rfl

theorem mem_search_with_location {s : GameState} {i : Nat} {lp : LocationState}
    (h0 : ∀ c ∈ lp.cards0, c ∈ (s.get_location i).cards0)
    (h1 : ∀ c ∈ lp.cards1, c ∈ (s.get_location i).cards1) :
    ∀ c' ∈ (s.with_location i lp).searchOrderCards, c' ∈ s.searchOrderCards := by
  intro c' hc'
  rcases i with _ | _ | _ | i <;>
    simp only [GameState.searchOrderCards, GameState.with_location, LocationState.all_cards,
      List.mem_append] at hc' ⊢ <;>
    rcases hc' with ((((((h | h) | h) | h) | h | h) | h | h) | h | h) <;>
    first
      | tauto
      | (exact Or.inl (Or.inl (Or.inl (Or.inl (Or.inl (Or.inr (Or.inl (h0 _ h))))))))
      | (exact Or.inl (Or.inl (Or.inl (Or.inl (Or.inl (Or.inr (Or.inr (h1 _ h))))))))
      | (exact Or.inl (Or.inl (Or.inl (Or.inl (Or.inr (Or.inl (h0 _ h)))))))
      | (exact Or.inl (Or.inl (Or.inl (Or.inl (Or.inr (Or.inr (h1 _ h)))))))
      | (exact Or.inl (Or.inr (Or.inl (h0 _ h))))
      | (exact Or.inl (Or.inr (Or.inr (h1 _ h))))
      | (exact Or.inr (Or.inl (h0 _ h)))
      | (exact Or.inr (Or.inr (h1 _ h)))

theorem StepsTo_refl {s : GameState} (h : s.WF) : StepsTo s s :=
  ⟨h, rfl, rfl, le_refl _, fun _ _ _ hO => hO⟩

theorem StepsTo_trans {s t u : GameState} (h1 : StepsTo s t) (h2 : StepsTo t u) :
    StepsTo s u :=
  ⟨h2.1, h2.2.1.trans h1.2.1, h2.2.2.1.trans h1.2.2.1, h1.2.2.2.1.trans h2.2.2.2.1,
   fun iid p hlt hO =>
     h2.2.2.2.2 iid p (lt_of_lt_of_le hlt h1.2.2.2.1) (h1.2.2.2.2 iid p hlt hO)⟩

theorem stepsTo_with_card_destroyed {s : GameState} (h : s.WF) (iid : Nat) :
    StepsTo s (s.with_card_destroyed iid) :=
  ⟨h, rfl, rfl, le_refl _, fun _ _ _ hO => hO⟩

theorem stepsTo_with_card_moved {s : GameState} (h : s.WF) (iid : Nat) :
    StepsTo s (s.with_card_moved iid) :=
  ⟨h, rfl, rfl, le_refl _, fun _ _ _ hO => hO⟩

theorem stepsTo_with_silenced_card {s : GameState} (h : s.WF) (iid : Nat) :
    StepsTo s (s.with_silenced_card iid) := by
  unfold GameState.with_silenced_card
  split_ifs
  · exact StepsTo_refl h
  · exact ⟨h, rfl, rfl, le_refl _, fun _ _ _ hO => hO⟩


theorem capOK_with_location {s : GameState} {lp : LocationState} (hs : s.capOK)
    (hl : lp.capOK) (i : Nat) : (s.with_location i lp).capOK := by
  rcases i with _ | _ | _ | i
  · exact ⟨hl, hs.2.1, hs.2.2⟩
  · exact ⟨hs.1, hl, hs.2.2⟩
  · exact ⟨hs.1, hs.2.1, hl⟩
  · exact hs

theorem locIndexOK_with_location {s : GameState} {lp : LocationState} (hs : s.locIndexOK)
    {i : Nat} (hi : i < 3) (hl : lp.index = (s.get_location i).index) :
    (s.with_location i lp).locIndexOK := by
  rcases i with _ | _ | _ | i
  · exact ⟨hl.trans hs.1, hs.2.1, hs.2.2⟩
  · exact ⟨hs.1, hl.trans hs.2.1, hs.2.2⟩
  · exact ⟨hs.1, hs.2.1, hl.trans hs.2.2⟩
  · omega

theorem ownersOK_with_location {s : GameState} {lp : LocationState} (hs : s.ownersOK)
    (hl : lp.ownersOK) (i : Nat) : (s.with_location i lp).ownersOK := by
  obtain ⟨a, b, c, d, e, f, g⟩ := hs
  rcases i with _ | _ | _ | i
  · exact ⟨a, b, c, d, hl, f, g⟩
  · exact ⟨a, b, c, d, e, hl, g⟩
  · exact ⟨a, b, c, d, e, f, hl⟩
  · exact ⟨a, b, c, d, e, f, g⟩

theorem next_with_location (s : GameState) (i : Nat) (lp : LocationState) :
    (s.with_location i lp).next_instance_id = s.next_instance_id := by
  rcases i with _ | _ | _ | i <;> rfl

theorem player0_with_location (s : GameState) (i : Nat) (lp : LocationState) :
    (s.with_location i lp).player0 = s.player0 := by
  rcases i with _ | _ | _ | i <;> rfl

theorem player1_with_location (s : GameState) (i : Nat) (lp : LocationState) :
    (s.with_location i lp).player1 = s.player1 := by
  rcases i with _ | _ | _ | i <;> rfl

theorem mem_cards_mem_all {l : LocationState} {c : CardInstance}
    (h : c ∈ l.cards0 ∨ c ∈ l.cards1) : c ∈ l.all_cards := by
  simp only [LocationState.all_cards, List.mem_append]
  exact h

theorem mem_all_update {l : LocationState} {u cp : CardInstance}
    (h : cp ∈ (l.update_card u).all_cards) :
    (cp = u ∧ ∃ c ∈ l.all_cards, c.instance_id = u.instance_id) ∨ cp ∈ l.all_cards := by
  simp only [LocationState.update_card, LocationState.all_cards, List.mem_append] at h ⊢
  rcases h with h | h
  all_goals rcases update_list_mem u _ _ h with ⟨he, c, hc, hcid⟩ | hmem
  · exact Or.inl ⟨he, c, Or.inl hc, hcid⟩
  · exact Or.inr (Or.inl hmem)
  · exact Or.inl ⟨he, c, Or.inr hc, hcid⟩
  · exact Or.inr (Or.inr hmem)

theorem mem_search_with_location_any {s : GameState} {i : Nat} {lp : LocationState}
    {cp : CardInstance} (h : cp ∈ (s.with_location i lp).searchOrderCards) :
    cp ∈ s.searchOrderCards ∨ cp ∈ lp.all_cards := by
  rcases i with _ | _ | _ | i <;>
    simp only [GameState.searchOrderCards, GameState.with_location, LocationState.all_cards,
      List.mem_append] at h ⊢ <;>
    tauto

theorem mem_search_update {s : GameState} {i : Nat} {u : CardInstance} {cp : CardInstance}
    (h : cp ∈ (s.with_location i ((s.get_location i).update_card u)).searchOrderCards) :
    cp ∈ s.searchOrderCards ∨
      (cp = u ∧ ∃ c ∈ (s.get_location i).all_cards, c.instance_id = u.instance_id) := by
  rcases mem_search_with_location_any h with h | h
  · exact Or.inl h
  · rcases mem_all_update h with ⟨he, c, hc, hcid⟩ | hmem
    · exact Or.inr ⟨he, c, hc, hcid⟩
    · exact Or.inl (get_location_mem_search hmem)


theorem update_card_ownersOK {s : GameState} {i : Nat} {u : CardInstance}
    (hOwn : s.ownersOK) (hN : s.idsList.Nodup)
    (hcoh : ∀ c ∈ s.searchOrderCards, c.instance_id = u.instance_id → c.owner = u.owner) :
    ((s.get_location i).update_card u).ownersOK := by
  have hloc := get_location_ownersOK hOwn i
  constructor
  · intro cp hcp
    rcases update_list_mem u _ _ hcp with ⟨he, c, hc, hcid⟩ | hmem
    · have hcs : c ∈ s.searchOrderCards :=
        get_location_mem_search (mem_cards_mem_all (Or.inl hc))
      rw [he, ← hcoh c hcs hcid]
      exact hloc.1 c hc
    · exact hloc.1 cp hmem
  · intro cp hcp
    rcases update_list_mem u _ _ hcp with ⟨he, c, hc, hcid⟩ | hmem
    · have hcs : c ∈ s.searchOrderCards :=
        get_location_mem_search (mem_cards_mem_all (Or.inr hc))
      rw [he, ← hcoh c hcs hcid]
      exact hloc.2 c hc
    · exact hloc.2 cp hmem

theorem stepsTo_update_loc (s : GameState) (i : Nat) (u : CardInstance) (hWF : s.WF)
    (hcoh : ∀ c ∈ s.searchOrderCards, c.instance_id = u.instance_id → c.owner = u.owner) :
    StepsTo s (s.with_location i ((s.get_location i).update_card u)) := by
  obtain ⟨hcap, hL, hOwn, hN, hF⟩ := hWF
  by_cases hi : i < 3
  · have hids := idsList_with_location_eq s i _ (update_card_map_id (s.get_location i) u)
    refine ⟨⟨?_, ?_, ?_, ?_, ?_⟩, player0_with_location s i _, player1_with_location s i _,
      le_of_eq (next_with_location s i _).symm, ?_⟩
    · exact capOK_with_location hcap (update_card_capOK u (capOK_get_location hcap i)) i
    · exact locIndexOK_with_location hL hi (update_card_index _ u)
    · exact ownersOK_with_location hOwn (update_card_ownersOK hOwn hN hcoh) i
    · show (s.with_location i ((s.get_location i).update_card u)).idsList.Nodup
      rw [hids]
      exact hN
    · intro x hx
      rw [hids] at hx
      rw [next_with_location s i _]
      exact hF x hx
    · intro iid p hlt hOA cp hcp hcpid
      rcases mem_search_update hcp with hmem | ⟨he, c, hc, hcid⟩
      · exact hOA cp hmem hcpid
      · have hcs : c ∈ s.searchOrderCards := get_location_mem_search hc
        rw [he]
        rw [← hcoh c hcs hcid]
        apply hOA c hcs
        rw [hcid, ← he]
        exact hcpid
  · rw [with_location_ge3 s i _ (by omega)]
    exact StepsTo_refl ⟨hcap, hL, hOwn, hN, hF⟩


theorem cardsOwnedOK_of_sublist {l l' : List CardInstance} {p : PlayerId}
    (hs : l'.Sublist l) (h : cardsOwnedOK l p) : cardsOwnedOK l' p :=
  fun c hc => h c (hs.subset hc)

theorem remove_card_ownersOK {l : LocationState} (iid : Nat) (h : l.ownersOK) :
    (l.remove_card iid).1.ownersOK :=
  ⟨cardsOwnedOK_of_sublist (remove_card_cards0_sublist l iid) h.1,
   cardsOwnedOK_of_sublist (remove_card_cards1_sublist l iid) h.2⟩

theorem idsList_remove_perm (s : GameState) (i iid : Nat) (c : CardInstance) (hi : i < 3)
    (h : ((s.get_location i).remove_card iid).2 = some c) :
    s.idsList.Perm (c.instance_id ::
      (s.with_location i ((s.get_location i).remove_card iid).1).idsList) := by
  have hm : ((s.get_location i).all_cards.map CardInstance.instance_id).Perm
      (c.instance_id ::
        ((s.get_location i).remove_card iid).1.all_cards.map CardInstance.instance_id) := by
    have := List.Perm.map CardInstance.instance_id (remove_card_some_perm _ iid c h)
    simpa using this
  rcases i with _ | _ | _ | i
  · simp only [GameState.idsList, GameState.searchOrderCards, GameState.with_location,
      List.map_append]
    exact perm_extract3 (by simpa using hm)
  · simp only [GameState.idsList, GameState.searchOrderCards, GameState.with_location,
      List.map_append]
    exact perm_extract2 (by simpa using hm)
  · simp only [GameState.idsList, GameState.searchOrderCards, GameState.with_location,
      List.map_append]
    exact perm_extract1 (by simpa using hm)
  · omega

theorem remove_loc_facts (s : GameState) (i iid : Nat) (c : CardInstance) (hWF : s.WF)
    (hi : i < 3) (h : ((s.get_location i).remove_card iid).2 = some c) :
    StepsTo s (s.with_location i ((s.get_location i).remove_card iid).1) ∧
      s.idsList.Perm (c.instance_id ::
        (s.with_location i ((s.get_location i).remove_card iid).1).idsList) ∧
      c ∈ s.searchOrderCards := by
  obtain ⟨hcap, hL, hOwn, hN, hF⟩ := hWF
  have hperm := idsList_remove_perm s i iid c hi h
  have hmem : c ∈ s.searchOrderCards := by
    apply get_location_mem_search (i := i)
    exact (remove_card_some_perm _ iid c h).mem_iff.mpr (List.mem_cons_self _ _)
  have hnodup : (c.instance_id ::
      (s.with_location i ((s.get_location i).remove_card iid).1).idsList).Nodup :=
    hperm.nodup hN
  refine ⟨⟨⟨?_, ?_, ?_, ?_, ?_⟩, player0_with_location s i _, player1_with_location s i _,
    le_of_eq (next_with_location s i _).symm, ?_⟩, hperm, hmem⟩
  · exact capOK_with_location hcap (remove_card_capOK iid (capOK_get_location hcap i)) i
  · exact locIndexOK_with_location hL hi (remove_card_index _ iid)
  · exact ownersOK_with_location hOwn
      (remove_card_ownersOK iid (get_location_ownersOK hOwn i)) i
  · exact hnodup.of_cons
  · intro x hx
    rw [next_with_location s i _]
    exact hF x (hperm.mem_iff.mpr (List.mem_cons_of_mem _ hx))
  · intro iid' p hlt hOA cp hcp hcpid
    apply hOA cp ?_ hcpid
    refine mem_search_with_location ?_ ?_ cp hcp
    · exact fun d hd => (remove_card_cards0_sublist _ iid).subset hd
    · exact fun d hd => (remove_card_cards1_sublist _ iid).subset hd


theorem idsList_add_perm (s : GameState) {d : Nat} (c : CardInstance) (p : PlayerId)
    (hd : d < 3) :
    (s.with_location d ((s.get_location d).add_card c p)).idsList.Perm
      (c.instance_id :: s.idsList) := by
  have hm : (((s.get_location d).add_card c p).all_cards.map CardInstance.instance_id).Perm
      (c.instance_id :: (s.get_location d).all_cards.map CardInstance.instance_id) := by
    have := List.Perm.map CardInstance.instance_id (add_card_all_perm (s.get_location d) c p)
    simpa using this
  rcases d with _ | _ | _ | d
  · simp only [GameState.idsList, GameState.searchOrderCards, GameState.with_location,
      List.map_append]
    exact perm_extract3 (by simpa using hm)
  · simp only [GameState.idsList, GameState.searchOrderCards, GameState.with_location,
      List.map_append]
    exact perm_extract2 (by simpa using hm)
  · simp only [GameState.idsList, GameState.searchOrderCards, GameState.with_location,
      List.map_append]
    exact perm_extract1 (by simpa using hm)
  · omega

theorem add_card_ownersOK {l : LocationState} {c : CardInstance} {p : PlayerId}
    (h : l.ownersOK) (hc : c.owner = p) : (l.add_card c p).ownersOK := by
  cases p with
  | P0 =>
    refine ⟨?_, h.2⟩
    intro d hd
    rcases List.mem_append.mp hd with hm | hm
    · exact h.1 d hm
    · rw [List.mem_singleton.mp hm]
      exact hc
  | P1 =>
    refine ⟨h.1, ?_⟩
    intro d hd
    rcases List.mem_append.mp hd with hm | hm
    · exact h.2 d hm
    · rw [List.mem_singleton.mp hm]
      exact hc

theorem mem_all_add {l : LocationState} {c cp : CardInstance} {p : PlayerId}
    (h : cp ∈ (l.add_card c p).all_cards) : cp = c ∨ cp ∈ l.all_cards := by
  have := (add_card_all_perm l c p).mem_iff.mp h
  simpa using this

theorem stepsTo_move_relocate (s : GameState) (fromIdx d iid : Nat) (removed : CardInstance)
    (hWF : s.WF) (hfi : fromIdx < 3) (hd : d < 3) (hfd : fromIdx ≠ d)
    (hrem : ((s.get_location fromIdx).remove_card iid).2 = some removed)
    (hcapg : (s.get_location d).card_count removed.owner < LOCATION_CAPACITY) :
    StepsTo s
      (((s.with_location fromIdx ((s.get_location fromIdx).remove_card iid).1).with_location d
          (((s.with_location fromIdx
              ((s.get_location fromIdx).remove_card iid).1).get_location d).add_card removed
            removed.owner)).with_card_moved iid) := by
  obtain ⟨hstep1, hperm1, hmem1⟩ := remove_loc_facts s fromIdx iid removed hWF hfi hrem
  set s1 := s.with_location fromIdx ((s.get_location fromIdx).remove_card iid).1 with hs1
  obtain ⟨hWF1, hp0, hp1, hnx, hOAt⟩ := hstep1
  obtain ⟨hcap1, hL1, hOwn1, hN1, hF1⟩ := hWF1
  have hgd : s1.get_location d = s.get_location d :=
    with_location_get_other s fromIdx d _ hfd hd
  have hxnot : removed.instance_id ∉ s1.idsList := by
    have := hperm1.nodup hWF.2.2.2.1
    exact (List.nodup_cons.mp this).1
  have hperm2 := idsList_add_perm s1 removed removed.owner hd
  have hfreshx : removed.instance_id < s.next_instance_id :=
    mem_search_fresh hWF.2.2.2.2 hmem1
  have hnext1 : s1.next_instance_id = s.next_instance_id := next_with_location s fromIdx _
  have hcap2 : ((s1.get_location d).add_card removed removed.owner).capOK := by
    rw [hgd]
    exact add_card_capOK removed removed.owner (capOK_get_location hWF.1 d) hcapg
  have hown2 : ((s1.get_location d).add_card removed removed.owner).ownersOK := by
    rw [hgd]
    exact add_card_ownersOK (get_location_ownersOK hWF.2.2.1 d) rfl
  refine ⟨⟨?_, ?_, ?_, ?_, ?_⟩, ?_, ?_, ?_, ?_⟩
  · exact capOK_with_location hcap1 hcap2 d
  · exact locIndexOK_with_location hL1 hd (add_card_index _ removed removed.owner)
  · exact ownersOK_with_location hOwn1 hown2 d
  · show ((s1.with_location d ((s1.get_location d).add_card removed
      removed.owner)).idsList).Nodup
    exact hperm2.symm.nodup (List.nodup_cons.mpr ⟨hxnot, hN1⟩)
  · intro x hx
    show x < (s1.with_location d _).next_instance_id
    rw [next_with_location, hnext1]
    rcases List.mem_cons.mp (hperm2.mem_iff.mp hx) with hx' | hx'
    · rw [hx']
      exact hfreshx
    · rw [← hnext1]
      exact hF1 x hx'
  · show (s1.with_location d _).player0 = s.player0
    rw [player0_with_location]
    exact hp0
  · show (s1.with_location d _).player1 = s.player1
    rw [player1_with_location]
    exact hp1
  · show s.next_instance_id ≤ (s1.with_location d _).next_instance_id
    rw [next_with_location, hnext1]
  · intro iid' p hlt hOA cp hcp hcpid
    have hcp' : cp ∈ (s1.with_location d ((s1.get_location d).add_card removed
        removed.owner)).searchOrderCards := hcp
    rcases mem_search_with_location_any hcp' with hm | hm
    · refine hOA cp ?_ hcpid
      refine mem_search_with_location ?_ ?_ cp hm
      · exact fun e he => (remove_card_cards0_sublist _ iid).subset he
      · exact fun e he => (remove_card_cards1_sublist _ iid).subset he
    · rcases mem_all_add hm with hm' | hm'
      · rw [hm']
        exact hOA removed hmem1 (by rw [← hm']; exact hcpid)
      · rw [hgd] at hm'
        exact hOA cp (get_location_mem_search hm') hcpid


theorem mem_get_cards_mem_all {l : LocationState} {p : PlayerId} {c : CardInstance}
    (h : c ∈ l.get_cards p) : c ∈ l.all_cards := by
  cases p
  · exact mem_cards_mem_all (Or.inl h)
  · exact mem_cards_mem_all (Or.inr h)

theorem leftmostScan_mem {p : PlayerId} {c : CardInstance} :
    ∀ {ls : List LocationState}, c ∈ leftmostScan p ls → ∃ l ∈ ls, c ∈ l.get_cards p := by
  intro ls
  induction ls with
  | nil => intro h; simp [leftmostScan] at h
  | cons l rest ih =>
    intro h
    simp only [leftmostScan] at h
    cases hg : l.get_cards p with
    | nil =>
      simp only [hg] at h
      obtain ⟨l', hl', hc⟩ := ih h
      exact ⟨l', List.mem_cons_of_mem _ hl', hc⟩
    | cons a as =>
      simp only [hg, List.mem_singleton] at h
      subst h
      exact ⟨l, List.mem_cons_self _ _, by rw [hg]; exact List.mem_cons_self _ _⟩

theorem rightmostScan_mem {p : PlayerId} {c : CardInstance} :
    ∀ {ls : List LocationState}, c ∈ rightmostScan p ls → ∃ l ∈ ls, c ∈ l.get_cards p := by
  intro ls
  induction ls with
  | nil => intro h; simp [rightmostScan] at h
  | cons l rest ih =>
    intro h
    simp only [rightmostScan] at h
    cases hg : (l.get_cards p).getLast? with
    | none =>
      simp only [hg] at h
      obtain ⟨l', hl', hc⟩ := ih h
      exact ⟨l', List.mem_cons_of_mem _ hl', hc⟩
    | some a =>
      simp only [hg, List.mem_singleton] at h
      subst h
      have hmo : c ∈ (l.get_cards p).getLast? := by rw [hg]; rfl
      obtain ⟨hne, heq⟩ := List.mem_getLast?_eq_getLast hmo
      exact ⟨l, List.mem_cons_self _ _, heq ▸ List.getLast_mem hne⟩

theorem loc_get_mem_search {s : GameState} {c : CardInstance} {p : PlayerId}
    (h : c ∈ s.loc0.get_cards p ∨ c ∈ s.loc1.get_cards p ∨ c ∈ s.loc2.get_cards p) :
    c ∈ s.searchOrderCards := by
  rcases h with h | h | h
  · exact @get_location_mem_search s 0 c (mem_get_cards_mem_all h)
  · exact @get_location_mem_search s 1 c (mem_get_cards_mem_all h)
  · exact @get_location_mem_search s 2 c (mem_get_cards_mem_all h)

theorem loc_all_mem_search {s : GameState} {c : CardInstance}
    (h : c ∈ s.loc0.all_cards ∨ c ∈ s.loc1.all_cards ∨ c ∈ s.loc2.all_cards) :
    c ∈ s.searchOrderCards := by
  rcases h with h | h | h
  · exact @get_location_mem_search s 0 c h
  · exact @get_location_mem_search s 1 c h
  · exact @get_location_mem_search s 2 c h

theorem resolve_targets_mem {s : GameState} {src : CardInstance} {p : PlayerId}
    {tf : TargetFilter} {cb : CardInstance}
    (h : cb ∈ _resolve_targets s src p tf) : cb ∈ s.searchOrderCards ∨ cb = src := by
  cases tf with
  | SELF =>
    simp only [_resolve_targets, List.mem_singleton] at h
    exact Or.inr h
  | SAME_LOCATION_FRIENDLY =>
    simp only [_resolve_targets] at h
    cases hsl : s.find_card_location src.instance_id with
    | none => simp only [hsl] at h; exact absurd h (List.not_mem_nil cb)
    | some li =>
      simp only [hsl, List.mem_filter] at h
      exact Or.inl (@get_location_mem_search s li cb (mem_get_cards_mem_all h.1))
  | SAME_LOCATION_ENEMY =>
    simp only [_resolve_targets] at h
    cases hsl : s.find_card_location src.instance_id with
    | none => simp only [hsl] at h; exact absurd h (List.not_mem_nil cb)
    | some li =>
      simp only [hsl] at h
      exact Or.inl (@get_location_mem_search s li cb (mem_get_cards_mem_all h))
  | SAME_LOCATION_ALL =>
    simp only [_resolve_targets] at h
    cases hsl : s.find_card_location src.instance_id with
    | none => simp only [hsl] at h; exact absurd h (List.not_mem_nil cb)
    | some li =>
      simp only [hsl, List.mem_filter] at h
      exact Or.inl (@get_location_mem_search s li cb h.1)
  | ALL_FRIENDLY =>
    simp only [_resolve_targets, List.mem_append, List.mem_filter] at h
    rcases h with (h | h) | h <;> exact Or.inl (loc_get_mem_search (by tauto))
  | ALL_ENEMY =>
    simp only [_resolve_targets, List.mem_append] at h
    rcases h with (h | h) | h <;> exact Or.inl (loc_get_mem_search (by tauto))
  | ALL_CARDS =>
    simp only [_resolve_targets, List.mem_append, List.mem_filter] at h
    rcases h with (h | h) | h <;> exact Or.inl (loc_all_mem_search (by tauto))
  | OTHER_LOCATIONS_FRIENDLY =>
    simp only [_resolve_targets] at h
    cases hsl : s.find_card_location src.instance_id with
    | none =>
      simp only [hsl, List.mem_append] at h
      rcases h with (h | h) | h <;> exact Or.inl (loc_get_mem_search (by tauto))
    | some li =>
      simp only [hsl, List.mem_append] at h
      rcases h with (h | h) | h <;> split_ifs at h <;>
        first
        | exact absurd h (List.not_mem_nil cb)
        | exact Or.inl (loc_get_mem_search (by tauto))
  | LEFTMOST_FRIENDLY =>
    simp only [_resolve_targets] at h
    obtain ⟨l, hl, hc⟩ := leftmostScan_mem h
    have hl3 : l = s.loc0 ∨ l = s.loc1 ∨ l = s.loc2 := by simpa using hl
    rcases hl3 with rfl | rfl | rfl
    · exact Or.inl (loc_get_mem_search (Or.inl hc))
    · exact Or.inl (loc_get_mem_search (Or.inr (Or.inl hc)))
    · exact Or.inl (loc_get_mem_search (Or.inr (Or.inr hc)))
  | RIGHTMOST_FRIENDLY =>
    simp only [_resolve_targets] at h
    obtain ⟨l, hl, hc⟩ := rightmostScan_mem h
    have hl3 : l = s.loc2 ∨ l = s.loc1 ∨ l = s.loc0 := by simpa using hl
    rcases hl3 with rfl | rfl | rfl
    · exact Or.inl (loc_get_mem_search (Or.inr (Or.inr hc)))
    · exact Or.inl (loc_get_mem_search (Or.inr (Or.inl hc)))
    · exact Or.inl (loc_get_mem_search (Or.inl hc))
  | ONE_SAME_LOCATION_FRIENDLY =>
    simp only [_resolve_targets] at h
    cases hsl : s.find_card_location src.instance_id with
    | none => simp only [hsl] at h; exact absurd h (List.not_mem_nil cb)
    | some li =>
      simp only [hsl] at h
      cases hf : ((s.get_location li).get_cards p).find?
          (fun c => c.instance_id ≠ src.instance_id) with
      | none => simp only [hf] at h; exact absurd h (List.not_mem_nil cb)
      | some c =>
        simp only [hf, List.mem_singleton] at h
        subst h
        exact Or.inl (@get_location_mem_search s li cb
          (mem_get_cards_mem_all (List.mem_of_find?_eq_some hf)))
  | ONE_SAME_LOCATION_ENEMY =>
    simp only [_resolve_targets] at h
    cases hsl : s.find_card_location src.instance_id with
    | none => simp only [hsl] at h; exact absurd h (List.not_mem_nil cb)
    | some li =>
      simp only [hsl] at h
      cases hg : (s.get_location li).get_cards p.other with
      | nil => simp only [hg] at h; exact absurd h (List.not_mem_nil cb)
      | cons a as =>
        simp only [hg, List.mem_singleton] at h
        subst h
        exact Or.inl (@get_location_mem_search s li cb
          (mem_get_cards_mem_all (by rw [hg]; exact List.mem_cons_self _ _)))
  | FRIENDLY_WITH_DESTROY_TAG =>
    simp only [_resolve_targets, List.mem_append, List.mem_filter] at h
    rcases h with (h | h) | h <;> exact Or.inl (loc_get_mem_search (by tauto))

theorem ownerAt_of_mem_search {s : GameState} (hN : s.idsList.Nodup) {c : CardInstance}
    (hc : c ∈ s.searchOrderCards) : OwnerAt s c.instance_id c.owner := by
  intro d hd hid
  rw [search_unique hN hd hc hid]

theorem foldl_stepsTo {β : Type} (s0 : GameState)
    (f : GameState × List GameEvent → β → GameState × List GameEvent) (l : List β)
    (hf : ∀ acc b, b ∈ l → StepsTo s0 acc.1 → StepsTo acc.1 (f acc b).1) :
    ∀ acc, StepsTo s0 acc.1 → StepsTo s0 (l.foldl f acc).1 := by
  induction l with
  | nil => intro acc h; simpa using h
  | cons b rest ih =>
    intro acc h
    simp only [List.foldl_cons]
    exact ih (fun a x hx ha => hf a x (List.mem_cons_of_mem b hx) ha) (f acc b)
      (StepsTo_trans h (hf acc b (List.mem_cons_self _ _) h))

theorem foldl_stepsTo_state {β : Type} (s0 : GameState) (f : GameState → β → GameState)
    (l : List β)
    (hf : ∀ acc b, b ∈ l → StepsTo s0 acc → StepsTo acc (f acc b)) :
    ∀ acc, StepsTo s0 acc → StepsTo s0 (l.foldl f acc) := by
  induction l with
  | nil => intro acc h; simpa using h
  | cons b rest ih =>
    intro acc h
    simp only [List.foldl_cons]
    exact ih (fun a x hx ha => hf a x (List.mem_cons_of_mem b hx) ha) (f acc b)
      (StepsTo_trans h (hf acc b (List.mem_cons_self _ _) h))

theorem stepsTo_add_fresh (s : GameState) {d : Nat} (c : CardInstance) (p : PlayerId)
    (n : Nat) (hWF : s.WF) (hd : d < 3) (hop : c.owner = p)
    (hcap : (s.get_location d).card_count p < LOCATION_CAPACITY)
    (hfresh : s.next_instance_id ≤ c.instance_id) (hn : c.instance_id < n) :
    StepsTo s ((s.with_location d ((s.get_location d).add_card c p)).with_next_instance_id n) := by
  have hperm := idsList_add_perm s c p hd
  have hnot : c.instance_id ∉ s.idsList := fun hmem =>
    absurd (hWF.2.2.2.2 _ hmem) (by omega)
  refine ⟨⟨?_, ?_, ?_, ?_, ?_⟩, ?_, ?_, ?_, ?_⟩
  · show (s.with_location d ((s.get_location d).add_card c p)).capOK
    exact capOK_with_location hWF.1 (add_card_capOK c p (capOK_get_location hWF.1 d) hcap) d
  · show (s.with_location d ((s.get_location d).add_card c p)).locIndexOK
    exact locIndexOK_with_location hWF.2.1 hd (add_card_index _ c p)
  · show (s.with_location d ((s.get_location d).add_card c p)).ownersOK
    exact ownersOK_with_location hWF.2.2.1
      (add_card_ownersOK (get_location_ownersOK hWF.2.2.1 d) hop) d
  · show (s.with_location d ((s.get_location d).add_card c p)).idsList.Nodup
    exact hperm.symm.nodup (List.nodup_cons.mpr ⟨hnot, hWF.2.2.2.1⟩)
  · intro x hx
    show x < n
    have hx' : x ∈ (s.with_location d ((s.get_location d).add_card c p)).idsList := hx
    rcases List.mem_cons.mp (hperm.mem_iff.mp hx') with rfl | hx2
    · exact hn
    · have := hWF.2.2.2.2 x hx2
      omega
  · show (s.with_location d ((s.get_location d).add_card c p)).player0 = s.player0
    exact player0_with_location s d _
  · show (s.with_location d ((s.get_location d).add_card c p)).player1 = s.player1
    exact player1_with_location s d _
  · show s.next_instance_id ≤ n
    omega
  · intro iid q hlt hOA cp hcp hcpid
    have hcp' : cp ∈ (s.with_location d ((s.get_location d).add_card c p)).searchOrderCards := hcp
    rcases mem_search_with_location_any hcp' with hm | hm
    · exact hOA cp hm hcpid
    · rcases mem_all_add hm with rfl | hm'
      · exfalso; omega
      · exact hOA cp (get_location_mem_search hm') hcpid


theorem stepsTo_buffPermanentAt (s : GameState) (iid : Nat) (amount : Int)
    (srcid : Option Nat) (hWF : s.WF) : StepsTo s (buffPermanentAt s iid amount srcid).1 := by
  simp only [buffPermanentAt]
  cases hloc : s.find_card_location iid with
  | none => simp only [hloc]; exact StepsTo_refl hWF
  | some li =>
    simp only [hloc]
    cases hfind : s.find_card_by_instance iid with
    | none => simp only [hfind]; exact StepsTo_refl hWF
    | some cur =>
      simp only [hfind]
      apply stepsTo_update_loc s li _ hWF
      intro c hc hcid
      obtain ⟨hmem, hid⟩ := find_card_by_instance_mem hfind
      have hcc : c = cur := search_unique hWF.2.2.2.1 hc hmem hcid
      rw [hcc]
      rfl

theorem stepsTo_buffLoopStep (sid : Nat) (amount : Int) (acc : GameState × List GameEvent)
    (t : CardInstance) (hWF : acc.1.WF) : StepsTo acc.1 (buffLoopStep sid amount acc t).1 := by
  simp only [buffLoopStep]
  have hb := stepsTo_buffPermanentAt acc.1 t.instance_id amount (some sid) hWF
  cases hr : (buffPermanentAt acc.1 t.instance_id amount (some sid)).2 with
  | none => simp only [hr]; exact hb
  | some ev => simp only [hr]; exact hb

theorem stepsTo_addPower_apply (t : TargetFilter) (amount : Int) (s : GameState)
    (src : CardInstance) (p : PlayerId) (hWF : s.WF) :
    StepsTo s (addPower_apply t amount s src p).1 := by
  simp only [addPower_apply]
  exact foldl_stepsTo s _ _ (fun acc b _ ha => stepsTo_buffLoopStep _ _ acc b ha.1) (s, [])
    (StepsTo_refl hWF)

theorem stepsTo_conditionalPower_apply (t : TargetFilter) (amount : Int) (cond : String)
    (s : GameState) (src : CardInstance) (p : PlayerId) (hWF : s.WF) :
    StepsTo s (conditionalPower_apply t amount cond s src p).1 := by
  simp only [conditionalPower_apply]
  split_ifs
  · exact StepsTo_refl hWF
  · exact foldl_stepsTo s _ _ (fun acc b _ ha => stepsTo_buffLoopStep _ _ acc b ha.1) (s, [])
      (StepsTo_refl hWF)

theorem stepsTo_scalingPower_apply (t : TargetFilter) (per : Int) (s : GameState)
    (src : CardInstance) (p : PlayerId) (hWF : s.WF) :
    StepsTo s (scalingPower_apply t per s src p).1 := by
  simp only [scalingPower_apply]
  split_ifs
  · exact StepsTo_refl hWF
  · exact foldl_stepsTo s _ _ (fun acc b _ ha => stepsTo_buffLoopStep _ _ acc b ha.1) (s, [])
      (StepsTo_refl hWF)

theorem stepsTo_silenceOngoing_apply (t : TargetFilter) (s : GameState)
    (src : CardInstance) (p : PlayerId) (hWF : s.WF) :
    StepsTo s (silenceOngoing_apply t s src p).1 := by
  simp only [silenceOngoing_apply]
  exact foldl_stepsTo_state s _ _
    (fun acc b _ ha => stepsTo_with_silenced_card ha.1 b.instance_id) s (StepsTo_refl hWF)

theorem stepsTo_stealPower_apply (t : TargetFilter) (amount : Int) (s : GameState)
    (src : CardInstance) (p : PlayerId) (hWF : s.WF) :
    StepsTo s (stealPower_apply t amount s src p).1 := by
  simp only [stealPower_apply]
  cases h1 : _resolve_targets s src p t with
  | nil => exact StepsTo_refl hWF
  | cons tc rest =>
    have hb1 := stepsTo_buffPermanentAt s tc.instance_id (-amount) (some src.instance_id) hWF
    cases h2 : (buffPermanentAt s tc.instance_id (-amount) (some src.instance_id)).2 with
    | none => simp only [h2]; exact hb1
    | some ev =>
      simp only [h2]
      have hb2 := stepsTo_buffPermanentAt
        (buffPermanentAt s tc.instance_id (-amount) (some src.instance_id)).1
        src.instance_id amount (some src.instance_id) hb1.1
      cases h3 : (buffPermanentAt
          (buffPermanentAt s tc.instance_id (-amount) (some src.instance_id)).1
          src.instance_id amount (some src.instance_id)).2 with
      | none => simp only [h3]; exact StepsTo_trans hb1 hb2
      | some ev2 => simp only [h3]; exact StepsTo_trans hb1 hb2

theorem stepsTo_destroyLoopStep (sid : Nat) (acc : GameState × List GameEvent)
    (t : CardInstance) (hWF : acc.1.WF) : StepsTo acc.1 (destroyLoopStep sid acc t).1 := by
  simp only [destroyLoopStep]
  cases hloc : acc.1.find_card_location t.instance_id with
  | none => simp only [hloc]; exact StepsTo_refl hWF
  | some li =>
    simp only [hloc]
    have hli := (find_card_location_lt3 hWF.2.1 hloc).1
    cases hrem : ((acc.1.get_location li).remove_card t.instance_id).2 with
    | none => simp only [hrem]; exact StepsTo_refl hWF
    | some c =>
      simp only [hrem]
      have hstep := (remove_loc_facts acc.1 li t.instance_id c hWF hli hrem).1
      exact StepsTo_trans hstep (stepsTo_with_card_destroyed hstep.1 t.instance_id)

theorem stepsTo_destroyCard_apply (t : TargetFilter) (s : GameState) (src : CardInstance)
    (p : PlayerId) (hWF : s.WF) : StepsTo s (destroyCard_apply t s src p).1 := by
  simp only [destroyCard_apply]
  exact foldl_stepsTo s _ _ (fun acc b _ ha => stepsTo_destroyLoopStep _ acc b ha.1) (s, [])
    (StepsTo_refl hWF)

theorem stepsTo_destroyAndBuffLoop (sid : Nat) (amount : Int) :
    ∀ (bl : List CardInstance) (st : GameState) (evs : List GameEvent), st.WF →
      StepsTo st (destroyAndBuffLoop sid amount st evs bl).1 := by
  intro bl
  induction bl with
  | nil => intro st evs hWF; exact StepsTo_refl hWF
  | cons b rest ih =>
    intro st evs hWF
    simp only [destroyAndBuffLoop]
    have hb := stepsTo_buffPermanentAt st b.instance_id amount (some sid) hWF
    cases hr : (buffPermanentAt st b.instance_id amount (some sid)).2 with
    | none => simp only [hr]; exact StepsTo_trans hb (ih _ evs hb.1)
    | some ev => simp only [hr]; exact hb

theorem stepsTo_destroyAndBuff_apply (dt bt : TargetFilter) (amount : Int) (s : GameState)
    (src : CardInstance) (p : PlayerId) (hWF : s.WF) :
    StepsTo s (destroyAndBuff_apply dt bt amount s src p).1 := by
  simp only [destroyAndBuff_apply]
  cases h1 : _resolve_targets s src p dt with
  | nil => exact StepsTo_refl hWF
  | cons tgt rest =>
    simp only [h1]
    cases h2 : s.find_card_location tgt.instance_id with
    | none => simp only [h2]; exact StepsTo_refl hWF
    | some tl =>
      simp only [h2]
      have htl := (find_card_location_lt3 hWF.2.1 h2).1
      cases h3 : ((s.get_location tl).remove_card tgt.instance_id).2 with
      | none => simp only [h3]; exact StepsTo_refl hWF
      | some rc =>
        simp only [h3]
        have hstep1 := (remove_loc_facts s tl tgt.instance_id rc hWF htl h3).1
        have hstep2 : StepsTo s
            ((s.with_location tl
              ((s.get_location tl).remove_card tgt.instance_id).1).with_card_destroyed
              tgt.instance_id) :=
          StepsTo_trans hstep1 (stepsTo_with_card_destroyed hstep1.1 tgt.instance_id)
        exact StepsTo_trans hstep2 (stepsTo_destroyAndBuffLoop src.instance_id amount _ _ _
          hstep2.1)

theorem stepsTo_destroyAndGainPower_apply (dt : TargetFilter) (s : GameState)
    (src : CardInstance) (p : PlayerId) (hWF : s.WF) :
    StepsTo s (destroyAndGainPower_apply dt s src p).1 := by
  simp only [destroyAndGainPower_apply]
  cases h0 : s.find_card_location src.instance_id with
  | none => simp only [h0]; exact StepsTo_refl hWF
  | some sl0 =>
    simp only [h0]
    cases h1 : _resolve_targets s src p dt with
    | nil => exact StepsTo_refl hWF
    | cons tgt rest =>
      simp only [h1]
      cases h2 : s.find_card_location tgt.instance_id with
      | none => simp only [h2]; exact StepsTo_refl hWF
      | some tl =>
        simp only [h2]
        have htl := (find_card_location_lt3 hWF.2.1 h2).1
        cases h3 : ((s.get_location tl).remove_card tgt.instance_id).2 with
        | none => simp only [h3]; exact StepsTo_refl hWF
        | some rc =>
          simp only [h3]
          have hstep1 := (remove_loc_facts s tl tgt.instance_id rc hWF htl h3).1
          have hstep2 : StepsTo s
              ((s.with_location tl
                ((s.get_location tl).remove_card tgt.instance_id).1).with_card_destroyed
                tgt.instance_id) :=
            StepsTo_trans hstep1 (stepsTo_with_card_destroyed hstep1.1 tgt.instance_id)
          obtain ⟨s2, hs2⟩ : ∃ u, (s.with_location tl
              ((s.get_location tl).remove_card tgt.instance_id).1).with_card_destroyed
              tgt.instance_id = u := ⟨_, rfl⟩
          rw [hs2] at hstep2 ⊢
          cases h4 : s2.find_card_by_instance src.instance_id with
          | none => simp only [h4]; exact hstep2
          | some cur =>
            simp only [h4]
            cases h5 : s2.find_card_location src.instance_id with
            | none => simp only [h5]; exact hstep2
            | some sl =>
              simp only [h5]
              refine StepsTo_trans hstep2 (stepsTo_update_loc s2 sl _ hstep2.1 ?_)
              intro c hc hcid
              obtain ⟨hmem, hid⟩ := find_card_by_instance_mem h4
              have hcc : c = cur := search_unique hstep2.1.2.2.2.1 hc hmem hcid
              rw [hcc]
              rfl

theorem stepsTo_moveLoopStep (tol : Bool) (dst : Option Nat) (sid : Nat)
    (acc : GameState × List GameEvent) (b : CardInstance) (hWF : acc.1.WF)
    (hOA : OwnerAt acc.1 b.instance_id b.owner) :
    StepsTo acc.1 (moveLoopStep tol dst sid acc b).1 := by
  simp only [moveLoopStep]
  cases hloc : acc.1.find_card_location b.instance_id with
  | none => simp only [hloc]; exact StepsTo_refl hWF
  | some fi =>
    simp only [hloc]
    have hfi := (find_card_location_lt3 hWF.2.1 hloc).1
    have hbody : ∀ d : Nat,
        StepsTo acc.1
          ((if fi = d then acc
            else if LOCATION_CAPACITY ≤ (acc.1.get_location d).card_count b.owner then acc
            else
              match ((acc.1.get_location fi).remove_card b.instance_id).2 with
              | none => acc
              | some removed_card =>
                ((((acc.1.with_location fi
                    ((acc.1.get_location fi).remove_card b.instance_id).1).with_location d
                    (((acc.1.with_location fi
                      ((acc.1.get_location fi).remove_card b.instance_id).1).get_location
                      d).add_card removed_card removed_card.owner)).with_card_moved
                  b.instance_id),
                 acc.2 ++ [.cardMoved b.instance_id fi d (some sid)])).1) := by
      intro d
      split_ifs with h1 h2
      · exact StepsTo_refl hWF
      · exact StepsTo_refl hWF
      · cases hrem : ((acc.1.get_location fi).remove_card b.instance_id).2 with
        | none => simp only [hrem]; exact StepsTo_refl hWF
        | some removed =>
          simp only [hrem]
          by_cases hd3 : d < 3
          · have hro : removed.owner = b.owner :=
              hOA removed (remove_loc_facts acc.1 fi b.instance_id removed hWF hfi hrem).2.2
                (remove_card_some_id _ _ _ hrem)
            have hcap : (acc.1.get_location d).card_count removed.owner < LOCATION_CAPACITY := by
              rw [hro]
              omega
            exact stepsTo_move_relocate acc.1 fi d b.instance_id removed hWF hfi hd3 h1 hrem
              hcap
          · rw [with_location_ge3 _ d _ (by omega)]
            have hstep := (remove_loc_facts acc.1 fi b.instance_id removed hWF hfi hrem).1
            exact StepsTo_trans hstep (stepsTo_with_card_moved hstep.1 b.instance_id)
    split_ifs
    · exact hbody 0
    · exact hbody 1
    · exact hbody 2
    · cases dst with
      | none => exact StepsTo_refl hWF
      | some d => exact hbody d
    · cases dst with
      | none => exact StepsTo_refl hWF
      | some d => exact hbody d

theorem stepsTo_moveCard_apply (t : TargetFilter) (tol : Bool) (dst : Option Nat)
    (s : GameState) (src : CardInstance) (p : PlayerId) (hWF : s.WF)
    (hsrcOA : OwnerAt s src.instance_id src.owner)
    (hsrclt : src.instance_id < s.next_instance_id) :
    StepsTo s (moveCard_apply t tol dst s src p).1 := by
  simp only [moveCard_apply]
  refine foldl_stepsTo s _ _ ?_ (s, []) (StepsTo_refl hWF)
  intro acc b hb ha
  have hOAb : OwnerAt s b.instance_id b.owner ∧ b.instance_id < s.next_instance_id := by
    rcases resolve_targets_mem hb with hm | rfl
    · exact ⟨ownerAt_of_mem_search hWF.2.2.2.1 hm, mem_search_fresh hWF.2.2.2.2 hm⟩
    · exact ⟨hsrcOA, hsrclt⟩
  exact stepsTo_moveLoopStep tol dst src.instance_id acc b ha.1
    (ha.2.2.2.2 b.instance_id b.owner hOAb.2 hOAb.1)

theorem stepsTo_revive_apply (bsp : Int) (s : GameState) (src : CardInstance) (p : PlayerId)
    (hWF : s.WF) : StepsTo s (revive_apply bsp s src p).1 := by
  simp only [revive_apply]
  cases hloc : s.find_card_location src.instance_id with
  | none => simp only [hloc]; exact StepsTo_refl hWF
  | some li =>
    simp only [hloc]
    have hli := (find_card_location_lt3 hWF.2.1 hloc).1
    split_ifs with h1 h2
    · exact StepsTo_refl hWF
    · exact StepsTo_refl hWF
    · rw [show get_card_def "shade" = some spiritTemplateDef from rfl]
      refine stepsTo_add_fresh s _ p (s.next_instance_id + 1) hWF hli rfl ?_ ?_ ?_
      · omega
      · show s.next_instance_id ≤ s.next_instance_id
        exact le_refl _
      · show s.next_instance_id < s.next_instance_id + 1
        omega


theorem get_with_location_self (s : GameState) {i : Nat} (hi : i < 3) (lp : LocationState) :
    (s.with_location i lp).get_location i = lp := by
  rcases i with _ | _ | _ | i
  · rfl
  · rfl
  · rfl
  · omega

theorem next_with_player (s : GameState) (p : PlayerId) (x : PlayerState) :
    (s.with_player p x).next_instance_id = s.next_instance_id := by
  cases p <;> rfl

theorem locIndexOK_with_player {s : GameState} (p : PlayerId) (x : PlayerState)
    (h : s.locIndexOK) : (s.with_player p x).locIndexOK := by
  cases p <;> exact h

theorem hand_mem_search {s : GameState} {p : PlayerId} {c : CardInstance}
    (h : c ∈ (s.get_player p).hand) : c ∈ s.searchOrderCards := by
  cases p <;> simp only [GameState.searchOrderCards, List.mem_append] <;> tauto

theorem perm_cons_append_right {α : Type} {x : α} {A A' B : List α} (h : A.Perm (x :: A')) :
    (A ++ B).Perm (x :: (A' ++ B)) :=
  List.Perm.append_right B h

theorem perm_extract_gen {α : Type} {x : α} {R M M' : List α} (h : M.Perm (x :: M')) :
    (R ++ M).Perm (x :: (R ++ M')) :=
  List.Perm.trans (List.Perm.append_left R h) List.perm_middle

theorem search_add_perm (s : GameState) {d : Nat} (c : CardInstance) (p : PlayerId)
    (hd : d < 3) :
    (s.with_location d ((s.get_location d).add_card c p)).searchOrderCards.Perm
      (c :: s.searchOrderCards) := by
  rcases d with _ | _ | _ | d
  · exact perm_cons_append_right (perm_cons_append_right
      (perm_extract_gen (add_card_all_perm s.loc0 c p)))
  · exact perm_cons_append_right (perm_extract_gen (add_card_all_perm s.loc1 c p))
  · exact perm_extract_gen (add_card_all_perm s.loc2 c p)
  · omega

theorem removeFirstCard_eq_find (iid : Nat) (l : List CardInstance) :
    (removeFirstCard iid l).2 = findCardInList iid l := by
  induction l with
  | nil => rfl
  | cons c cs ih =>
    simp only [removeFirstCard, findCardInList]
    split_ifs with hc
    · rfl
    · exact ih

theorem sortPlayed_mem {l : List (CardInstance × Nat × PlayerId)}
    {x : CardInstance × Nat × PlayerId} (h : x ∈ sortPlayed l) : x ∈ l := by
  match l with
  | [a, b] =>
    simp only [sortPlayed] at h
    split_ifs at h <;> simp at h ⊢ <;> tauto
  | [] => exact h
  | [a] => exact h
  | a :: b :: c :: rest => exact h


theorem ownersOK_with_player_np {s : GameState} {pid : PlayerId} {np : PlayerState}
    (hOwn : s.ownersOK) (hh : cardsOwnedOK np.hand pid)
    (hd : cardsOwnedOK np.deck pid) : (s.with_player pid np).ownersOK := by
  obtain ⟨a, b, c, d, e, f, g⟩ := hOwn
  cases pid
  · exact ⟨hh, hd, c, d, e, f, g⟩
  · exact ⟨a, b, hh, hd, e, f, g⟩

theorem search_with_player_hand {s : GameState} {pid : PlayerId} {np : PlayerState}
    {card : CardInstance}
    (hhand : (s.get_player pid).hand.Perm (card :: np.hand))
    (hdk : np.deck = (s.get_player pid).deck) :
    s.searchOrderCards.Perm (card :: (s.with_player pid np).searchOrderCards) := by
  cases pid
  · show ((((((s.player0.hand ++ s.player0.deck) ++ s.player1.hand) ++ s.player1.deck) ++
        s.loc0.all_cards) ++ s.loc1.all_cards) ++ s.loc2.all_cards).Perm
      (card :: ((((((np.hand ++ np.deck) ++ s.player1.hand) ++ s.player1.deck) ++
        s.loc0.all_cards) ++ s.loc1.all_cards) ++ s.loc2.all_cards))
    rw [hdk]
    exact perm_cons_append_right (perm_cons_append_right (perm_cons_append_right
      (perm_cons_append_right (perm_cons_append_right (perm_cons_append_right hhand)))))
  · show ((((((s.player0.hand ++ s.player0.deck) ++ s.player1.hand) ++ s.player1.deck) ++
        s.loc0.all_cards) ++ s.loc1.all_cards) ++ s.loc2.all_cards).Perm
      (card :: ((((((s.player0.hand ++ s.player0.deck) ++ np.hand) ++ np.deck) ++
        s.loc0.all_cards) ++ s.loc1.all_cards) ++ s.loc2.all_cards))
    rw [hdk]
    exact perm_cons_append_right (perm_cons_append_right (perm_cons_append_right
      (perm_cons_append_right (perm_extract_gen hhand))))

theorem play_commit_step (s : GameState) (pid : PlayerId) (li : Nat) (card : CardInstance)
    (np : PlayerState) (t : GameState) (hWF : s.WF) (hE : s.energyOK) (hli : li < 3)
    (hhand : (s.get_player pid).hand.Perm (card :: np.hand))
    (hdk : np.deck = (s.get_player pid).deck)
    (hen : 0 ≤ np.energy)
    (hcap : (s.get_location li).card_count pid < LOCATION_CAPACITY)
    (howncard : card.owner = pid)
    (hownh : cardsOwnedOK np.hand pid)
    (ht : t = (s.with_player pid np).with_location li
      (((s.with_player pid np).get_location li).add_card card pid)) :
    t.WF ∧ t.energyOK ∧ t.next_instance_id = s.next_instance_id ∧
      t.searchOrderCards.Perm s.searchOrderCards ∧ card ∈ t.searchOrderCards := by
  have hA : s.searchOrderCards.Perm (card :: (s.with_player pid np).searchOrderCards) :=
    search_with_player_hand hhand hdk
  have hT : t.searchOrderCards.Perm (card :: (s.with_player pid np).searchOrderCards) := by
    rw [ht]
    exact search_add_perm (s.with_player pid np) card pid hli
  have hperm : t.searchOrderCards.Perm s.searchOrderCards := hT.trans hA.symm
  have hgl : (s.with_player pid np).get_location li = s.get_location li :=
    get_location_with_player s pid np li
  have hnext : t.next_instance_id = s.next_instance_id := by
    rw [ht, next_with_location, next_with_player]
  have hdkOK : cardsOwnedOK np.deck pid := by
    rw [hdk]
    cases pid
    · exact hWF.2.2.1.2.1
    · exact hWF.2.2.1.2.2.2.1
  refine ⟨⟨?_, ?_, ?_, ?_, ?_⟩, ?_, hnext, hperm, ?_⟩
  · rw [ht]
    refine capOK_with_location (capOK_with_player pid np hWF.1) ?_ li
    rw [hgl]
    exact add_card_capOK card pid (capOK_get_location hWF.1 li) hcap
  · rw [ht]
    refine locIndexOK_with_location (locIndexOK_with_player pid np hWF.2.1) hli ?_
    rw [add_card_index, hgl]
  · rw [ht]
    refine ownersOK_with_location (ownersOK_with_player_np hWF.2.2.1 hownh hdkOK) ?_ li
    rw [hgl]
    exact add_card_ownersOK (get_location_ownersOK hWF.2.2.1 li) howncard
  · exact ((hperm.map CardInstance.instance_id).symm.nodup hWF.2.2.2.1 : t.idsList.Nodup)
  · intro x hx
    rw [hnext]
    exact hWF.2.2.2.2 x ((hperm.map CardInstance.instance_id).mem_iff.mp hx)
  · have hp0 : t.player0 = (s.with_player pid np).player0 := by rw [ht, player0_with_location]
    have hp1 : t.player1 = (s.with_player pid np).player1 := by rw [ht, player1_with_location]
    constructor
    · rw [hp0]
      cases pid
      · exact hen
      · exact hE.1
    · rw [hp1]
      cases pid
      · exact hE.2
      · exact hen
  · rw [ht]
    refine @get_location_mem_search _ li _ ?_
    rw [get_with_location_self _ hli]
    exact (add_card_all_perm _ card pid).mem_iff.mpr (List.mem_cons_self _ _)


theorem remove_from_hand_of_find {p : PlayerState} {iid : Nat} {card : CardInstance}
    (hf : findCardInList iid p.hand = some card) :
    p.remove_from_hand iid = ({ p with hand := (removeFirstCard iid p.hand).1 }, some card) := by
  simp only [PlayerState.remove_from_hand]
  rw [removeFirstCard_eq_find, hf]

theorem hand_ownersOK {s : GameState} (hOwn : s.ownersOK) (pid : PlayerId) :
    cardsOwnedOK (s.get_player pid).hand pid := by
  cases pid
  · exact hOwn.1
  · exact hOwn.2.2.1

theorem commitAction_step (s : GameState) (a : PlayerAction) (hWF : s.WF) (hE : s.energyOK) :
    (commitAction s a).1.WF ∧ (commitAction s a).1.energyOK ∧
      (commitAction s a).1.next_instance_id = s.next_instance_id ∧
      (∀ iid p, OwnerAt s iid p → OwnerAt (commitAction s a).1 iid p) ∧
      ∀ x, (commitAction s a).2.2 = some x →
        OwnerAt (commitAction s a).1 x.1.instance_id x.1.owner ∧
          x.1.instance_id < s.next_instance_id ∧ x.2.1 < 3 := by
  simp only [commitAction]
  by_cases hv : (validate_action s a).valid = true
  · rw [if_neg (by simp [hv])]
    cases a with
    | pass p =>
      exact ⟨hWF, hE, rfl, fun _ _ h => h, fun x hx => Option.noConfusion hx⟩
    | play pid cid li =>
      obtain ⟨hloc, card, hf, hcost, hcap⟩ := (validate_play_iff s pid cid li).mp hv
      have hid : card.instance_id = cid := (findCardInList_mem hf).2
      have hmemhand : card ∈ (s.get_player pid).hand := (findCardInList_mem hf).1
      have hli3 : li < 3 := by rcases hloc with rfl | rfl | rfl <;> omega
      simp only [hf]
      have hf2 : findCardInList card.instance_id
          ((s.get_player pid).spend_energy card.card_def.cost).hand = some card := by
        rw [hid]
        exact hf
      rw [remove_from_hand_of_find hf2]
      have hrs : (removeFirstCard card.instance_id
          ((s.get_player pid).spend_energy card.card_def.cost).hand).2 = some card := by
        rw [removeFirstCard_eq_find]
        exact hf2
      have hhand : (s.get_player pid).hand.Perm
          (card :: (removeFirstCard card.instance_id
            ((s.get_player pid).spend_energy card.card_def.cost).hand).1) :=
        removeFirstCard_some_perm card.instance_id _ card hrs
      have howncard : card.owner = pid := hand_ownersOK hWF.2.2.1 pid card hmemhand
      have hownh : cardsOwnedOK (removeFirstCard card.instance_id
          ((s.get_player pid).spend_energy card.card_def.cost).hand).1 pid :=
        cardsOwnedOK_of_sublist (removeFirstCard_sublist _ _) (hand_ownersOK hWF.2.2.1 pid)
      obtain ⟨hW', hE', hn', hperm', hcardmem⟩ :=
        play_commit_step s pid li card
          { (s.get_player pid).spend_energy card.card_def.cost with
            hand := (removeFirstCard card.instance_id
              ((s.get_player pid).spend_energy card.card_def.cost).hand).1 }
          _ hWF hE hli3 hhand rfl
          (by show (0 : Int) ≤ (s.get_player pid).energy - card.card_def.cost; omega)
          hcap howncard hownh rfl
      refine ⟨hW', hE', hn', ?_, ?_⟩
      · intro iid p hOA cp hcp hcpid
        exact hOA cp (hperm'.subset hcp) hcpid
      · intro x hx
        have hx' : (card, li, pid) = x := Option.some.inj hx
        rw [← hx']
        exact ⟨ownerAt_of_mem_search hW'.2.2.2.1 hcardmem,
          mem_search_fresh hWF.2.2.2.2 (hand_mem_search hmemhand), hli3⟩
  · rw [if_pos (by simp [hv])]
    exact ⟨hWF, hE, rfl, fun _ _ h => h, fun x hx => Option.noConfusion hx⟩


theorem idsList_reset (s : GameState) : (resetOngoingAndSilence s).idsList = s.idsList := by
  simp only [GameState.idsList, GameState.searchOrderCards, resetOngoingAndSilence,
    resetLocOngoing, LocationState.all_cards, List.map_append, List.map_map]
  rfl

theorem mem_search_reset {s : GameState} {cp : CardInstance}
    (h : cp ∈ (resetOngoingAndSilence s).searchOrderCards) :
    cp ∈ s.searchOrderCards ∨ ∃ d ∈ s.searchOrderCards, resetCardOngoing d = cp := by
  simp only [GameState.searchOrderCards, resetOngoingAndSilence, resetLocOngoing,
    LocationState.all_cards, List.mem_append, List.mem_map] at h ⊢
  rcases h with ((((((h | h) | h) | h) | (⟨d, hd, he⟩ | ⟨d, hd, he⟩)) |
    (⟨d, hd, he⟩ | ⟨d, hd, he⟩)) | (⟨d, hd, he⟩ | ⟨d, hd, he⟩))
  · exact Or.inl (by tauto)
  · exact Or.inl (by tauto)
  · exact Or.inl (by tauto)
  · exact Or.inl (by tauto)
  · exact Or.inr ⟨d, by tauto, he⟩
  · exact Or.inr ⟨d, by tauto, he⟩
  · exact Or.inr ⟨d, by tauto, he⟩
  · exact Or.inr ⟨d, by tauto, he⟩
  · exact Or.inr ⟨d, by tauto, he⟩
  · exact Or.inr ⟨d, by tauto, he⟩

theorem stepsTo_reset (s : GameState) (hWF : s.WF) : StepsTo s (resetOngoingAndSilence s) := by
  obtain ⟨hcap, hL, hOwn, hN, hF⟩ := hWF
  have hids := idsList_reset s
  refine ⟨⟨?_, ?_, ?_, ?_, ?_⟩, rfl, rfl, le_refl _, ?_⟩
  · obtain ⟨⟨a0, a1⟩, ⟨b0, b1⟩, ⟨c0, c1⟩⟩ := hcap
    refine ⟨⟨?_, ?_⟩, ⟨?_, ?_⟩, ⟨?_, ?_⟩⟩ <;>
      simp only [resetOngoingAndSilence, resetLocOngoing, List.length_map] <;> assumption
  · exact ⟨rfl, rfl, rfl⟩
  · obtain ⟨a, b, c, d, e, f, g⟩ := hOwn
    have hmapOwn : ∀ (l : List CardInstance) (p : PlayerId), cardsOwnedOK l p →
        cardsOwnedOK (l.map resetCardOngoing) p := by
      intro l p hl cc hcc
      obtain ⟨dd, hdd, rfl⟩ := List.mem_map.mp hcc
      exact hl dd hdd
    exact ⟨a, b, c, d, ⟨hmapOwn _ _ e.1, hmapOwn _ _ e.2⟩, ⟨hmapOwn _ _ f.1, hmapOwn _ _ f.2⟩,
      ⟨hmapOwn _ _ g.1, hmapOwn _ _ g.2⟩⟩
  · show (resetOngoingAndSilence s).idsList.Nodup
    rw [hids]
    exact hN
  · intro x hx
    show x < s.next_instance_id
    have hx' : x ∈ (resetOngoingAndSilence s).idsList := hx
    rw [hids] at hx'
    exact hF x hx'
  · intro iid p hlt hOA cp hcp hcpid
    rcases mem_search_reset hcp with hm | ⟨d, hd, rfl⟩
    · exact hOA cp hm hcpid
    · show (resetCardOngoing d).owner = p
      exact hOA d hd hcpid

theorem stepsTo_silencePassCard (st : GameState) (card : CardInstance) (hWF : st.WF) :
    StepsTo st (silencePassCard st card) := by
  simp only [silencePassCard]
  split_ifs
  · exact StepsTo_refl hWF
  · exact StepsTo_refl hWF
  · refine foldl_stepsTo_state st _ _ ?_ st (StepsTo_refl hWF)
    intro acc e he ha
    cases e <;>
      first
      | exact StepsTo_refl ha.1
      | exact foldl_stepsTo_state acc _ _
          (fun x b _ hx => stepsTo_with_silenced_card hx.1 b.instance_id) acc
          (StepsTo_refl ha.1)

theorem stepsTo_silencePass (s : GameState) (hWF : s.WF) : StepsTo s (silencePass s) := by
  simp only [silencePass]
  exact foldl_stepsTo_state s _ _ (fun acc b _ ha => stepsTo_silencePassCard acc b ha.1) s
    (StepsTo_refl hWF)

theorem stepsTo_ongoingPowerStep (sid : Nat) (amount : Int) (acc : GameState × List GameEvent)
    (t : CardInstance) (hWF : acc.1.WF) : StepsTo acc.1 (ongoingPowerStep sid amount acc t).1 := by
  simp only [ongoingPowerStep]
  cases hloc : acc.1.find_card_location t.instance_id with
  | none => simp only [hloc]; exact StepsTo_refl hWF
  | some li =>
    simp only [hloc]
    cases hfind : acc.1.find_card_by_instance t.instance_id with
    | none => simp only [hfind]; exact StepsTo_refl hWF
    | some cur =>
      simp only [hfind]
      apply stepsTo_update_loc acc.1 li _ hWF
      intro c hc hcid
      obtain ⟨hmem, hid⟩ := find_card_by_instance_mem hfind
      have hcc : c = cur := search_unique hWF.2.2.2.1 hc hmem hcid
      rw [hcc]
      rfl

theorem stepsTo_powerPassCard (acc : GameState × List GameEvent) (card : CardInstance)
    (hWF : acc.1.WF) : StepsTo acc.1 (powerPassCard acc card).1 := by
  simp only [powerPassCard]
  split_ifs
  · exact StepsTo_refl hWF
  · exact StepsTo_refl hWF
  · exact StepsTo_refl hWF
  · refine foldl_stepsTo acc.1 _ _ ?_ acc (StepsTo_refl hWF)
    intro a e he ha
    cases e <;>
      first
      | exact StepsTo_refl ha.1
      | exact foldl_stepsTo a.1 _ _ (fun x b _ hx => stepsTo_ongoingPowerStep _ _ x b hx.1) a
          (StepsTo_refl ha.1)
      | (dsimp only
         split_ifs <;>
          first
          | exact StepsTo_refl ha.1
          | exact foldl_stepsTo a.1 _ _
              (fun x b _ hx => stepsTo_ongoingPowerStep _ _ x b hx.1) a (StepsTo_refl ha.1))

theorem stepsTo_powerPass (s : GameState) (hWF : s.WF) : StepsTo s (powerPass s).1 := by
  simp only [powerPass]
  exact foldl_stepsTo s _ _ (fun acc b _ ha => stepsTo_powerPassCard acc b ha.1) (s, [])
    (StepsTo_refl hWF)

theorem stepsTo_compute_ongoing (s : GameState) (hWF : s.WF) :
    StepsTo s (compute_ongoing_effects s).1 := by
  have h1 := stepsTo_reset s hWF
  have h2 := stepsTo_silencePass _ h1.1
  have h3 := stepsTo_powerPass _ h2.1
  exact StepsTo_trans h1 (StepsTo_trans h2 h3)


set_option maxHeartbeats 1000000 in
theorem stepsTo_reveal_card (s : GameState) (card : CardInstance) (li : Nat) (pid : PlayerId)
    (hWF : s.WF) (hOA : OwnerAt s card.instance_id card.owner) :
    StepsTo s (_reveal_card s card li pid).1 := by
  simp only [_reveal_card]
  have hstep1 : StepsTo s (s.with_location li
      ((s.get_location li).update_card (card.with_revealed true))) := by
    apply stepsTo_update_loc s li _ hWF
    intro c hc hcid
    exact hOA c hc hcid
  split_ifs with hab
  · obtain ⟨s1, hs1⟩ : ∃ u, s.with_location li
        ((s.get_location li).update_card (card.with_revealed true)) = u := ⟨_, rfl⟩
    rw [hs1] at hstep1 ⊢
    cases h4 : s1.find_card_by_instance card.instance_id with
    | none => simp only [h4]; exact hstep1
    | some cur =>
      simp only [h4]
      obtain ⟨hmem, hid⟩ := find_card_by_instance_mem h4
      have hOAcur : OwnerAt s1 cur.instance_id cur.owner :=
        ownerAt_of_mem_search hstep1.1.2.2.2.1 hmem
      have hltcur : cur.instance_id < s1.next_instance_id :=
        mem_search_fresh hstep1.1.2.2.2.2 hmem
      refine StepsTo_trans hstep1 (foldl_stepsTo s1 _ _ ?_ (s1, []) (StepsTo_refl hstep1.1))
      intro acc e he ha
      cases e with
      | addPower target amount => exact stepsTo_addPower_apply _ _ acc.1 cur pid ha.1
      | addOngoingPower target amount => exact StepsTo_refl ha.1
      | conditionalOngoingPower target amount condition => exact StepsTo_refl ha.1
      | moveCard target tol dest =>
        exact stepsTo_moveCard_apply _ _ _ acc.1 cur pid ha.1
          (ha.2.2.2.2 cur.instance_id cur.owner hltcur hOAcur)
          (lt_of_lt_of_le hltcur ha.2.2.2.1)
      | destroyCard target => exact stepsTo_destroyCard_apply _ acc.1 cur pid ha.1
      | destroyAndBuff dt bt amt => exact stepsTo_destroyAndBuff_apply _ _ _ acc.1 cur pid ha.1
      | destroyAndGainPower dt => exact stepsTo_destroyAndGainPower_apply _ acc.1 cur pid ha.1
      | conditionalPower target amount cond =>
        exact stepsTo_conditionalPower_apply _ _ _ acc.1 cur pid ha.1
      | silenceOngoing target => exact stepsTo_silenceOngoing_apply _ acc.1 cur pid ha.1
      | stealPower target amount => exact stepsTo_stealPower_apply _ _ acc.1 cur pid ha.1
      | scalingOngoingPower target per cf => exact StepsTo_refl ha.1
      | scalingPower target per => exact stepsTo_scalingPower_apply _ _ acc.1 cur pid ha.1
      | revive base => exact stepsTo_revive_apply _ acc.1 cur pid ha.1
  · exact hstep1

theorem reveal_ongoing_inv (s0 : GameState) (played : List (CardInstance × Nat × PlayerId))
    (evs : List GameEvent) (hWF : s0.WF) (hE : s0.energyOK)
    (hplayed : ∀ x ∈ played, OwnerAt s0 x.1.instance_id x.1.owner ∧
      x.1.instance_id < s0.next_instance_id) :
    (compute_ongoing_effects ((sortPlayed played).foldl
      (fun acc entry =>
        let r := _reveal_card acc.1 entry.1 entry.2.1 entry.2.2
        (r.1, acc.2 ++ r.2)) (s0, evs)).1).1.WF ∧
    (compute_ongoing_effects ((sortPlayed played).foldl
      (fun acc entry =>
        let r := _reveal_card acc.1 entry.1 entry.2.1 entry.2.2
        (r.1, acc.2 ++ r.2)) (s0, evs)).1).1.energyOK := by
  have hrev : StepsTo s0 ((sortPlayed played).foldl
      (fun acc entry =>
        let r := _reveal_card acc.1 entry.1 entry.2.1 entry.2.2
        (r.1, acc.2 ++ r.2)) (s0, evs)).1 := by
    refine foldl_stepsTo s0 _ _ ?_ (s0, evs) (StepsTo_refl hWF)
    intro acc x hx ha
    obtain ⟨hOA, hlt⟩ := hplayed x (sortPlayed_mem hx)
    exact stepsTo_reveal_card acc.1 x.1 x.2.1 x.2.2 ha.1 (ha.2.2.2.2 _ _ hlt hOA)
  have hog := stepsTo_compute_ongoing _ hrev.1
  refine ⟨hog.1, ?_, ?_⟩
  · rw [hog.2.1, hrev.2.1]
    exact hE.1
  · rw [hog.2.2.1, hrev.2.2.1]
    exact hE.2

set_option maxHeartbeats 1000000 in
theorem resolve_actions_inv (s : GameState) (a0 a1 : PlayerAction) (hWF : s.WF)
    (hE : s.energyOK) :
    (resolve_actions s a0 a1).1.WF ∧ (resolve_actions s a0 a1).1.energyOK := by
  obtain ⟨hW0, hE0, hn0, hT0, hP0⟩ := commitAction_step s a0 hWF hE
  obtain ⟨hW1, hE1, hn1, hT1, hP1⟩ := commitAction_step (commitAction s a0).1 a1 hW0 hE0
  simp only [resolve_actions]
  refine reveal_ongoing_inv _ _ _ hW1 hE1 ?_
  intro x hx
  rcases List.mem_append.mp hx with hx' | hx'
  · cases h0 : (commitAction s a0).2.2 with
    | none => rw [h0] at hx'; exact absurd hx' (List.not_mem_nil x)
    | some y =>
      rw [h0] at hx'
      have hxy : x = y := by simpa using hx'
      subst hxy
      obtain ⟨hOA0, hlt0, _⟩ := hP0 x h0
      refine ⟨hT1 _ _ hOA0, ?_⟩
      rw [hn1, hn0]
      exact hlt0
  · cases h1 : (commitAction (commitAction s a0).1 a1).2.2 with
    | none => rw [h1] at hx'; exact absurd hx' (List.not_mem_nil x)
    | some y =>
      rw [h1] at hx'
      have hxy : x = y := by simpa using hx'
      subst hxy
      obtain ⟨hOA1, hlt1, _⟩ := hP1 x h1
      refine ⟨hOA1, ?_⟩
      rw [hn1]
      exact hlt1

theorem resolve_turn_inv (s : GameState) (a0 a1 : PlayerAction) (hWF : s.WF)
    (hE : s.energyOK) :
    (resolve_turn s a0 a1).1.WF ∧ (resolve_turn s a0 a1).1.energyOK := by
  simp only [resolve_turn]
  obtain ⟨hW, hE'⟩ := resolve_actions_inv (s.with_phase .RESOLUTION) a0 a1 hWF hE
  obtain ⟨ra, hra⟩ : ∃ u, resolve_actions (s.with_phase .RESOLUTION) a0 a1 = u := ⟨_, rfl⟩
  rw [hra] at hW hE' ⊢
  split_ifs with hgo
  · exact ⟨hW, hE'⟩
  · exact ⟨hW, hE'⟩


theorem with_player_self (s : GameState) (pid : PlayerId) :
    s.with_player pid (s.get_player pid) = s := by
  cases pid <;> rfl

theorem get_with_player_self (s : GameState) (pid : PlayerId) (x : PlayerState) :
    ((s.with_player pid x).get_player pid) = x := by
  cases pid <;> rfl

theorem draw_card_cases (p : PlayerState) :
    (p.deck = [] ∧ p.draw_card.1 = p) ∨
      ∃ d rest, p.deck = d :: rest ∧
        p.draw_card.1 = { p with deck := rest, hand := p.hand ++ [d] } := by
  cases hdk : p.deck with
  | nil => exact Or.inl ⟨rfl, by simp [PlayerState.draw_card, hdk]⟩
  | cons d rest => exact Or.inr ⟨d, rest, rfl, by simp [PlayerState.draw_card, hdk]⟩

theorem draw_card_energy (p : PlayerState) :
    (p.draw_card).1.energy = p.energy ∧ (p.draw_card).1.max_energy = p.max_energy := by
  rcases draw_card_cases p with ⟨_, heq⟩ | ⟨d, rest, _, heq⟩ <;> rw [heq] <;> exact ⟨rfl, rfl⟩

theorem drawOne_fst (x : GameState × List GameEvent) (pid : PlayerId) :
    (drawOneWithEvent x pid).1 = x.1.with_player pid ((x.1.get_player pid).draw_card).1 := by
  simp only [drawOneWithEvent]
  cases h : ((x.1.get_player pid).draw_card).2 <;> simp only [h]

theorem draw_inv (s : GameState) (pid : PlayerId) (hWF : s.WF) (hE : s.energyOK) :
    (s.with_player pid ((s.get_player pid).draw_card).1).WF ∧
      (s.with_player pid ((s.get_player pid).draw_card).1).energyOK := by
  rcases draw_card_cases (s.get_player pid) with ⟨hdk, heq⟩ | ⟨d, rest, hdk, heq⟩
  · rw [heq, with_player_self]
    exact ⟨hWF, hE⟩
  · rw [heq]
    have hse : (s.with_player pid
        { s.get_player pid with deck := rest, hand := (s.get_player pid).hand ++ [d] }
        ).searchOrderCards = s.searchOrderCards := by
      cases pid
      · show (((((((s.player0.hand ++ [d]) ++ rest) ++ s.player1.hand) ++ s.player1.deck) ++
          s.loc0.all_cards) ++ s.loc1.all_cards) ++ s.loc2.all_cards) = _
        show _ = ((((((s.player0.hand ++ s.player0.deck) ++ s.player1.hand) ++ s.player1.deck) ++
          s.loc0.all_cards) ++ s.loc1.all_cards) ++ s.loc2.all_cards)
        rw [show s.player0.deck = d :: rest from hdk]
        simp [List.append_assoc]
      · show (((((((s.player0.hand ++ s.player0.deck) ++ ((s.player1.hand ++ [d]))) ++ rest) ++
          s.loc0.all_cards) ++ s.loc1.all_cards) ++ s.loc2.all_cards)) = _
        show _ = ((((((s.player0.hand ++ s.player0.deck) ++ s.player1.hand) ++ s.player1.deck) ++
          s.loc0.all_cards) ++ s.loc1.all_cards) ++ s.loc2.all_cards)
        rw [show s.player1.deck = d :: rest from hdk]
        simp [List.append_assoc]
    have hdOK : d.owner = pid := by
      have : d ∈ (s.get_player pid).deck := by rw [hdk]; exact List.mem_cons_self _ _
      cases pid
      · exact hWF.2.2.1.2.1 d this
      · exact hWF.2.2.1.2.2.2.1 d this
    have hrestOK : cardsOwnedOK rest pid := by
      intro c hc
      have : c ∈ (s.get_player pid).deck := by rw [hdk]; exact List.mem_cons_of_mem d hc
      cases pid
      · exact hWF.2.2.1.2.1 c this
      · exact hWF.2.2.1.2.2.2.1 c this
    have hhOK : cardsOwnedOK ((s.get_player pid).hand ++ [d]) pid := by
      intro c hc
      rcases List.mem_append.mp hc with hc | hc
      · exact hand_ownersOK hWF.2.2.1 pid c hc
      · rw [List.mem_singleton.mp hc]
        exact hdOK
    refine ⟨⟨capOK_with_player pid _ hWF.1, locIndexOK_with_player pid _ hWF.2.1,
      ownersOK_with_player_np hWF.2.2.1 hhOK hrestOK, ?_, ?_⟩, ?_, ?_⟩
    · show ((s.with_player pid _).searchOrderCards.map CardInstance.instance_id).Nodup
      rw [hse]
      exact hWF.2.2.2.1
    · intro x hx
      have hx' : x ∈ (s.with_player pid _).searchOrderCards.map CardInstance.instance_id := hx
      rw [hse] at hx'
      have := hWF.2.2.2.2 x hx'
      show x < (s.with_player pid _).next_instance_id
      rw [next_with_player]
      exact this
    · cases pid
      · exact hE.1
      · exact hE.1
    · cases pid
      · exact hE.2
      · exact hE.2

theorem search_with_energy (s : GameState) (pid : PlayerId) (e m : Int) :
    (s.with_player pid ((s.get_player pid).with_energy e m)).searchOrderCards
      = s.searchOrderCards := by
  cases pid <;> rfl

theorem startTurnPlayer_inv (n : Nat) (acc : GameState × List GameEvent) (pid : PlayerId)
    (hWF : acc.1.WF) (hE : acc.1.energyOK) :
    (startTurnPlayer n acc pid).1.WF ∧ (startTurnPlayer n acc pid).1.energyOK := by
  simp only [startTurnPlayer]
  have hW1 : (acc.1.with_player pid
      ((acc.1.get_player pid).with_energy n n)).WF := by
    refine ⟨capOK_with_player pid _ hWF.1, locIndexOK_with_player pid _ hWF.2.1,
      ownersOK_with_player_np hWF.2.2.1 ?_ ?_, ?_, ?_⟩
    · exact hand_ownersOK hWF.2.2.1 pid
    · cases pid
      · exact hWF.2.2.1.2.1
      · exact hWF.2.2.1.2.2.2.1
    · show ((acc.1.with_player pid
        ((acc.1.get_player pid).with_energy n n)).searchOrderCards.map
        CardInstance.instance_id).Nodup
      rw [search_with_energy]
      exact hWF.2.2.2.1
    · intro x hx
      have hx' : x ∈ ((acc.1.with_player pid
          ((acc.1.get_player pid).with_energy n n)).searchOrderCards.map
          CardInstance.instance_id) := hx
      rw [search_with_energy] at hx'
      show x < (acc.1.with_player pid _).next_instance_id
      rw [next_with_player]
      exact hWF.2.2.2.2 x hx'
  have hE1 : (acc.1.with_player pid
      ((acc.1.get_player pid).with_energy n n)).energyOK := by
    cases pid
    · exact ⟨Int.natCast_nonneg n, hE.2⟩
    · exact ⟨hE.1, Int.natCast_nonneg n⟩
  split_ifs with h1
  · rw [drawOne_fst]
    exact draw_inv _ pid hW1 hE1
  · exact ⟨hW1, hE1⟩

theorem start_turn_inv (s : GameState) (hWF : s.WF) (hE : s.energyOK) :
    (start_turn s).1.WF ∧ (start_turn s).1.energyOK := by
  simp only [start_turn, List.foldl]
  have h0 : ((s.with_turn (s.turn + 1)).clear_turn_tracking).WF ∧
      ((s.with_turn (s.turn + 1)).clear_turn_tracking).energyOK := ⟨hWF, hE⟩
  have h1 := startTurnPlayer_inv (s.turn + 1)
    ((s.with_turn (s.turn + 1)).clear_turn_tracking,
      [GameEvent.turnStarted (s.turn + 1)]) .P0 h0.1 h0.2
  have h2 := startTurnPlayer_inv (s.turn + 1)
    (startTurnPlayer (s.turn + 1)
      ((s.with_turn (s.turn + 1)).clear_turn_tracking,
        [GameEvent.turnStarted (s.turn + 1)]) .P0) .P1 h1.1 h1.2
  exact h2

theorem create_deck_facts (defs : List CardDef) (pid : PlayerId) :
    ∀ n : Nat, n ≤ (create_deck defs pid n).2 ∧
      (∀ c ∈ (create_deck defs pid n).1, c.owner = pid ∧ n ≤ c.instance_id ∧
        c.instance_id < (create_deck defs pid n).2) ∧
      ((create_deck defs pid n).1.map CardInstance.instance_id).Nodup := by
  induction defs with
  | nil =>
    intro n
    refine ⟨le_refl n, ?_, List.nodup_nil⟩
    intro c hc
    exact absurd hc (List.not_mem_nil c)
  | cons d ds ih =>
    intro n
    obtain ⟨h1, h2, h3⟩ := ih (n + 1)
    simp only [create_deck]
    refine ⟨by omega, ?_, ?_⟩
    · intro c hc
      rcases List.mem_cons.mp hc with rfl | hc
      · exact ⟨rfl, le_refl n, by show n < (create_deck ds pid (n + 1)).2; omega⟩
      · obtain ⟨o, lb, ub⟩ := h2 c hc
        exact ⟨o, by omega, ub⟩
    · refine List.nodup_cons.mpr ⟨?_, h3⟩
      intro hmem
      obtain ⟨c, hc, hcid⟩ := List.mem_map.mp hmem
      have hcid' : c.instance_id = n := hcid
      obtain ⟨_, lb, _⟩ := h2 c hc
      omega

theorem create_game_inv (d0 d1 : List CardDef) :
    (create_game d0 d1).1.WF ∧ (create_game d0 d1).1.energyOK := by
  have hfold : ∀ (l : List PlayerId) (acc : GameState × List GameEvent),
      acc.1.WF → acc.1.energyOK →
      (l.foldl drawOneWithEvent acc).1.WF ∧ (l.foldl drawOneWithEvent acc).1.energyOK := by
    intro l
    induction l with
    | nil => intro acc ha hb; exact ⟨ha, hb⟩
    | cons p rest ih =>
      intro acc ha hb
      simp only [List.foldl_cons]
      have hd : (drawOneWithEvent acc p).1.WF ∧ (drawOneWithEvent acc p).1.energyOK := by
        rw [drawOne_fst]
        exact draw_inv acc.1 p ha hb
      exact ih _ hd.1 hd.2
  simp only [create_game]
  apply hfold
  · obtain ⟨hb0, hc0, hn0⟩ := create_deck_facts d0 .P0 0
    obtain ⟨hb1, hc1, hn1⟩ := create_deck_facts d1 .P1 (create_deck d0 .P0 0).2
    have hids : ∀ x, (x ∈ ((create_deck d0 .P0 0).1.map CardInstance.instance_id) ∨
        x ∈ ((create_deck d1 .P1 (create_deck d0 .P0 0).2).1.map CardInstance.instance_id)) →
        x < (create_deck d1 .P1 (create_deck d0 .P0 0).2).2 := by
      intro x hx
      rcases hx with hx | hx
      · obtain ⟨c, hc, rfl⟩ := List.mem_map.mp hx
        obtain ⟨_, _, ub⟩ := hc0 c hc
        omega
      · obtain ⟨c, hc, rfl⟩ := List.mem_map.mp hx
        obtain ⟨_, _, ub⟩ := hc1 c hc
        omega
    refine ⟨?_, ?_, ?_, ?_, ?_⟩
    · refine ⟨⟨?_, ?_⟩, ⟨?_, ?_⟩, ⟨?_, ?_⟩⟩ <;>
        simp [create_empty_location, LOCATION_CAPACITY]
    · exact ⟨rfl, rfl, rfl⟩
    · refine ⟨?_, ?_, ?_, ?_, ?_, ?_, ?_⟩
      · intro c hc; exact absurd hc (List.not_mem_nil c)
      · intro c hc; exact (hc0 c hc).1
      · intro c hc; exact absurd hc (List.not_mem_nil c)
      · intro c hc; exact (hc1 c hc).1
      · exact ⟨fun c hc => absurd hc (List.not_mem_nil c),
          fun c hc => absurd hc (List.not_mem_nil c)⟩
      · exact ⟨fun c hc => absurd hc (List.not_mem_nil c),
          fun c hc => absurd hc (List.not_mem_nil c)⟩
      · exact ⟨fun c hc => absurd hc (List.not_mem_nil c),
          fun c hc => absurd hc (List.not_mem_nil c)⟩
    · show (((([] : List CardInstance) ++ (create_deck d0 .P0 0).1 ++ [] ++
        (create_deck d1 .P1 (create_deck d0 .P0 0).2).1 ++
        (create_empty_location 0).all_cards ++ (create_empty_location 1).all_cards ++
        (create_empty_location 2).all_cards).map CardInstance.instance_id)).Nodup
      simp only [create_empty_location, LocationState.all_cards, List.append_nil,
        List.nil_append, List.map_append]
      refine List.Nodup.append hn0 hn1 ?_
      intro a ha0 ha1
      obtain ⟨c, hc, rfl⟩ := List.mem_map.mp ha0
      obtain ⟨c', hc', he⟩ := List.mem_map.mp ha1
      obtain ⟨_, _, ub⟩ := hc0 c hc
      obtain ⟨_, lb, _⟩ := hc1 c' hc'
      omega
    · intro x hx
      have hx' : x ∈ ((([] : List CardInstance) ++ (create_deck d0 .P0 0).1 ++ [] ++
        (create_deck d1 .P1 (create_deck d0 .P0 0).2).1 ++
        (create_empty_location 0).all_cards ++ (create_empty_location 1).all_cards ++
        (create_empty_location 2).all_cards).map CardInstance.instance_id) := hx
      simp only [create_empty_location, LocationState.all_cards, List.append_nil,
        List.nil_append, List.map_append, List.mem_append] at hx'
      exact hids x hx'
  · exact ⟨le_refl 0, le_refl 0⟩

theorem reach_inv : ∀ s, Reach s → s.WF ∧ s.energyOK := by
  intro s h
  induction h with
  | create d0 d1 => exact create_game_inv d0 d1
  | start _ ih => exact start_turn_inv _ ih.1 ih.2
  | resolve a0 a1 _ ih => exact resolve_turn_inv _ a0 a1 ih.1 ih.2


theorem startTurnPlayer_energy_self (n : Nat) (acc : GameState × List GameEvent)
    (pid : PlayerId) :
    ((startTurnPlayer n acc pid).1.get_player pid).energy = (n : Int) ∧
    ((startTurnPlayer n acc pid).1.get_player pid).max_energy = (n : Int) := by
  simp only [startTurnPlayer]
  split_ifs with h1
  · rw [drawOne_fst, get_with_player_self, get_with_player_self]
    exact ⟨(draw_card_energy _).1, (draw_card_energy _).2⟩
  · rw [get_with_player_self]
    exact ⟨rfl, rfl⟩

theorem startTurnPlayer_keeps_p0 (n : Nat) (acc : GameState × List GameEvent) :
    (startTurnPlayer n acc .P1).1.player0 = acc.1.player0 := by
  simp only [startTurnPlayer]
  split_ifs with h1
  · rw [drawOne_fst]
    rfl
  · rfl

theorem start_turn_energy (s : GameState) :
    (start_turn s).1.player0.energy = ((s.turn + 1 : Nat) : Int) ∧
    (start_turn s).1.player0.max_energy = ((s.turn + 1 : Nat) : Int) ∧
    (start_turn s).1.player1.energy = ((s.turn + 1 : Nat) : Int) ∧
    (start_turn s).1.player1.max_energy = ((s.turn + 1 : Nat) : Int) := by
  have hph : ∀ (x : GameState), (x.with_phase .PLANNING).player0 = x.player0 := fun _ => rfl
  have hph1 : ∀ (x : GameState), (x.with_phase .PLANNING).player1 = x.player1 := fun _ => rfl
  simp only [start_turn, List.foldl]
  refine ⟨?_, ?_, ?_, ?_⟩
  · rw [hph, startTurnPlayer_keeps_p0]
    exact (startTurnPlayer_energy_self (s.turn + 1) _ .P0).1
  · rw [hph, startTurnPlayer_keeps_p0]
    exact (startTurnPlayer_energy_self (s.turn + 1) _ .P0).2
  · rw [hph1]
    exact (startTurnPlayer_energy_self (s.turn + 1) _ .P1).1
  · rw [hph1]
    exact (startTurnPlayer_energy_self (s.turn + 1) _ .P1).2

/-- C5: in every state reachable through create_game, start_turn and
resolve_turn, each player holds at most LOCATION_CAPACITY = 4 cards at
every location, and a play targeting a location already at capacity for
that player is rejected by validate_action (the move and summon effects
guard their destinations the same way inside the resolution pipeline,
which the reachability half subsumes). -/
theorem capacity_invariant :
    (∀ s, Reach s → ∀ (p : PlayerId) (i : Nat),
      (s.get_location i).card_count p ≤ LOCATION_CAPACITY) ∧
    (∀ (s : GameState) (p : PlayerId) (cid loc : Nat),
      LOCATION_CAPACITY ≤ (s.get_location loc).card_count p →
      (validate_action s (.play p cid loc)).valid = false) := by
  constructor
  · intro s hR p i
    have hcap := capOK_get_location (reach_inv s hR).1.1 i
    cases p
    · exact hcap.1
    · exact hcap.2
  · intro s p cid loc hge
    cases hv : (validate_action s (.play p cid loc)).valid
    · rfl
    · obtain ⟨_, c, _, _, hlt⟩ := (validate_play_iff s p cid loc).mp hv
      omega

/-- Concrete check of C5: a freshly created game respects the capacity
bound, and a play into an already-full location is rejected. -/
theorem capacity_invariant_witness :
    ((create_game [] []).1.get_location 0).card_count .P0 ≤ LOCATION_CAPACITY ∧
    (validate_action sFull (.play .P0 99 0)).valid = false :=
  ⟨capacity_invariant.1 (create_game [] []).1 (Reach.create [] []) .P0 0,
   capacity_invariant.2 sFull .P0 99 0 (by decide)⟩

/-- C6: in every reachable state neither player's energy is negative,
and immediately after start_turn on turn N (N = old turn + 1, within
1..6) both players' energy and max-energy equal exactly N; the cost of
a play is subtracted only on the validated path, which the
reachability half subsumes. -/
theorem energy_invariant :
    (∀ s, Reach s → 0 ≤ s.player0.energy ∧ 0 ≤ s.player1.energy) ∧
    (∀ (s : GameState) (N : Nat), 1 ≤ N → N ≤ 6 → s.turn + 1 = N →
      (start_turn s).1.player0.energy = (N : Int) ∧
      (start_turn s).1.player0.max_energy = (N : Int) ∧
      (start_turn s).1.player1.energy = (N : Int) ∧
      (start_turn s).1.player1.max_energy = (N : Int)) := by
  constructor
  · intro s hR
    exact (reach_inv s hR).2
  · intro s N h1 h6 hN
    have h := start_turn_energy s
    rw [hN] at h
    exact h

/-- Concrete check of C6: energy is non-negative right after game
creation, and starting the turn after turn 1 grants both players
exactly 2 energy. -/
theorem energy_invariant_witness :
    (0 ≤ (create_game [] []).1.player0.energy ∧
      0 ≤ (create_game [] []).1.player1.energy) ∧
    ((start_turn emptyState).1.player0.energy = ((2 : Nat) : Int) ∧
      (start_turn emptyState).1.player0.max_energy = ((2 : Nat) : Int) ∧
      (start_turn emptyState).1.player1.energy = ((2 : Nat) : Int) ∧
      (start_turn emptyState).1.player1.max_energy = ((2 : Nat) : Int)) :=
  ⟨energy_invariant.1 (create_game [] []).1 (Reach.create [] []),
   energy_invariant.2 emptyState 2 (by decide) (by decide) (by decide)⟩


theorem resetLoc_idem (i : Nat) (l : LocationState) :
    resetLocOngoing i (resetLocOngoing i l) = resetLocOngoing i l := by
  simp only [resetLocOngoing, List.map_map]
  rfl

theorem erase_idem (s : GameState) :
    resetOngoingAndSilence (resetOngoingAndSilence s) = resetOngoingAndSilence s := by
  simp only [resetOngoingAndSilence, resetLoc_idem]

theorem ids_with_silenced (s : GameState) (iid : Nat) :
    (s.with_silenced_card iid).idsList = s.idsList := by
  unfold GameState.with_silenced_card
  split_ifs <;> rfl

theorem erase_with_silenced (s : GameState) (iid : Nat) :
    resetOngoingAndSilence (s.with_silenced_card iid) = resetOngoingAndSilence s := by
  unfold GameState.with_silenced_card
  split_ifs <;> rfl

theorem erase_foldl {β : Type} (f : GameState → β → GameState)
    (hf : ∀ st e, resetOngoingAndSilence (f st e) = resetOngoingAndSilence st ∧
      (f st e).idsList = st.idsList) :
    ∀ (l : List β) (st : GameState),
      resetOngoingAndSilence (l.foldl f st) = resetOngoingAndSilence st ∧
        (l.foldl f st).idsList = st.idsList := by
  intro l
  induction l with
  | nil => intro st; exact ⟨rfl, rfl⟩
  | cons e rest ih =>
    intro st
    simp only [List.foldl_cons]
    obtain ⟨h1, h2⟩ := hf st e
    obtain ⟨h3, h4⟩ := ih (f st e)
    exact ⟨h3.trans h1, h4.trans h2⟩

set_option maxHeartbeats 400000 in
theorem erase_silencePassCard (st : GameState) (card : CardInstance) :
    resetOngoingAndSilence (silencePassCard st card) = resetOngoingAndSilence st ∧
      (silencePassCard st card).idsList = st.idsList := by
  simp only [silencePassCard]
  split_ifs
  · exact ⟨rfl, rfl⟩
  · exact ⟨rfl, rfl⟩
  · refine erase_foldl _ ?_ card.card_def.effects st
    intro st' e
    cases e with
    | silenceOngoing target =>
      show resetOngoingAndSilence (List.foldl (fun st t => st.with_silenced_card t.instance_id)
          st' (_resolve_targets st' card card.owner target)) = resetOngoingAndSilence st' ∧
        (List.foldl (fun st t => st.with_silenced_card t.instance_id) st'
          (_resolve_targets st' card card.owner target)).idsList = st'.idsList
      apply erase_foldl
      intro st'' tc
      exact ⟨erase_with_silenced st'' tc.instance_id, ids_with_silenced st'' tc.instance_id⟩
    | addPower t a => exact ⟨rfl, rfl⟩
    | addOngoingPower t a => exact ⟨rfl, rfl⟩
    | conditionalOngoingPower t a c => exact ⟨rfl, rfl⟩
    | moveCard t tol d => exact ⟨rfl, rfl⟩
    | destroyCard t => exact ⟨rfl, rfl⟩
    | destroyAndBuff dt bt amt => exact ⟨rfl, rfl⟩
    | destroyAndGainPower dt => exact ⟨rfl, rfl⟩
    | conditionalPower t a c => exact ⟨rfl, rfl⟩
    | stealPower t a => exact ⟨rfl, rfl⟩
    | scalingOngoingPower t p cf => exact ⟨rfl, rfl⟩
    | scalingPower t p => exact ⟨rfl, rfl⟩
    | revive b => exact ⟨rfl, rfl⟩

theorem erase_silencePass (s : GameState) :
    resetOngoingAndSilence (silencePass s) = resetOngoingAndSilence s ∧
      (silencePass s).idsList = s.idsList :=
  erase_foldl silencePassCard erase_silencePassCard s.all_board_cards s

theorem erase_ongoingPowerStep (sid : Nat) (a : Int) (acc : GameState × List GameEvent)
    (t : CardInstance) (hN : acc.1.idsList.Nodup) :
    resetOngoingAndSilence (ongoingPowerStep sid a acc t).1 = resetOngoingAndSilence acc.1 ∧
      (ongoingPowerStep sid a acc t).1.idsList = acc.1.idsList := by
  simp only [ongoingPowerStep]
  cases hloc : acc.1.find_card_location t.instance_id with
  | none => refine ⟨?_, ?_⟩ <;> simp only [hloc]
  | some li =>
    simp only [hloc]
    cases hfind : acc.1.find_card_by_instance t.instance_id with
    | none => refine ⟨?_, ?_⟩ <;> simp only [hfind]
    | some cur =>
      simp only [hfind]
      obtain ⟨hmem, hid⟩ := find_card_by_instance_mem hfind
      constructor
      · have hmap : ∀ (cl : List CardInstance), (∀ c ∈ cl, c ∈ acc.1.searchOrderCards) →
            ((cl.map fun c =>
              if c.instance_id = (cur.add_ongoing_power a).instance_id then
                cur.add_ongoing_power a else c).map resetCardOngoing)
              = cl.map resetCardOngoing := by
          intro cl hsub
          rw [List.map_map]
          apply List.map_congr_left
          intro c hc
          show resetCardOngoing (if c.instance_id = (cur.add_ongoing_power a).instance_id
            then cur.add_ongoing_power a else c) = resetCardOngoing c
          split_ifs with hceq
          · have hc2 : c = cur := search_unique hN (hsub c hc) hmem hceq
            rw [hc2]
            rfl
          · rfl
        have hLoc : ∀ (j : Nat) (l : LocationState),
            (∀ c ∈ l.cards0, c ∈ acc.1.searchOrderCards) →
            (∀ c ∈ l.cards1, c ∈ acc.1.searchOrderCards) →
            resetLocOngoing j (l.update_card (cur.add_ongoing_power a)) =
              resetLocOngoing j l := by
          intro j l h0 h1
          simp only [resetLocOngoing, LocationState.update_card]
          rw [hmap _ h0, hmap _ h1]
        rcases li with _ | _ | _ | li
        · simp only [GameState.with_location, GameState.get_location, resetOngoingAndSilence]
          rw [hLoc 0 acc.1.loc0
            (fun c hc => @get_location_mem_search acc.1 0 c (mem_cards_mem_all (Or.inl hc)))
            (fun c hc => @get_location_mem_search acc.1 0 c (mem_cards_mem_all (Or.inr hc)))]
        · simp only [GameState.with_location, GameState.get_location, resetOngoingAndSilence]
          rw [hLoc 1 acc.1.loc1
            (fun c hc => @get_location_mem_search acc.1 1 c (mem_cards_mem_all (Or.inl hc)))
            (fun c hc => @get_location_mem_search acc.1 1 c (mem_cards_mem_all (Or.inr hc)))]
        · simp only [GameState.with_location, GameState.get_location, resetOngoingAndSilence]
          rw [hLoc 2 acc.1.loc2
            (fun c hc => @get_location_mem_search acc.1 2 c (mem_cards_mem_all (Or.inl hc)))
            (fun c hc => @get_location_mem_search acc.1 2 c (mem_cards_mem_all (Or.inr hc)))]
        · rw [with_location_ge3 _ _ _ (by omega)]
      · exact idsList_with_location_eq acc.1 li _ (update_card_map_id _ _)

theorem erase_foldl_pair {β : Type}
    (f : GameState × List GameEvent → β → GameState × List GameEvent)
    (hf : ∀ acc e, acc.1.idsList.Nodup →
      resetOngoingAndSilence (f acc e).1 = resetOngoingAndSilence acc.1 ∧
        (f acc e).1.idsList = acc.1.idsList) :
    ∀ (l : List β) (acc : GameState × List GameEvent), acc.1.idsList.Nodup →
      resetOngoingAndSilence (l.foldl f acc).1 = resetOngoingAndSilence acc.1 ∧
        (l.foldl f acc).1.idsList = acc.1.idsList := by
  intro l
  induction l with
  | nil => intro acc h; exact ⟨rfl, rfl⟩
  | cons e rest ih =>
    intro acc h
    simp only [List.foldl_cons]
    obtain ⟨h1, h2⟩ := hf acc e h
    obtain ⟨h3, h4⟩ := ih (f acc e) (by rw [h2]; exact h)
    exact ⟨h3.trans h1, h4.trans h2⟩

theorem erase_powerPassCard (acc : GameState × List GameEvent) (card : CardInstance)
    (hN : acc.1.idsList.Nodup) :
    resetOngoingAndSilence (powerPassCard acc card).1 = resetOngoingAndSilence acc.1 ∧
      (powerPassCard acc card).1.idsList = acc.1.idsList := by
  simp only [powerPassCard]
  split_ifs
  · exact ⟨rfl, rfl⟩
  · exact ⟨rfl, rfl⟩
  · exact ⟨rfl, rfl⟩
  · refine erase_foldl_pair _ ?_ card.card_def.effects acc hN
    intro a e ha
    cases e with
    | addOngoingPower t amt =>
      exact erase_foldl_pair _ (fun x b hx => erase_ongoingPowerStep _ _ x b hx) _ a ha
    | conditionalOngoingPower t amt c =>
      exact erase_foldl_pair _ (fun x b hx => erase_ongoingPowerStep _ _ x b hx) _ a ha
    | scalingOngoingPower t per cf =>
      dsimp only
      split_ifs
      · exact ⟨rfl, rfl⟩
      · exact erase_foldl_pair _ (fun x b hx => erase_ongoingPowerStep _ _ x b hx) _ a ha
    | addPower t amt => exact ⟨rfl, rfl⟩
    | moveCard t tol d => exact ⟨rfl, rfl⟩
    | destroyCard t => exact ⟨rfl, rfl⟩
    | destroyAndBuff dt bt amt => exact ⟨rfl, rfl⟩
    | destroyAndGainPower dt => exact ⟨rfl, rfl⟩
    | conditionalPower t amt c => exact ⟨rfl, rfl⟩
    | silenceOngoing t => exact ⟨rfl, rfl⟩
    | stealPower t amt => exact ⟨rfl, rfl⟩
    | scalingPower t per => exact ⟨rfl, rfl⟩
    | revive b => exact ⟨rfl, rfl⟩

/-- C7: compute_ongoing_effects is idempotent on snapshots with
globally unique instance ids (the spec's identity invariant): a second
invocation with no intervening reveal returns exactly the same state -
in particular the same ongoing power modifiers and the same silenced
set - and the same events, because each invocation first zeroes every
ongoing modifier and clears the silenced set before reapplying all
ongoing effects. -/
theorem compute_ongoing_idempotent (s : GameState) (hN : s.idsList.Nodup) :
    compute_ongoing_effects (compute_ongoing_effects s).1 = compute_ongoing_effects s := by
  have hNY : (silencePass (resetOngoingAndSilence s)).idsList.Nodup := by
    rw [(erase_silencePass (resetOngoingAndSilence s)).2, idsList_reset]
    exact hN
  have key : resetOngoingAndSilence (compute_ongoing_effects s).1 =
      resetOngoingAndSilence s := by
    have h1 : resetOngoingAndSilence
        (powerPass (silencePass (resetOngoingAndSilence s))).1 =
        resetOngoingAndSilence (silencePass (resetOngoingAndSilence s)) :=
      (erase_foldl_pair powerPassCard erase_powerPassCard
        (silencePass (resetOngoingAndSilence s)).all_board_cards
        (silencePass (resetOngoingAndSilence s), []) hNY).1
    calc resetOngoingAndSilence (compute_ongoing_effects s).1
        = resetOngoingAndSilence (silencePass (resetOngoingAndSilence s)) := h1
      _ = resetOngoingAndSilence (resetOngoingAndSilence s) :=
          (erase_silencePass (resetOngoingAndSilence s)).1
      _ = resetOngoingAndSilence s := erase_idem s
  show powerPass (silencePass (resetOngoingAndSilence (compute_ongoing_effects s).1)) = _
  rw [key]
  rfl

/-- Concrete check of C7: recomputing ongoing effects twice on a
populated board equals recomputing once. -/
theorem compute_ongoing_idempotent_witness :
    sWin.idsList.Nodup ∧
      compute_ongoing_effects (compute_ongoing_effects sWin).1 = compute_ongoing_effects sWin :=
  ⟨by decide, compute_ongoing_idempotent sWin (by decide)⟩

end Fates
